import Mathlib

/-!
# Verification of the clawops decision-queue core

Shallow embedding of the Convex backend of the `clawops` repository
(`convex/cards.ts`, `convex/commands.ts`, `convex/decisions.ts`,
`convex/events.ts`, `convex/sweeper.ts`, `convex/auth.ts`) and proofs
about the claims on the card state machine, the decision lifecycle,
the event log and the sweeper.

Modelling conventions:
* A Convex mutation is a function `DB → Except Err (α × DB)`; a thrown
  JS error is `Except.error`, and since a Convex mutation is
  transactional, an erroring mutation leaves the database unchanged
  (`applyOp` below).
* Convex document ids (`_id`) are positions in the per-table list; a
  `patch` updates the row in place, an `insert` appends.
* `generateId` produces random ULID-shaped strings.  Ids generated by
  interactive mutations are modelled as arbitrary parameters of the
  operation (with an explicit freshness assumption, mirroring
  collision-freeness of random ids, where a claim needs it); the
  sweeper, which generates unboundedly many event ids in one pass,
  draws them from the counter `DB.gen`.  No modelled code path ever
  reads an event id back, so their values are irrelevant to every
  claim.
* `Date.now()` is an arbitrary `Nat` parameter `now`.
* JS `undefined` on an optional field is `Option.none`; patching a
  field to `undefined` clears it.
-/

namespace Clawops

/-- Card states, from `schema.ts` (`cardState`). -/
inductive CardState where
  | READY | RUNNING | NEEDS_DECISION | RETRY_SCHEDULED | DONE | FAILED
  deriving DecidableEq

/-- Decision states, from `schema.ts` (`decisionState`). -/
inductive DecisionState where
  | PENDING | CLAIMED | RENDERED | EXPIRED
  deriving DecidableEq

/-- Decision urgency levels, from `schema.ts` (`urgencyLevel`). -/
inductive Urgency where
  | now | today | whenever
  deriving DecidableEq

/-- Command statuses, from `schema.ts` (`commandStatus`). -/
inductive CommandStatus where
  | PENDING | RUNNING | SUCCEEDED | FAILED | CANCELED
  deriving DecidableEq

/-- RBAC roles, from `schema.ts` (`rbacRole`). -/
inductive Role where
  | owner | operator | viewer | bot
  deriving DecidableEq

/-- Event types, from `schema.ts` (`eventType`). -/
inductive EventType where
  | CommandRequested | CommandStarted | CommandSucceeded | CommandFailed
  | CommandCanceled | CommandRetryScheduled | CommandSkippedDuplicate
  | DecisionRequested | DecisionClaimed | DecisionRendered
  | DecisionRenderRejected | DecisionExpired
  | ArtifactProduced | CardCreated | CardTransitioned
  | SloBreached | DecisionDeferred | DecisionClaimExpired | ReconciliationDrift
  deriving DecidableEq

/-- Errors thrown by the modelled mutations.  Each constructor stands for
one `throw new Error(...)` site (the JS message is kept in a comment at
the throw site). -/
inductive Err where
  | Unauthenticated
  | NotAMember
  | InsufficientPermissions
  | NotFound
  | CardNotFound
  | InvalidTransition (fromState toState : CardState)
  | NotClaimable (state : DecisionState)
  | NotYourClaim
  | InvalidOptions
  | InvalidFallback
  | InvalidOption
  | SecretInPayload
  | SecretInTags
  | MultipleRows
  deriving DecidableEq

/-! ## Secret denylist (`events.ts`, `SECRET_PATTERNS` / `containsSecret`)

Each regular expression in `SECRET_PATTERNS` is of one of three shapes:
a literal prefix followed by a run of at least `n` characters of a
character class, a `Bearer` token (`Bearer\s+[...]+`), or a PEM header
with `\s+` gaps.  The matchers below implement exactly those searches
over the characters of a string. -/

/-- Character class `[A-Za-z0-9_]`. -/
def isWordChar (c : Char) : Bool := c.isAlphanum || c == '_'

/-- Character class `[A-Za-z0-9]`. -/
def isAlnumChar (c : Char) : Bool := c.isAlphanum

/-- Character class `[A-Za-z0-9\-._~+/]` of the Bearer-token pattern. -/
def isBearerChar (c : Char) : Bool :=
  c.isAlphanum || c == '-' || c == '.' || c == '_' || c == '~' || c == '+' || c == '/'

/-- Character class `[A-Za-z0-9._-]` of the Slack-token patterns. -/
def isSlackChar (c : Char) : Bool :=
  c.isAlphanum || c == '.' || c == '_' || c == '-'

/-- Character class `[0-9A-Z]` of the AWS access-key pattern. -/
def isUpperDigit (c : Char) : Bool := c.isUpper || c.isDigit

/-- Length of the maximal run of characters satisfying `cls` at the head. -/
def runLen (cls : Char → Bool) (cs : List Char) : Nat :=
  (cs.takeWhile cls).length

/-- Does `cs` start with `pref` followed by at least `n` characters of
class `cls`?  This is the anchored form of the regex `pref[cls]{n,}`. -/
def prefRunAt (pref : List Char) (cls : Char → Bool) (n : Nat) (cs : List Char) : Bool :=
  pref.isPrefixOf cs && n ≤ runLen cls (cs.drop pref.length)

/-- Search: does the anchored matcher `f` succeed at some suffix? -/
def existsPos (f : List Char → Bool) : List Char → Bool
  | [] => f []
  | c :: cs => f (c :: cs) || existsPos f cs

/-- Regex `pref[cls]{n,}` tested (unanchored) against a string. -/
def hasPrefRun (pref : String) (cls : Char → Bool) (n : Nat) (s : String) : Bool :=
  existsPos (prefRunAt pref.toList cls n) s.toList

/-- Anchored matcher for `Bearer\s+[A-Za-z0-9\-._~+/]+=*` (the trailing
`=*` matches the empty string, so it does not constrain the search). -/
def bearerAt (cs : List Char) : Bool :=
  "Bearer".toList.isPrefixOf cs &&
    (let r := cs.drop 6
     let w := runLen Char.isWhitespace r
     decide (1 ≤ w) && decide (1 ≤ runLen isBearerChar (r.drop w)))

/-- Tail `PRIVATE\s+KEY-----` of the PEM private-key pattern. -/
def pemPrivTail (cs : List Char) : Bool :=
  "PRIVATE".toList.isPrefixOf cs &&
    (let r := cs.drop 7
     let w := runLen Char.isWhitespace r
     decide (1 ≤ w) && "KEY-----".toList.isPrefixOf (r.drop w))

/-- Anchored matcher for `-----BEGIN\s+(RSA\s+)?PRIVATE\s+KEY-----`. -/
def pemPrivAt (cs : List Char) : Bool :=
  "-----BEGIN".toList.isPrefixOf cs &&
    (let r := cs.drop 10
     let w := runLen Char.isWhitespace r
     decide (1 ≤ w) &&
       (let r2 := r.drop w
        if "RSA".toList.isPrefixOf r2 then
          let r3 := r2.drop 3
          let w3 := runLen Char.isWhitespace r3
          decide (1 ≤ w3) && pemPrivTail (r3.drop w3)
        else pemPrivTail r2))

/-- Anchored matcher for `-----BEGIN\s+CERTIFICATE-----`. -/
def pemCertAt (cs : List Char) : Bool :=
  "-----BEGIN".toList.isPrefixOf cs &&
    (let r := cs.drop 10
     let w := runLen Char.isWhitespace r
     decide (1 ≤ w) && "CERTIFICATE-----".toList.isPrefixOf (r.drop w))

/-- `containsSecret` on one string: the disjunction of the fourteen
patterns of `SECRET_PATTERNS` in `events.ts`. -/
def containsSecretStr (s : String) : Bool :=
  hasPrefRun "ghp_" isWordChar 36 s ||
  hasPrefRun "gho_" isWordChar 36 s ||
  hasPrefRun "ghu_" isWordChar 36 s ||
  hasPrefRun "ghs_" isWordChar 36 s ||
  hasPrefRun "github_pat_" isWordChar 22 s ||
  hasPrefRun "sk-" isAlnumChar 20 s ||
  hasPrefRun "sk_live_" isAlnumChar 20 s ||
  hasPrefRun "sk_test_" isAlnumChar 20 s ||
  existsPos bearerAt s.toList ||
  existsPos pemPrivAt s.toList ||
  existsPos pemCertAt s.toList ||
  hasPrefRun "xoxb-" isSlackChar 6 s ||
  hasPrefRun "xoxp-" isSlackChar 6 s ||
  hasPrefRun "AKIA" isUpperDigit 16 s

/-! ## Data model (`schema.ts`)

Record fields follow the schema; fields that are stored but never read
by any modelled code path and never serialized into an event payload
(`contextSummary`, `artifactRefs`, `sourceThread`, `capabilities`,
`producer`, the reserved lease fields, ...) are omitted from the
embedding. -/

/-- One entry of a decision's `options` array. -/
structure DecisionOption where
  key : String
  label : String
  consequence : String
  deriving DecidableEq

/-- The `constraints` object of a card spec. -/
structure CardConstraints where
  concurrencyKey : Option String
  maxRetries : Option Nat
  deriving DecidableEq

/-- A card `spec` (`cardSpec` in `schema.ts`); `args` is an opaque JSON
value modelled as an optional string. -/
structure CardSpec where
  commandType : String
  args : Option String
  constraints : Option CardConstraints
  deriving DecidableEq

/-- The `constraints` object of a command spec. -/
structure CommandConstraints where
  priority : Option Int
  timeoutMs : Option Nat
  maxRetries : Option Nat
  concurrencyKey : Option String
  deriving DecidableEq

/-- A command spec (`commandSpec` in `schema.ts`); `args`/`context` are
opaque JSON values modelled as optional strings. -/
structure CommandSpec where
  commandType : String
  commandVersion : Option Nat
  args : Option String
  context : Option String
  constraints : Option CommandConstraints
  deriving DecidableEq

/-- Typed event payloads.  Each constructor mirrors the object literal
built at the corresponding `appendEvent` call site. -/
inductive Payload where
  /-- `commands.ts` `CommandRequested`: `{commandSpec, title}`. -/
  | commandRequested (commandSpec : CommandSpec) (title : String)
  /-- `cards.ts` `createCard`'s `CardCreated`: `{title, priority, spec}`. -/
  | cardCreatedFull (title : String) (priority : Int) (spec : CardSpec)
  /-- `commands.ts` `CardCreated`: `{title, priority}`. -/
  | cardCreated (title : String) (priority : Int)
  /-- `cards.ts` `CardTransitioned`: `{from, to, reason}`. -/
  | cardTransitioned (fromState toState : CardState) (reason : String)
  /-- `decisions.ts` `DecisionRequested`. -/
  | decisionRequested (title : String) (urgency : Urgency) (optionKeys : List String)
      (expiresAt : Option Nat) (fallbackOption : Option String)
  /-- `decisions.ts` `DecisionClaimed`: `{claimedBy, claimedUntil}`. -/
  | decisionClaimed (claimedBy : String) (claimedUntil : Nat)
  /-- `DecisionRendered`: `{selectedOption, renderedBy, note}`. -/
  | decisionRendered (selectedOption renderedBy : String) (note : Option String)
  /-- `DecisionRenderRejected`: `{attemptedOption, attemptedBy, currentState, reason?}`. -/
  | decisionRenderRejected (attemptedOption attemptedBy : String)
      (currentState : DecisionState) (reason : Option String)
  /-- `sweeper.ts` `DecisionExpired`: `{expiresAt, hadFallback}`. -/
  | decisionExpired (expiresAt : Option Nat) (hadFallback : Bool)
  /-- `sweeper.ts` `DecisionDeferred`. -/
  | decisionDeferred (reason : String) (originalUrgency : Urgency) (action : String)
      (newExpiresAt : Option Nat) (nowBacklog : Nat)
  /-- `sweeper.ts` `DecisionClaimExpired`: `{previousClaimedBy, claimedUntil}`. -/
  | decisionClaimExpired (previousClaimedBy : Option String) (claimedUntil : Option Nat)
  deriving DecidableEq

/-- The string leaves of a `CommandSpec`, as scanned by `containsSecret`. -/
def CommandSpec.strings (cs : CommandSpec) : List String :=
  [cs.commandType] ++ cs.args.toList ++ cs.context.toList ++
    (match cs.constraints with
     | some c => c.concurrencyKey.toList
     | none => [])

/-- The string leaves of a `CardSpec`, as scanned by `containsSecret`. -/
def CardSpec.strings (s : CardSpec) : List String :=
  [s.commandType] ++ s.args.toList ++
    (match s.constraints with
     | some c => c.concurrencyKey.toList
     | none => [])

/-- The string leaves of a payload.  `containsSecret` in `events.ts`
recursively scans every string of the JSON value; enum fields serialize
to one of a fixed set of words (`"READY"`, `"now"`, ...) none of which
can match a secret pattern, so only the genuine string fields appear. -/
def Payload.strings : Payload → List String
  | .commandRequested cs title => cs.strings ++ [title]
  | .cardCreatedFull title _ spec => [title] ++ spec.strings
  | .cardCreated title _ => [title]
  | .cardTransitioned _ _ reason => [reason]
  | .decisionRequested title _ keys _ fb => [title] ++ keys ++ fb.toList
  | .decisionClaimed claimedBy _ => [claimedBy]
  | .decisionRendered sel by_ note => [sel, by_] ++ note.toList
  | .decisionRenderRejected opt by_ _ reason => [opt, by_] ++ reason.toList
  | .decisionExpired _ _ => []
  | .decisionDeferred reason _ action _ _ => [reason, action]
  | .decisionClaimExpired prev _ => prev.toList

/-- `containsSecret(args.payload)`. -/
def containsSecret (p : Payload) : Bool :=
  p.strings.any containsSecretStr

/-- An event row (`events` table).  `producer` (a constant struct, never
read, not scanned for secrets at any modelled call site because it holds
no caller data) and `tags` (never passed by any modelled caller,
modelled as an optional string) are reduced accordingly. -/
structure Event where
  eventId : String
  tenantId : String
  projectId : String
  type : EventType
  version : Nat
  ts : Nat
  correlationId : String
  causationId : Option String
  commandId : Option String
  runId : Option String
  cardId : Option String
  decisionId : Option String
  idempotencyKey : Option String
  tags : Option String
  payload : Payload
  deriving DecidableEq

/-- A command read-model row (`commands` table). -/
structure CommandRow where
  commandId : String
  tenantId : String
  projectId : String
  status : CommandStatus
  latestRunId : Option String
  lastEventId : Option String
  updatedTs : Nat
  priority : Int
  commandSpec : CommandSpec
  deriving DecidableEq

/-- A card row (`cards` table). -/
structure Card where
  cardId : String
  tenantId : String
  projectId : String
  state : CardState
  priority : Int
  title : String
  spec : CardSpec
  createdTs : Nat
  updatedTs : Nat
  attempt : Nat
  retryAtTs : Option Nat
  deriving DecidableEq

/-- A decision row (`decisions` table). -/
structure Decision where
  decisionId : String
  tenantId : String
  projectId : String
  cardId : String
  commandId : String
  runId : String
  state : DecisionState
  urgency : Urgency
  title : String
  options : List DecisionOption
  requestedAt : Nat
  expiresAt : Option Nat
  fallbackOption : Option String
  claimedBy : Option String
  claimedUntil : Option Nat
  renderedOption : Option String
  renderedAt : Option Nat
  renderedBy : Option String
  deriving DecidableEq

/-- A membership row (`project_members` table). -/
structure Member where
  tenantId : String
  projectId : String
  userId : String
  role : Role
  deriving DecidableEq

/-- The ambient auth identity (`ctx.auth.getUserIdentity()`); only the
`subject` claim is modelled (`identity.subject ?? identity.tokenIdentifier!`). -/
structure Identity where
  subject : String
  deriving DecidableEq

/-- The `AuthContext` produced by `resolveAuth` in `auth.ts`. -/
structure AuthContext where
  userId : String
  tenantId : String
  projectId : String
  role : Role
  deriving DecidableEq

/-- The database: one list per Convex table touched by the modelled
code, plus the id-generation counter used by the sweeper. -/
structure DB where
  events : List Event
  commands : List CommandRow
  cards : List Card
  decisions : List Decision
  members : List Member
  gen : Nat
  deriving DecidableEq

/-! ## List helpers (document ids are list positions) -/

/-- Replace the row at position `i` (no-op when out of range); this is
`ctx.db.patch` for a document id obtained from a query. -/
def updateAt (l : List α) (i : Nat) (f : α → α) : List α :=
  match l, i with
  | [], _ => []
  | x :: xs, 0 => f x :: xs
  | x :: xs, n + 1 => x :: updateAt xs n f

/-- Pair every element with its position, starting at `n`. -/
def enumFromIdx (n : Nat) : List α → List (Nat × α)
  | [] => []
  | x :: xs => (n, x) :: enumFromIdx (n + 1) xs

/-- Pair every element with its position. -/
def enumIdx (l : List α) : List (Nat × α) := enumFromIdx 0 l

/-- `.withIndex(...).unique()`: `none` when no row matches, the unique
matching row (with its position) when exactly one does, and a thrown
error when several match. -/
def uniqueIdx (p : α → Bool) (l : List α) : Except Err (Option (Nat × α)) :=
  match (enumIdx l).filter (fun x => p x.2) with
  | [] => .ok none
  | [x] => .ok (some x)
  | _ :: _ :: _ => .error .MultipleRows

/-- Keep the first occurrence of each element (JS `Map` insertion
order, used for the sweeper's per-project backlog map). -/
def dedupFirstAux : List String → List String → List String
  | [], _ => []
  | x :: xs, seen => if x ∈ seen then dedupFirstAux xs seen else x :: dedupFirstAux xs (x :: seen)

/-- Keep the first occurrence of each element. -/
def dedupFirst (l : List String) : List String := dedupFirstAux l []

/-! ## Event log (`events.ts`) -/

/-- `appendEvent`: scan `payload` and `tags` for secrets; if an
`idempotencyKey` is present and an event with that key exists, return
the existing document id without inserting; otherwise insert and return
the new document id. -/
def appendEvent (e : Event) (db : DB) : Except Err (Nat × DB) :=
  -- throw "Payload appears to contain a raw secret..."
  if containsSecret e.payload then .error .SecretInPayload
  -- throw "Tags appear to contain a raw secret..."
  else if (match e.tags with | some t => containsSecretStr t | none => false) then
    .error .SecretInTags
  else
    match e.idempotencyKey with
    | some k =>
      match (enumIdx db.events).find? (fun x => x.2.idempotencyKey == some k) with
      | some (i, _) => .ok (i, db)
      | none => .ok (db.events.length, { db with events := db.events ++ [e] })
    | none => .ok (db.events.length, { db with events := db.events ++ [e] })

/-! ## Access guard (`auth.ts`) -/

/-- `resolveAuth`: resolve the ambient identity, look the caller up in
`project_members` (via `.unique()`), and build the `AuthContext`. -/
def resolveAuth (db : DB) (ident : Option Identity) (projectId : String) :
    Except Err AuthContext :=
  match ident with
  | none => .error .Unauthenticated  -- throw "Unauthenticated"
  | some id =>
    match uniqueIdx (fun m => m.userId == id.subject && m.projectId == projectId) db.members with
    | .error e => .error e
    | .ok none => .error .NotAMember  -- throw "Not a member of this project"
    | .ok (some (_, m)) =>
      .ok { userId := id.subject, tenantId := m.tenantId, projectId := m.projectId, role := m.role }

/-- `withAuth`: `resolveAuth` then the role check (`owner` always passes). -/
def requireAuth (db : DB) (ident : Option Identity) (projectId : String)
    (roles : List Role) : Except Err AuthContext :=
  match resolveAuth db ident projectId with
  | .error e => .error e
  | .ok a =>
    if a.role ≠ .owner ∧ a.role ∉ roles then
      .error .InsufficientPermissions  -- throw "Insufficient permissions: ..."
    else .ok a

/-! ## Card state machine (`cards.ts`) -/

/-- `VALID_TRANSITIONS`, the closed transition table. -/
def VALID_TRANSITIONS : CardState → List CardState
  | .READY => [.RUNNING]
  | .RUNNING => [.DONE, .NEEDS_DECISION, .FAILED, .RETRY_SCHEDULED]
  | .NEEDS_DECISION => [.RUNNING, .FAILED]
  | .RETRY_SCHEDULED => [.READY]
  | .DONE => []
  | .FAILED => []

/-- Arguments of the `transitionCard` internal mutation. -/
structure TransitionArgs where
  cardId : String
  toState : CardState
  reason : String
  correlationId : String
  commandId : Option String
  runId : Option String
  decisionId : Option String
  retryAtTs : Option Nat
  deriving DecidableEq

/-- The row patch applied by `transitionCard`: set the state, bump
`updatedTs`, increment `attempt` on entry to `RUNNING`, set `retryAtTs`
on entry to `RETRY_SCHEDULED` when the argument is present, and clear it
on exit from `RETRY_SCHEDULED` (the exit clause overwrites, as the later
JS assignment does). -/
def transitionPatch (a : TransitionArgs) (fromState : CardState) (now : Nat)
    (c : Card) : Card :=
  { c with
    state := a.toState
    updatedTs := now
    attempt := if a.toState = .RUNNING then c.attempt + 1 else c.attempt
    retryAtTs :=
      if fromState = .RETRY_SCHEDULED then none
      else if a.toState = .RETRY_SCHEDULED ∧ a.retryAtTs.isSome then a.retryAtTs
      else c.retryAtTs }

/-- The `CardTransitioned` event appended by `transitionCard`. -/
def transitionEvent (a : TransitionArgs) (card : Card) (fromState : CardState)
    (eventId : String) (now : Nat) : Event :=
  { eventId := eventId, tenantId := card.tenantId, projectId := card.projectId
    type := .CardTransitioned, version := 1, ts := now
    correlationId := a.correlationId, causationId := none
    commandId := a.commandId, runId := a.runId, cardId := some card.cardId
    decisionId := a.decisionId, idempotencyKey := none, tags := none
    payload := .cardTransitioned fromState a.toState a.reason }

/-- `transitionCard`: fetch the card (`.unique()`), validate the edge,
patch the row, append `CardTransitioned`. -/
def transitionCard (a : TransitionArgs) (eventId : String) (now : Nat) (db : DB) :
    Except Err ((CardState × CardState) × DB) :=
  match uniqueIdx (fun c => c.cardId == a.cardId) db.cards with
  | .error e => .error e
  | .ok none => .error .CardNotFound  -- throw "Card not found: ..."
  | .ok (some (i, card)) =>
    if a.toState ∉ VALID_TRANSITIONS card.state then
      -- throw "Invalid card transition: from → to"
      .error (.InvalidTransition card.state a.toState)
    else
      match appendEvent (transitionEvent a card card.state eventId now)
          { db with cards := updateAt db.cards i (transitionPatch a card.state now) } with
      | .error e => .error e
      | .ok (_, db2) => .ok ((card.state, a.toState), db2)

/-- Arguments of the public `createCard` mutation.  Note that the
mutation takes `tenantId` and `projectId` directly from the caller and
is not wrapped in `withAuth`. -/
structure CreateCardArgs where
  tenantId : String
  projectId : String
  commandId : String
  correlationId : String
  title : String
  priority : Int
  spec : CardSpec
  deriving DecidableEq

/-- The `CardCreated` event appended by `createCard`. -/
def createCardEvent (a : CreateCardArgs) (cardId eventId : String) (now : Nat) : Event :=
  { eventId := eventId, tenantId := a.tenantId, projectId := a.projectId
    type := .CardCreated, version := 1, ts := now
    correlationId := a.correlationId, causationId := none
    commandId := some a.commandId, runId := none, cardId := some cardId
    decisionId := none, idempotencyKey := none, tags := none
    payload := .cardCreatedFull a.title a.priority a.spec }

/-- The card row inserted by `createCard`. -/
def createCardRow (a : CreateCardArgs) (cardId : String) (now : Nat) : Card :=
  { cardId := cardId, tenantId := a.tenantId, projectId := a.projectId
    state := .READY, priority := a.priority, title := a.title, spec := a.spec
    createdTs := now, updatedTs := now, attempt := 0, retryAtTs := none }

/-- `createCard`: insert a card in `READY` with `attempt := 0` and
append `CardCreated`.  No authentication or role check is performed by
the source mutation, so the embedding takes no identity at all. -/
def createCard (a : CreateCardArgs) (cardId eventId : String) (now : Nat) (db : DB) :
    Except Err (String × DB) :=
  match appendEvent (createCardEvent a cardId eventId now)
      { db with cards := db.cards ++ [createCardRow a cardId now] } with
  | .error e => .error e
  | .ok (_, db2) => .ok (cardId, db2)

/-! ## Command admission (`commands.ts`) -/

/-- Arguments of `requestCommand` (`capabilities` is stored but never
read, and omitted). -/
structure RequestCommandArgs where
  projectId : String
  correlationId : String
  title : String
  commandSpec : CommandSpec
  idempotencyKey : Option String
  deriving DecidableEq

/-- `spec.constraints.priority ?? 50`. -/
def specPriority (cs : CommandSpec) : Int :=
  match cs.constraints with
  | some c => c.priority.getD 50
  | none => 50

/-- The card `spec` built from the command spec in `requestCommand`. -/
def cardSpecOfCommandSpec (cs : CommandSpec) : CardSpec :=
  { commandType := cs.commandType
    args := cs.args
    constraints :=
      match cs.constraints with
      | some c => some { concurrencyKey := c.concurrencyKey, maxRetries := c.maxRetries }
      | none => none }

/-- The `CommandRequested` event appended by `requestCommand` (carries
the idempotency key). -/
def commandRequestedEvent (tenantId projectId : String) (a : RequestCommandArgs)
    (commandId cardId eventId1 : String) (now : Nat) : Event :=
  { eventId := eventId1, tenantId := tenantId, projectId := projectId
    type := .CommandRequested, version := 1, ts := now
    correlationId := a.correlationId, causationId := none
    commandId := some commandId, runId := none, cardId := some cardId
    decisionId := none, idempotencyKey := a.idempotencyKey, tags := none
    payload := .commandRequested a.commandSpec a.title }

/-- The command read-model row inserted by `requestCommand`. -/
def commandRow (tenantId projectId : String) (a : RequestCommandArgs)
    (commandId eventId1 : String) (now : Nat) : CommandRow :=
  { commandId := commandId, tenantId := tenantId, projectId := projectId
    status := .PENDING, latestRunId := none, lastEventId := some eventId1
    updatedTs := now, priority := specPriority a.commandSpec, commandSpec := a.commandSpec }

/-- The card row inserted by `requestCommand`. -/
def commandCardRow (tenantId projectId : String) (a : RequestCommandArgs)
    (cardId : String) (now : Nat) : Card :=
  { cardId := cardId, tenantId := tenantId, projectId := projectId
    state := .READY, priority := specPriority a.commandSpec, title := a.title
    spec := cardSpecOfCommandSpec a.commandSpec
    createdTs := now, updatedTs := now, attempt := 0, retryAtTs := none }

/-- The `CardCreated` event appended by `requestCommand` (no
idempotency key). -/
def commandCardCreatedEvent (tenantId projectId : String) (a : RequestCommandArgs)
    (commandId cardId eventId2 : String) (now : Nat) : Event :=
  { eventId := eventId2, tenantId := tenantId, projectId := projectId
    type := .CardCreated, version := 1, ts := now
    correlationId := a.correlationId, causationId := none
    commandId := some commandId, runId := none, cardId := some cardId
    decisionId := none, idempotencyKey := none, tags := none
    payload := .cardCreated a.title (specPriority a.commandSpec) }

/-- Body of `requestCommand` after `withAuth` (also the body of the
HTTP-adapter variant `_httpRequestCommand`, which takes `tenantId` and
`projectId` directly): append `CommandRequested` (idempotency-keyed),
insert the command row, insert the card row in `READY`, append
`CardCreated`.  The return value of the first `appendEvent` is not
used by the source. -/
def requestCommandCore (tenantId projectId : String) (a : RequestCommandArgs)
    (commandId cardId eventId1 eventId2 : String) (now : Nat) (db : DB) :
    Except Err ((String × String) × DB) :=
  match appendEvent (commandRequestedEvent tenantId projectId a commandId cardId eventId1 now) db with
  | .error e => .error e
  | .ok (_, db1) =>
    match appendEvent (commandCardCreatedEvent tenantId projectId a commandId cardId eventId2 now)
        { db1 with
          commands := db1.commands ++ [commandRow tenantId projectId a commandId eventId1 now]
          cards := db1.cards ++ [commandCardRow tenantId projectId a cardId now] } with
    | .error e => .error e
    | .ok (_, db4) => .ok ((commandId, cardId), db4)

/-- `requestCommand`, roles `operator|bot|owner`. -/
def requestCommand (ident : Option Identity) (a : RequestCommandArgs)
    (commandId cardId eventId1 eventId2 : String) (now : Nat) (db : DB) :
    Except Err ((String × String) × DB) :=
  match requireAuth db ident a.projectId [.operator, .bot, .owner] with
  | .error e => .error e
  | .ok auth => requestCommandCore auth.tenantId auth.projectId a commandId cardId eventId1 eventId2 now db

/-! ## Decision lifecycle (`decisions.ts`) -/

/-- `DECISION_CLAIM_MS`: default claim duration, 5 minutes. -/
def DECISION_CLAIM_MS : Nat := 5 * 60 * 1000

/-- Arguments of `requestDecision` (pass-through fields that are stored
but never read are omitted, see the data-model note). -/
structure RequestDecisionArgs where
  projectId : String
  cardId : String
  commandId : String
  runId : String
  correlationId : String
  causationId : Option String
  urgency : Urgency
  title : String
  options : List DecisionOption
  expiresAt : Option Nat
  fallbackOption : Option String
  deriving DecidableEq

/-- The decision row inserted by `requestDecision`. -/
def requestDecisionRow (tenantId projectId : String) (a : RequestDecisionArgs)
    (decisionId : String) (now : Nat) : Decision :=
  { decisionId := decisionId, tenantId := tenantId, projectId := projectId
    cardId := a.cardId, commandId := a.commandId, runId := a.runId
    state := .PENDING, urgency := a.urgency, title := a.title
    options := a.options, requestedAt := now, expiresAt := a.expiresAt
    fallbackOption := a.fallbackOption, claimedBy := none, claimedUntil := none
    renderedOption := none, renderedAt := none, renderedBy := none }

/-- The `DecisionRequested` event appended by `requestDecision`. -/
def decisionRequestedEvent (tenantId projectId : String) (a : RequestDecisionArgs)
    (decisionId eventId : String) (now : Nat) : Event :=
  { eventId := eventId, tenantId := tenantId, projectId := projectId
    type := .DecisionRequested, version := 1, ts := now
    correlationId := a.correlationId, causationId := a.causationId
    commandId := some a.commandId, runId := some a.runId, cardId := some a.cardId
    decisionId := some decisionId, idempotencyKey := none, tags := none
    payload := .decisionRequested a.title a.urgency (a.options.map (·.key))
      a.expiresAt a.fallbackOption }

/-- The insert-and-append tail of `requestDecision`, shared by both
validation branches. -/
def requestDecisionInsert (tenantId projectId : String) (a : RequestDecisionArgs)
    (decisionId eventId : String) (now : Nat) (db : DB) :
    Except Err (String × DB) :=
  match appendEvent (decisionRequestedEvent tenantId projectId a decisionId eventId now)
      { db with decisions := db.decisions ++
        [requestDecisionRow tenantId projectId a decisionId now] } with
  | .error e => .error e
  | .ok (_, db2) => .ok (decisionId, db2)

/-- Body of `requestDecision` after `withAuth` (also the body of the
HTTP-adapter variant `_httpRequestDecision`): validate the options and
the fallback, insert the decision in `PENDING`, append `DecisionRequested`. -/
def requestDecisionCore (tenantId projectId : String) (a : RequestDecisionArgs)
    (decisionId eventId : String) (now : Nat) (db : DB) :
    Except Err (String × DB) :=
  -- throw "Decision must have at least one option"
  if a.options.length = 0 then .error .InvalidOptions
  else
    match a.fallbackOption with
    | some fb =>
      if ¬ a.options.any (fun o => o.key == fb) then
        .error .InvalidFallback  -- throw "fallbackOption ... must match an option key"
      else requestDecisionInsert tenantId projectId a decisionId eventId now db
    | none => requestDecisionInsert tenantId projectId a decisionId eventId now db

/-- `requestDecision`, roles `bot|owner`. -/
def requestDecision (ident : Option Identity) (a : RequestDecisionArgs)
    (decisionId eventId : String) (now : Nat) (db : DB) :
    Except Err (String × DB) :=
  match requireAuth db ident a.projectId [.bot, .owner] with
  | .error e => .error e
  | .ok auth => requestDecisionCore auth.tenantId auth.projectId a decisionId eventId now db

/-- Result of `claimDecision`. -/
inductive ClaimResult where
  | claimed (claimedUntil : Nat)
  | alreadyClaimed (claimedBy : Option String) (claimedUntil : Option Nat)
  deriving DecidableEq

/-- The active-foreign-claim guard of `claimDecision`:
`claimedBy !== undefined && claimedBy !== userId && claimedUntil !== undefined && claimedUntil > now`. -/
def claimGuard (d : Decision) (userId : String) (now : Nat) : Bool :=
  match d.claimedBy, d.claimedUntil with
  | some cb, some cu => cb ≠ userId && now < cu
  | some _, none => false
  | none, _ => false

/-- The row patch of `claimDecision`. -/
def claimPatch (userId : String) (claimedUntil : Nat) (cur : Decision) : Decision :=
  { cur with state := .CLAIMED, claimedBy := some userId, claimedUntil := some claimedUntil }

/-- The row patch of `renewDecisionClaim`. -/
def renewPatch (claimedUntil : Nat) (cur : Decision) : Decision :=
  { cur with claimedUntil := some claimedUntil }

/-- The row patch of the render paths (`renderDecision` and the
sweeper's expiry fallback use the same fields: set the render fields,
clear the claim fields). -/
def renderPatch (optionKey userId : String) (now : Nat) (cur : Decision) : Decision :=
  { cur with state := .RENDERED, renderedOption := some optionKey
             renderedBy := some userId, renderedAt := some now
             claimedBy := none, claimedUntil := none }

/-- The row patch of the sweeper's no-fallback expiry. -/
def expirePatch (cur : Decision) : Decision :=
  { cur with state := .EXPIRED, claimedBy := none, claimedUntil := none }

/-- The row patch of the sweeper's claim reclamation. -/
def reclaimPatch (cur : Decision) : Decision :=
  { cur with state := .PENDING, claimedBy := none, claimedUntil := none }

/-- The row patch of the load-shedding fallback auto-resolve (unlike
the expiry path it does not clear the claim fields). -/
def shedRenderPatch (fb : String) (now : Nat) (cur : Decision) : Decision :=
  { cur with state := .RENDERED, renderedOption := some fb
             renderedBy := some "system:sweeper", renderedAt := some now }

/-- The row patch of the load-shedding expiry extension. -/
def extendPatch (newExpiresAt : Nat) (cur : Decision) : Decision :=
  { cur with expiresAt := some newExpiresAt }

/-- The `DecisionClaimed` event appended by `claimDecision`. -/
def decisionClaimedEvent (auth : AuthContext) (d : Decision) (eventId : String)
    (now : Nat) : Event :=
  { eventId := eventId, tenantId := auth.tenantId, projectId := auth.projectId
    type := .DecisionClaimed, version := 1, ts := now
    correlationId := d.commandId, causationId := none
    commandId := some d.commandId, runId := some d.runId, cardId := some d.cardId
    decisionId := some d.decisionId, idempotencyKey := none, tags := none
    payload := .decisionClaimed auth.userId (now + DECISION_CLAIM_MS) }

/-- `claimDecision`, roles `operator|owner`: load the decision
(`.unique()`), reject cross-project as not-found, reject non-claimable
states, return `already_claimed` on an active foreign claim, otherwise
set the claim and append `DecisionClaimed`. -/
def claimDecision (ident : Option Identity) (projectId decisionId : String)
    (eventId : String) (now : Nat) (db : DB) :
    Except Err (ClaimResult × DB) :=
  match requireAuth db ident projectId [.operator, .owner] with
  | .error e => .error e
  | .ok auth =>
    match uniqueIdx (fun d => d.decisionId == decisionId) db.decisions with
    | .error e => .error e
    | .ok none => .error .NotFound  -- throw "Decision not found"
    | .ok (some (i, d)) =>
      if d.projectId ≠ auth.projectId then .error .NotFound  -- throw "Decision not found"
      else if d.state ≠ .PENDING ∧ d.state ≠ .CLAIMED then
        .error (.NotClaimable d.state)  -- throw "Cannot claim decision in state ..."
      else if claimGuard d auth.userId now then
        .ok (.alreadyClaimed d.claimedBy d.claimedUntil, db)
      else
        match appendEvent (decisionClaimedEvent auth d eventId now)
            { db with decisions :=
                updateAt db.decisions i (claimPatch auth.userId (now + DECISION_CLAIM_MS)) } with
        | .error e => .error e
        | .ok (_, db2) => .ok (.claimed (now + DECISION_CLAIM_MS), db2)

/-- `renewDecisionClaim`, roles `operator|owner`: requires the caller to
hold the claim; extends `claimedUntil`; emits no event. -/
def renewDecisionClaim (ident : Option Identity) (projectId decisionId : String)
    (now : Nat) (db : DB) : Except Err (Nat × DB) :=
  match requireAuth db ident projectId [.operator, .owner] with
  | .error e => .error e
  | .ok auth =>
    match uniqueIdx (fun d => d.decisionId == decisionId) db.decisions with
    | .error e => .error e
    | .ok none => .error .NotFound  -- throw "Decision not found"
    | .ok (some (i, d)) =>
      if d.projectId ≠ auth.projectId then .error .NotFound  -- throw "Decision not found"
      else if d.state ≠ .CLAIMED ∨ d.claimedBy ≠ some auth.userId then
        .error .NotYourClaim  -- throw "Cannot renew: decision is not claimed by you"
      else
        .ok (now + DECISION_CLAIM_MS,
          { db with decisions :=
              updateAt db.decisions i (renewPatch (now + DECISION_CLAIM_MS)) })

/-- Result of `renderDecision`. -/
inductive RenderResult where
  | rendered (optionKey : String)
  | rejected (reason : String)
  deriving DecidableEq

/-- JS string interpolation of a decision state in the rejection reason. -/
def stateName : DecisionState → String
  | .PENDING => "PENDING"
  | .CLAIMED => "CLAIMED"
  | .RENDERED => "RENDERED"
  | .EXPIRED => "EXPIRED"

/-- The `DecisionRenderRejected` event appended by `renderDecision`
(with the optional `reason` field of the claimed-by-another branch). -/
def renderRejectedEvent (auth : AuthContext) (d : Decision) (optionKey : String)
    (reason : Option String) (eventId : String) (now : Nat) : Event :=
  { eventId := eventId, tenantId := auth.tenantId, projectId := auth.projectId
    type := .DecisionRenderRejected, version := 1, ts := now
    correlationId := d.commandId, causationId := none
    commandId := some d.commandId, runId := some d.runId, cardId := some d.cardId
    decisionId := some d.decisionId, idempotencyKey := none, tags := none
    payload := .decisionRenderRejected optionKey auth.userId d.state reason }

/-- The `DecisionRendered` event appended by `renderDecision`. -/
def decisionRenderedEvent (auth : AuthContext) (d : Decision) (optionKey : String)
    (note : Option String) (eventId : String) (now : Nat) : Event :=
  { eventId := eventId, tenantId := auth.tenantId, projectId := auth.projectId
    type := .DecisionRendered, version := 1, ts := now
    correlationId := d.commandId, causationId := none
    commandId := some d.commandId, runId := some d.runId, cardId := some d.cardId
    decisionId := some d.decisionId, idempotencyKey := none, tags := none
    payload := .decisionRendered optionKey auth.userId note }

/-- `renderDecision`, roles `operator|owner`.  The compare-and-set
point: a decision not in `PENDING`/`CLAIMED` yields a recorded
rejection (returned, not thrown, so the event commits), as does a
render attempt by a non-claimant on a `CLAIMED` decision; an unknown
option key throws; otherwise the row is atomically moved to `RENDERED`
(claim fields cleared) and `DecisionRendered` is appended. -/
def renderDecision (ident : Option Identity) (projectId decisionId optionKey : String)
    (note : Option String) (eventId : String) (now : Nat) (db : DB) :
    Except Err (RenderResult × DB) :=
  match requireAuth db ident projectId [.operator, .owner] with
  | .error e => .error e
  | .ok auth =>
    match uniqueIdx (fun d => d.decisionId == decisionId) db.decisions with
    | .error e => .error e
    | .ok none => .error .NotFound  -- throw "Decision not found"
    | .ok (some (i, d)) =>
      if d.projectId ≠ auth.projectId then .error .NotFound  -- throw "Decision not found"
      else if d.state ≠ .PENDING ∧ d.state ≠ .CLAIMED then
        match appendEvent (renderRejectedEvent auth d optionKey none eventId now) db with
        | .error e => .error e
        | .ok (_, db1) =>
          .ok (.rejected ("Decision already resolved (state: " ++ stateName d.state ++ ")"), db1)
      else if d.state = .CLAIMED ∧ d.claimedBy.isSome ∧ d.claimedBy ≠ some auth.userId then
        match appendEvent
            (renderRejectedEvent auth d optionKey (some "claimed_by_another") eventId now) db with
        | .error e => .error e
        | .ok (_, db1) => .ok (.rejected "Decision is claimed by another operator", db1)
      else if ¬ d.options.any (fun o => o.key == optionKey) then
        .error .InvalidOption  -- throw "Invalid option key ..."
      else
        match appendEvent (decisionRenderedEvent auth d optionKey note eventId now)
            { db with decisions :=
                updateAt db.decisions i (renderPatch optionKey auth.userId now) } with
        | .error e => .error e
        | .ok (_, db2) => .ok (.rendered optionKey, db2)

/-! ## Sweeper (`sweeper.ts`)

The four phases run in order inside one `internalMutation`; no phase and
no per-item step catches errors, so a thrown error aborts the whole
sweep transaction. -/

/-- `DEFER_EXTENSION_MS`: 24 hours. -/
def DEFER_EXTENSION_MS : Nat := 24 * 60 * 60 * 1000

/-- `NOW_BACKLOG_DEFER_THRESHOLD`. -/
def NOW_BACKLOG_DEFER_THRESHOLD : Nat := 2

/-- `NOW_BACKLOG_ALERT_THRESHOLD` (only gates a `console.error`, which
has no modelled effect). -/
def NOW_BACKLOG_ALERT_THRESHOLD : Nat := 5

/-- Draw a fresh event id for a sweeper-side `generateId("evt")`. -/
def freshEvt (db : DB) : String × DB :=
  ("evt_" ++ Nat.repr db.gen, { db with gen := db.gen + 1 })

/-- Run an effectful step over each element of a snapshot, stopping at
the first error (a JS `for ... of` loop of `await`ed mutations). -/
def eachE (F : α → DB → Except Err DB) : List α → DB → Except Err DB
  | [], db => .ok db
  | x :: xs, db =>
    match F x db with
    | .error e => .error e
    | .ok db1 => eachE F xs db1

/-- `state ∈ {PENDING, CLAIMED}`. -/
def isOpen (d : Decision) : Bool := d.state == .PENDING || d.state == .CLAIMED

/-- `expiresAt !== undefined && expiresAt <= now`. -/
def isExpiredAt (now : Nat) (d : Decision) : Bool :=
  match d.expiresAt with
  | some e => e ≤ now
  | none => false

/-- Phase 1 per-item step: transition a `RETRY_SCHEDULED` card whose
timer has fired back to `READY`. -/
def releaseOne (now : Nat) (c : Card) (db : DB) : Except Err DB :=
  if (match c.retryAtTs with | some t => decide (t ≤ now) | none => false) then
    let (evtId, db1) := freshEvt db
    match transitionCard
        { cardId := c.cardId, toState := .READY, reason := "retry timer fired"
          correlationId := c.cardId, commandId := none, runId := none
          decisionId := none, retryAtTs := none } evtId now db1 with
    | .error e => .error e
    | .ok (_, db2) => .ok db2
  else .ok db

/-- Phase 1, `releaseRetries`: snapshot of the `RETRY_SCHEDULED` cards,
then the per-item step. -/
def releaseRetries (now : Nat) (db : DB) : Except Err DB :=
  eachE (releaseOne now) (db.cards.filter (fun c => c.state == .RETRY_SCHEDULED)) db

/-- Shared tail of the expiry and load-shedding fallback paths: look the
linked card up and, if it is in `NEEDS_DECISION`, transition it. -/
def transitionLinkedCard (d : Decision) (toState : CardState) (reason : String)
    (now : Nat) (db : DB) : Except Err DB :=
  match uniqueIdx (fun c => c.cardId == d.cardId) db.cards with
  | .error e => .error e
  | .ok (some (_, card)) =>
    if card.state = .NEEDS_DECISION then
      let (evtId, db1) := freshEvt db
      match transitionCard
          { cardId := d.cardId, toState := toState, reason := reason
            correlationId := d.commandId, commandId := some d.commandId
            runId := some d.runId, decisionId := some d.decisionId
            retryAtTs := none } evtId now db1 with
      | .error e => .error e
      | .ok (_, db2) => .ok db2
    else .ok db
  | .ok none => .ok db

/-- The `DecisionExpired` event appended by `expireDecisions` (all
sweeper event fields come from the snapshot row `d`). -/
def decisionExpiredEvent (d : Decision) (eventId : String) (now : Nat) : Event :=
  { eventId := eventId, tenantId := d.tenantId, projectId := d.projectId
    type := .DecisionExpired, version := 1, ts := now
    correlationId := d.commandId, causationId := none
    commandId := some d.commandId, runId := some d.runId, cardId := some d.cardId
    decisionId := some d.decisionId, idempotencyKey := none, tags := none
    payload := .decisionExpired d.expiresAt d.fallbackOption.isSome }

/-- The `DecisionRendered` event appended by the sweeper's fallback
paths (expiry and load shedding differ only in the note). -/
def sweeperRenderedEvent (d : Decision) (fb note : String) (eventId : String)
    (now : Nat) : Event :=
  { eventId := eventId, tenantId := d.tenantId, projectId := d.projectId
    type := .DecisionRendered, version := 1, ts := now
    correlationId := d.commandId, causationId := none
    commandId := some d.commandId, runId := some d.runId, cardId := some d.cardId
    decisionId := some d.decisionId, idempotencyKey := none, tags := none
    payload := .decisionRendered fb "system:sweeper" (some note) }

/-- Phase 2 per-item step, for a snapshot row `(i, d)` that was open and
expired at phase entry: append `DecisionExpired`, then either
auto-resolve via the fallback (patch to `RENDERED`, append
`DecisionRendered`, transition a `NEEDS_DECISION` card to `RUNNING`) or
mark the decision `EXPIRED` and fail a `NEEDS_DECISION` card. -/
def expireOne (now : Nat) (x : Nat × Decision) (db : DB) : Except Err DB :=
  let i := x.1
  let d := x.2
  let (e1, db0) := freshEvt db
  match appendEvent (decisionExpiredEvent d e1 now) db0 with
  | .error e => .error e
  | .ok (_, db1) =>
    match d.fallbackOption with
    | some fb =>
      let db2 :=
        { db1 with decisions := updateAt db1.decisions i (renderPatch fb "system:sweeper" now) }
      let (e2, db3) := freshEvt db2
      match appendEvent (sweeperRenderedEvent d fb
          "auto-resolved via fallback on expiration" e2 now) db3 with
      | .error e => .error e
      | .ok (_, db4) =>
        transitionLinkedCard d .RUNNING "decision expired, fallback applied" now db4
    | none =>
      let db2 := { db1 with decisions := updateAt db1.decisions i expirePatch }
      transitionLinkedCard d .FAILED "decision expired, no fallback" now db2

/-- Phase 2 snapshot: the open decisions (`collect`) filtered down to
those whose `expiresAt` has passed. -/
def expireSnapshot (now : Nat) (db : DB) : List (Nat × Decision) :=
  ((enumIdx db.decisions).filter (fun x => isOpen x.2)).filter
    (fun x => isExpiredAt now x.2)

/-- Phase 2, `expireDecisions`. -/
def expireDecisions (now : Nat) (db : DB) : Except Err DB :=
  eachE (expireOne now) (expireSnapshot now db) db

/-- The `DecisionClaimExpired` event appended by `reclaimExpiredClaims`
(recording the snapshot's `claimedBy`/`claimedUntil`). -/
def claimExpiredEvent (d : Decision) (eventId : String) (now : Nat) : Event :=
  { eventId := eventId, tenantId := d.tenantId, projectId := d.projectId
    type := .DecisionClaimExpired, version := 1, ts := now
    correlationId := d.commandId, causationId := none
    commandId := some d.commandId, runId := some d.runId, cardId := some d.cardId
    decisionId := some d.decisionId, idempotencyKey := none, tags := none
    payload := .decisionClaimExpired d.claimedBy d.claimedUntil }

/-- Phase 3 per-item step: reset an expired claim to `PENDING` and
append `DecisionClaimExpired`. -/
def reclaimOne (now : Nat) (x : Nat × Decision) (db : DB) : Except Err DB :=
  let i := x.1
  let d := x.2
  let db1 := { db with decisions := updateAt db.decisions i reclaimPatch }
  let (e1, db2) := freshEvt db1
  match appendEvent (claimExpiredEvent d e1 now) db2 with
  | .error e => .error e
  | .ok (_, db3) => .ok db3

/-- Phase 3 snapshot: `CLAIMED` decisions whose `claimedUntil < now`. -/
def reclaimSnapshot (now : Nat) (db : DB) : List (Nat × Decision) :=
  ((enumIdx db.decisions).filter (fun x => x.2.state == .CLAIMED)).filter
    (fun x => match x.2.claimedUntil with | some t => t < now | none => false)

/-- Phase 3, `reclaimExpiredClaims`. -/
def reclaimExpiredClaims (now : Nat) (db : DB) : Except Err DB :=
  eachE (reclaimOne now) (reclaimSnapshot now db) db

/-- The `DecisionDeferred` event appended by `loadShed` with the given
`action` (`newExpiresAt` is present only on the extension path). -/
def deferredEvent (d : Decision) (action : String) (newExpiresAt : Option Nat)
    (count : Nat) (eventId : String) (now : Nat) : Event :=
  { eventId := eventId, tenantId := d.tenantId, projectId := d.projectId
    type := .DecisionDeferred, version := 1, ts := now
    correlationId := d.commandId, causationId := none
    commandId := some d.commandId, runId := some d.runId, cardId := some d.cardId
    decisionId := some d.decisionId, idempotencyKey := none, tags := none
    payload := .decisionDeferred "load_shedding" .whenever action newExpiresAt count }

/-- Phase 4 per-item step over a project's `PENDING`/`whenever`
decisions: auto-resolve via the fallback (emitting `DecisionDeferred`
then `DecisionRendered`, and transitioning a `NEEDS_DECISION` card to
`RUNNING`), or extend `expiresAt := (expiresAt ?? now) + 24h` with a
`DecisionDeferred{extended_expiry}`. -/
def shedOne (now : Nat) (count : Nat) (x : Nat × Decision) (db : DB) : Except Err DB :=
  let i := x.1
  let d := x.2
  match d.fallbackOption with
  | some fb =>
    let db1 := { db with decisions := updateAt db.decisions i (shedRenderPatch fb now) }
    let (e1, db2) := freshEvt db1
    match appendEvent (deferredEvent d "auto_resolved_with_fallback" none count e1 now) db2 with
    | .error e => .error e
    | .ok (_, db3) =>
      let (e2, db4) := freshEvt db3
      match appendEvent (sweeperRenderedEvent d fb
          "auto-resolved via load shedding" e2 now) db4 with
      | .error e => .error e
      | .ok (_, db5) =>
        transitionLinkedCard d .RUNNING "decision deferred, fallback applied" now db5
  | none =>
    let newExpiresAt := (d.expiresAt.getD now) + DEFER_EXTENSION_MS
    let db1 := { db with decisions := updateAt db.decisions i (extendPatch newExpiresAt) }
    let (e1, db2) := freshEvt db1
    match appendEvent (deferredEvent d "extended_expiry" (some newExpiresAt) count e1 now) db2 with
    | .error e => .error e
    | .ok (_, db3) => .ok db3

/-- Phase 4 snapshot for one project: its `PENDING` decisions of
urgency `whenever` (queried when the project is processed). -/
def wheneverSnapshot (p : String) (db : DB) : List (Nat × Decision) :=
  (enumIdx db.decisions).filter (fun x =>
    x.2.projectId == p && x.2.state == .PENDING && x.2.urgency == .whenever)

/-- Per-project step of phase 4: defer the project's `whenever`
decisions when its `now`-backlog count (from the phase-entry snapshot
`pn`) exceeds the defer threshold.  (The emergency `console.error` at
count > 5 has no modelled effect.) -/
def shedProject (now : Nat) (pn : List Decision) (p : String) (db : DB) : Except Err DB :=
  let count := (pn.filter (fun d => d.projectId == p)).length
  if NOW_BACKLOG_DEFER_THRESHOLD < count then
    eachE (shedOne now count) (wheneverSnapshot p db) db
  else .ok db

/-- Phase-entry snapshot for phase 4: open decisions of urgency `now`. -/
def pendingNowSnapshot (db : DB) : List Decision :=
  db.decisions.filter (fun d => isOpen d && d.urgency == .now)

/-- Phase 4, `loadShed`: group the `now` backlog by project (a JS `Map`
keeps first-insertion order) and process each project. -/
def loadShed (now : Nat) (db : DB) : Except Err DB :=
  let pn := pendingNowSnapshot db
  eachE (fun p => shedProject now pn p) (dedupFirst (pn.map (·.projectId))) db

/-- `sweep`: the four phases in order; any uncaught error aborts the
whole pass. -/
def sweep (now : Nat) (db : DB) : Except Err DB :=
  match releaseRetries now db with
  | .error e => .error e
  | .ok db1 =>
    match expireDecisions now db1 with
    | .error e => .error e
    | .ok db2 =>
      match reclaimExpiredClaims now db2 with
      | .error e => .error e
      | .ok db3 => loadShed now db3

/-! ## The operation alphabet

One constructor per modelled mutation, carrying the caller identity,
the mutation arguments, the random ids that `generateId` produced for
the call, and the value of `Date.now()`.  `emitEvent` — a raw-append
escape hatch for bots — is not part of the alphabet the claims quantify
over; the artifact registry and the membership mutations never touch
events, cards or decisions and are likewise out of alphabet. -/

inductive Op where
  | requestCommand (ident : Option Identity) (a : RequestCommandArgs)
      (commandId cardId eventId1 eventId2 : String) (now : Nat)
  | httpRequestCommand (tenantId : String) (a : RequestCommandArgs)
      (commandId cardId eventId1 eventId2 : String) (now : Nat)
  | createCard (a : CreateCardArgs) (cardId eventId : String) (now : Nat)
  | transitionCard (a : TransitionArgs) (eventId : String) (now : Nat)
  | requestDecision (ident : Option Identity) (a : RequestDecisionArgs)
      (decisionId eventId : String) (now : Nat)
  | httpRequestDecision (tenantId : String) (a : RequestDecisionArgs)
      (decisionId eventId : String) (now : Nat)
  | claimDecision (ident : Option Identity) (projectId decisionId eventId : String) (now : Nat)
  | renewClaim (ident : Option Identity) (projectId decisionId : String) (now : Nat)
  | renderDecision (ident : Option Identity) (projectId decisionId optionKey : String)
      (note : Option String) (eventId : String) (now : Nat)
  | sweep (now : Nat)

/-- Run one operation, discarding its return value. -/
def runOp : Op → DB → Except Err DB
  | .requestCommand ident a cid kid e1 e2 now, db =>
    (requestCommand ident a cid kid e1 e2 now db).map (·.2)
  | .httpRequestCommand tenantId a cid kid e1 e2 now, db =>
    (requestCommandCore tenantId a.projectId a cid kid e1 e2 now db).map (·.2)
  | .createCard a cid e now, db => (createCard a cid e now db).map (·.2)
  | .transitionCard a e now, db => (transitionCard a e now db).map (·.2)
  | .requestDecision ident a did e now, db =>
    (requestDecision ident a did e now db).map (·.2)
  | .httpRequestDecision tenantId a did e now, db =>
    (requestDecisionCore tenantId a.projectId a did e now db).map (·.2)
  | .claimDecision ident pid did e now, db =>
    (claimDecision ident pid did e now db).map (·.2)
  | .renewClaim ident pid did now, db =>
    (renewDecisionClaim ident pid did now db).map (·.2)
  | .renderDecision ident pid did opt note e now, db =>
    (renderDecision ident pid did opt note e now db).map (·.2)
  | .sweep now, db => sweep now db

/-- A Convex mutation is transactional: a thrown error rolls every
write of the call back, so an erroring operation leaves the database
unchanged. -/
def applyOp (op : Op) (db : DB) : DB :=
  match runOp op db with
  | .ok db1 => db1
  | .error _ => db

/-- Run a sequence of operations. -/
def runTrace (ops : List Op) (db : DB) : DB :=
  ops.foldl (fun db op => applyOp op db) db

/-- Freshness of the decision id generated for a `requestDecision`
call: random ULID-shaped ids do not collide with existing rows. -/
def freshOK (db : DB) : Op → Bool
  | .requestDecision _ _ did _ _ => db.decisions.all (fun d => d.decisionId ≠ did)
  | .httpRequestDecision _ _ did _ _ => db.decisions.all (fun d => d.decisionId ≠ did)
  | _ => true

/-- A trace whose `requestDecision` calls all use fresh decision ids. -/
def freshTrace : List Op → DB → Bool
  | [], _ => true
  | op :: ops, db => freshOK db op && freshTrace ops (applyOp op db)

/-- A `transitionCard` call that enters `RETRY_SCHEDULED` supplies the
`retryAtTs` argument (the side condition of the amended claim C9). -/
def retryOK : Op → Bool
  | .transitionCard a _ _ => !(a.toState == .RETRY_SCHEDULED) || a.retryAtTs.isSome
  | _ => true

/-! ## Invariants -/

/-- Does an event count as a `DecisionRendered` for the decision id? -/
def isRenderedFor (did : String) (e : Event) : Bool :=
  e.type == .DecisionRendered && e.decisionId == some did

/-- Does an event count as a `DecisionRenderRejected` for the decision id? -/
def isRejectedFor (did : String) (e : Event) : Bool :=
  e.type == .DecisionRenderRejected && e.decisionId == some did

/-- Number of `DecisionRendered` events in an event list carrying a
decision id. -/
def renderedCountEv (evs : List Event) (did : String) : Nat :=
  (evs.filter (isRenderedFor did)).length

/-- Number of `DecisionRendered` events in the log carrying a decision id. -/
def renderedCount (db : DB) (did : String) : Nat :=
  renderedCountEv db.events did

/-- Number of `DecisionRenderRejected` events in the log carrying a
decision id. -/
def rejectedCount (db : DB) (did : String) : Nat :=
  (db.events.filter (isRejectedFor did)).length

/-- The decision ids of the read model. -/
def decIds (db : DB) : List String := db.decisions.map (·.decisionId)

/-- The render invariant: decision ids are unique; a decision row has
exactly one `DecisionRendered` event iff it is in `RENDERED` and none
otherwise; ids without a row have no `DecisionRendered` event. -/
def RenderInv (db : DB) : Prop :=
  (decIds db).Nodup ∧
  (∀ (i : Nat) (d : Decision), db.decisions[i]? = some d →
    renderedCount db d.decisionId = if d.state = .RENDERED then 1 else 0) ∧
  (∀ did, did ∉ decIds db → renderedCount db did = 0)

/-- An event whose `CardTransitioned` payload, if it has one, is an
edge of the transition table. -/
def EdgeOK (e : Event) : Prop :=
  ∀ f t r, e.payload = .cardTransitioned f t r → t ∈ VALID_TRANSITIONS f

/-- The card-transition invariant: every `CardTransitioned` payload in
the log is an edge of the transition table. -/
def EdgeInv (db : DB) : Prop :=
  ∀ e ∈ db.events, EdgeOK e

/-- The retry-timer invariant: `retryAtTs` is set iff the card is in
`RETRY_SCHEDULED`. -/
def RetryInv (db : DB) : Prop :=
  ∀ c ∈ db.cards, (c.retryAtTs.isSome ↔ c.state = .RETRY_SCHEDULED)

/-- An initial database: empty log and read models, any membership
table. -/
def initDB (members : List Member) : DB :=
  { events := [], commands := [], cards := [], decisions := [], members := members, gen := 0 }

/-! ## Helper lemmas: positional list access -/

theorem length_updateAt (l : List α) (i : Nat) (f : α → α) :
    (updateAt l i f).length = l.length := by
  induction l generalizing i with
  | nil => rfl
  | cons x xs ih =>
    cases i with
    | zero => rfl
    | succ n => simpa [updateAt] using ih n

theorem getElem?_updateAt_self {l : List α} {i : Nat} {a : α} (f : α → α)
    (h : l[i]? = some a) : (updateAt l i f)[i]? = some (f a) := by
  induction l generalizing i with
  | nil => simp at h
  | cons x xs ih =>
    cases i with
    | zero => simp_all [updateAt]
    | succ n => simpa [updateAt] using ih (by simpa using h)

theorem getElem?_updateAt_ne {i j : Nat} (l : List α) (f : α → α)
    (h : i ≠ j) : (updateAt l i f)[j]? = l[j]? := by
  induction l generalizing i j with
  | nil => rfl
  | cons x xs ih =>
    cases i with
    | zero =>
      cases j with
      | zero => exact absurd rfl h
      | succ m => simp [updateAt]
    | succ n =>
      cases j with
      | zero => simp [updateAt]
      | succ m => simpa [updateAt] using ih (fun hnm => h (by simp [hnm]))

theorem mem_updateAt {l : List α} {i : Nat} {f : α → α} {b : α}
    (h : b ∈ updateAt l i f) : b ∈ l ∨ ∃ a, l[i]? = some a ∧ b = f a := by
  induction l generalizing i with
  | nil => simp [updateAt] at h
  | cons x xs ih =>
    cases i with
    | zero =>
      rcases (List.mem_cons.mp h) with h1 | h1
      · exact Or.inr ⟨x, by simp, h1⟩
      · exact Or.inl (List.mem_cons_of_mem x h1)
    | succ n =>
      rcases (List.mem_cons.mp h) with h1 | h1
      · exact Or.inl (h1 ▸ List.mem_cons_self x xs)
      · rcases ih h1 with h2 | ⟨a, ha, hb⟩
        · exact Or.inl (List.mem_cons_of_mem x h2)
        · exact Or.inr ⟨a, by simpa using ha, hb⟩

theorem getElem?_some_lt {l : List α} {n : Nat} {a : α} (h : l[n]? = some a) :
    n < l.length := by
  induction l generalizing n with
  | nil => simp at h
  | cons x xs ih =>
    cases n with
    | zero => simp
    | succ m => simpa [Nat.succ_lt_succ_iff] using ih (by simpa using h)

theorem mem_of_getElem?_some {l : List α} {n : Nat} {a : α} (h : l[n]? = some a) :
    a ∈ l := by
  induction l generalizing n with
  | nil => simp at h
  | cons x xs ih =>
    cases n with
    | zero => simp_all
    | succ m => exact List.mem_cons_of_mem x (ih (by simpa using h))

theorem getElem?_of_mem_eq {l : List α} {a : α} (h : a ∈ l) :
    ∃ n : Nat, l[n]? = some a := by
  induction l with
  | nil => simp at h
  | cons x xs ih =>
    rcases List.mem_cons.mp h with h1 | h1
    · exact ⟨0, by simp [h1]⟩
    · rcases ih h1 with ⟨n, hn⟩
      exact ⟨n + 1, by simpa using hn⟩

/-! ## Helper lemmas: indexed enumeration and `uniqueIdx` -/

theorem mem_enumFromIdx {l : List α} {n i : Nat} {a : α} :
    (i, a) ∈ enumFromIdx n l ↔ ∃ k : Nat, i = n + k ∧ l[k]? = some a := by
  induction l generalizing n with
  | nil => simp [enumFromIdx]
  | cons x xs ih =>
    simp only [enumFromIdx, List.mem_cons, ih, Prod.mk.injEq]
    constructor
    · rintro (⟨rfl, rfl⟩ | ⟨k, hk, hget⟩)
      · exact ⟨0, by omega, by simp⟩
      · exact ⟨k + 1, by omega, by simpa using hget⟩
    · rintro ⟨k, hk, hget⟩
      cases k with
      | zero =>
        refine Or.inl ⟨by omega, ?_⟩
        simpa using hget.symm
      | succ m => exact Or.inr ⟨m, by omega, by simpa using hget⟩

theorem mem_enumIdx {l : List α} {i : Nat} {a : α} :
    (i, a) ∈ enumIdx l ↔ l[i]? = some a := by
  unfold enumIdx
  rw [mem_enumFromIdx]
  constructor
  · rintro ⟨k, hk, h⟩
    have : i = k := by omega
    simpa [this] using h
  · intro h; exact ⟨i, by omega, h⟩

theorem pairwise_fst_enumFromIdx (n : Nat) (l : List α) :
    (enumFromIdx n l).Pairwise (fun x y => x.1 ≠ y.1) := by
  induction l generalizing n with
  | nil => exact List.Pairwise.nil
  | cons x xs ih =>
    refine List.Pairwise.cons ?_ (ih (n + 1))
    rintro ⟨j, b⟩ hy
    rcases mem_enumFromIdx.mp hy with ⟨k, hk, _⟩
    simp only [ne_eq]
    omega

theorem pairwise_fst_enumIdx (l : List α) :
    (enumIdx l).Pairwise (fun x y => x.1 ≠ y.1) :=
  pairwise_fst_enumFromIdx 0 l

theorem uniqueIdx_eq_some {p : α → Bool} {l : List α} {i : Nat} {a : α}
    (h : uniqueIdx p l = .ok (some (i, a))) :
    l[i]? = some a ∧ p a = true ∧
      ∀ (j : Nat) (b : α), l[j]? = some b → p b = true → j = i ∧ b = a := by
  unfold uniqueIdx at h
  split at h
  · simp at h
  · next x hf =>
    obtain rfl : x = (i, a) := by simpa using h
    have hx : (i, a) ∈ (enumIdx l).filter (fun x => p x.2) := by rw [hf]; simp
    have hmem := List.mem_filter.mp hx
    refine ⟨mem_enumIdx.mp hmem.1, by simpa using hmem.2, ?_⟩
    intro j b hj hb
    have hmem2 : (j, b) ∈ (enumIdx l).filter (fun x => p x.2) :=
      List.mem_filter.mpr ⟨mem_enumIdx.mpr hj, by simpa using hb⟩
    rw [hf] at hmem2
    simpa using hmem2
  · simp at h

theorem uniqueIdx_eq_none {p : α → Bool} {l : List α}
    (h : uniqueIdx p l = .ok none) :
    ∀ (j : Nat) (b : α), l[j]? = some b → p b = false := by
  intro j b hj
  by_contra hb
  have hb' : p b = true := by simpa using hb
  have hmem : (j, b) ∈ (enumIdx l).filter (fun x => p x.2) :=
    List.mem_filter.mpr ⟨mem_enumIdx.mpr hj, by simpa using hb'⟩
  unfold uniqueIdx at h
  split at h
  · next hf => rw [hf] at hmem; simp at hmem
  · simp at h
  · simp at h

/-! ## Helper lemmas: event counts and `appendEvent` -/

theorem renderedCountEv_append (l : List Event) (e : Event) (did : String) :
    renderedCountEv (l ++ [e]) did =
      renderedCountEv l did + (if isRenderedFor did e then 1 else 0) := by
  simp only [renderedCountEv, List.filter_append, List.length_append]
  cases h : isRenderedFor did e <;> simp [List.filter, h]

theorem renderedCountEv_append_other (l : List Event) (e : Event) (did : String)
    (he : isRenderedFor did e = false) :
    renderedCountEv (l ++ [e]) did = renderedCountEv l did := by
  simp [renderedCountEv_append, he]

/-- `appendEvent` only ever touches the event list: an `ok` result
leaves every read model, the membership table and the id counter
unchanged and either performs no write (idempotency-key hit) or appends
exactly the event. -/
theorem appendEvent_ok {e : Event} {db : DB} {n : Nat} {db' : DB}
    (h : appendEvent e db = .ok (n, db')) :
    db'.commands = db.commands ∧ db'.cards = db.cards ∧
    db'.decisions = db.decisions ∧ db'.members = db.members ∧ db'.gen = db.gen ∧
    (db'.events = db.events ∨ db'.events = db.events ++ [e]) := by
  unfold appendEvent at h
  split at h
  · simp at h
  · split at h
    · simp at h
    · split at h
      · split at h
        · simp only [Except.ok.injEq, Prod.mk.injEq] at h
          obtain ⟨-, rfl⟩ := h
          simp
        · simp only [Except.ok.injEq, Prod.mk.injEq] at h
          obtain ⟨-, rfl⟩ := h
          simp
      · simp only [Except.ok.injEq, Prod.mk.injEq] at h
        obtain ⟨-, rfl⟩ := h
        simp

/-- `appendEvent` with no idempotency key always inserts. -/
theorem appendEvent_ok_noKey {e : Event} {db : DB} {n : Nat} {db' : DB}
    (hk : e.idempotencyKey = none) (h : appendEvent e db = .ok (n, db')) :
    db' = { db with events := db.events ++ [e] } := by
  unfold appendEvent at h
  split at h
  · simp at h
  · split at h
    · simp at h
    · rw [hk] at h
      simp only [Except.ok.injEq, Prod.mk.injEq] at h
      obtain ⟨-, rfl⟩ := h
      rfl

/-- `transitionCard` characterized: on success there is a unique
matching card; the returned pair is `(card.state, a.toState)`, the edge
was validated, the card row is patched in place and exactly the
`CardTransitioned` event is appended. -/
theorem transitionCard_ok {a : TransitionArgs} {eid : String} {now : Nat}
    {db : DB} {res : CardState × CardState} {db' : DB}
    (h : transitionCard a eid now db = .ok (res, db')) :
    ∃ (i : Nat) (card : Card),
      db.cards[i]? = some card ∧ card.cardId = a.cardId ∧
      res = (card.state, a.toState) ∧
      a.toState ∈ VALID_TRANSITIONS card.state ∧
      db' = { db with
        cards := updateAt db.cards i (transitionPatch a card.state now)
        events := db.events ++ [transitionEvent a card card.state eid now] } := by
  unfold transitionCard at h
  split at h
  · simp at h
  · simp at h
  · next i card heq =>
    have hcard := uniqueIdx_eq_some heq
    split at h
    · simp at h
    · next hvalid =>
      split at h
      · simp at h
      · next n db2 happ =>
        have hnk : (transitionEvent a card card.state eid now).idempotencyKey = none := rfl
        have hdb2 := appendEvent_ok_noKey hnk happ
        obtain ⟨hres, rfl⟩ : (card.state, a.toState) = res ∧ db2 = db' := by
          simpa using h
        refine ⟨i, card, hcard.1, by simpa using hcard.2.1, hres.symm,
          by simpa using hvalid, ?_⟩
        rw [hdb2]

/-! ## Helper lemmas: the render invariant -/

theorem claimPatch_decisionId (u : String) (t : Nat) (cur : Decision) :
    (claimPatch u t cur).decisionId = cur.decisionId := rfl

theorem renderPatch_decisionId (o u : String) (n : Nat) (cur : Decision) :
    (renderPatch o u n cur).decisionId = cur.decisionId := rfl

theorem renderedCountEv_append_tail (l t : List Event) (did : String) :
    renderedCountEv (l ++ t) did = renderedCountEv l did + renderedCountEv t did := by
  simp [renderedCountEv, List.filter_append]

theorem decIds_getElem? (db : DB) (j : Nat) :
    (decIds db)[j]? = (db.decisions[j]?).map (·.decisionId) := by
  simp [decIds, List.getElem?_map]

/-- Distinct positions hold distinct decision ids under the `Nodup`
component of the invariant. -/
theorem decIds_ne {db : DB} (hnd : (decIds db).Nodup) {i j : Nat}
    {d r : Decision} (hi : db.decisions[i]? = some d) (hj : db.decisions[j]? = some r)
    (hij : i ≠ j) : d.decisionId ≠ r.decisionId := by
  intro hEq
  apply hij
  have hlen : i < (decIds db).length := by
    have := getElem?_some_lt hi
    simpa [decIds] using this
  refine List.getElem?_inj hlen hnd ?_
  rw [decIds_getElem?, decIds_getElem?, hi, hj]
  simp [hEq]

/-- Render-invariant preservation: append events none of which count as
a render. -/
theorem renderInv_append {db db' : DB} {tail : List Event}
    (hInv : RenderInv db)
    (hdec : db'.decisions = db.decisions)
    (hev : db'.events = db.events ++ tail)
    (htail : ∀ did, renderedCountEv tail did = 0) : RenderInv db' := by
  obtain ⟨hnd, hcnt, hout⟩ := hInv
  have hc : ∀ did, renderedCount db' did = renderedCount db did := by
    intro did
    simp [renderedCount, hev, renderedCountEv_append_tail, htail]
  have hids : decIds db' = decIds db := by simp [decIds, hdec]
  refine ⟨hids ▸ hnd, ?_, ?_⟩
  · intro j r hj
    rw [hdec] at hj
    rw [hc]
    exact hcnt j r hj
  · intro did hdid
    rw [hids] at hdid
    rw [hc]
    exact hout did hdid

/-- Render-invariant preservation: patch one row without entering
`RENDERED`, appending only non-render events. -/
theorem renderInv_patch_keep {db db' : DB} {i : Nat} {d : Decision}
    {g : Decision → Decision} {tail : List Event}
    (hInv : RenderInv db)
    (hrow : db.decisions[i]? = some d)
    (hgid : (g d).decisionId = d.decisionId)
    (hgstate : (g d).state ≠ .RENDERED)
    (hdstate : d.state ≠ .RENDERED)
    (hdec : db'.decisions = updateAt db.decisions i g)
    (hev : db'.events = db.events ++ tail)
    (htail : ∀ did, renderedCountEv tail did = 0) : RenderInv db' := by
  obtain ⟨hnd, hcnt, hout⟩ := hInv
  have hc : ∀ did, renderedCount db' did = renderedCount db did := by
    intro did
    simp [renderedCount, hev, renderedCountEv_append_tail, htail]
  have hids : decIds db' = decIds db := by
    refine List.ext_getElem? fun j => ?_
    rw [decIds_getElem?, decIds_getElem?, hdec]
    by_cases hij : i = j
    · subst hij
      rw [getElem?_updateAt_self g hrow, hrow]
      simp [hgid]
    · rw [getElem?_updateAt_ne _ _ hij]
  refine ⟨hids ▸ hnd, ?_, ?_⟩
  · intro j r hj
    rw [hdec] at hj
    rw [hc]
    by_cases hij : i = j
    · subst hij
      rw [getElem?_updateAt_self g hrow] at hj
      obtain rfl : g d = r := by simpa using hj
      rw [hgid]
      have := hcnt i d hrow
      simp only [if_neg hdstate] at this
      simp [this, if_neg hgstate]
    · rw [getElem?_updateAt_ne _ _ hij] at hj
      exact hcnt j r hj
  · intro did hdid
    rw [hids] at hdid
    rw [hc]
    exact hout did hdid

/-- Render-invariant preservation: move one non-rendered row to
`RENDERED` while appending exactly one render event for its id (and
none for any other id). -/
theorem renderInv_patch_render {db db' : DB} {i : Nat} {d : Decision}
    {g : Decision → Decision} {tail : List Event}
    (hInv : RenderInv db)
    (hrow : db.decisions[i]? = some d)
    (hgid : (g d).decisionId = d.decisionId)
    (hgstate : (g d).state = .RENDERED)
    (hdstate : d.state ≠ .RENDERED)
    (hdec : db'.decisions = updateAt db.decisions i g)
    (hev : db'.events = db.events ++ tail)
    (htail1 : renderedCountEv tail d.decisionId = 1)
    (htail0 : ∀ did, did ≠ d.decisionId → renderedCountEv tail did = 0) :
    RenderInv db' := by
  obtain ⟨hnd, hcnt, hout⟩ := hInv
  have hids : decIds db' = decIds db := by
    refine List.ext_getElem? fun j => ?_
    rw [decIds_getElem?, decIds_getElem?, hdec]
    by_cases hij : i = j
    · subst hij
      rw [getElem?_updateAt_self g hrow, hrow]
      simp [hgid]
    · rw [getElem?_updateAt_ne _ _ hij]
  refine ⟨hids ▸ hnd, ?_, ?_⟩
  · intro j r hj
    rw [hdec] at hj
    by_cases hij : i = j
    · subst hij
      rw [getElem?_updateAt_self g hrow] at hj
      obtain rfl : g d = r := by simpa using hj
      rw [hgid]
      have h0 := hcnt i d hrow
      simp only [if_neg hdstate] at h0
      simp [renderedCount, hev, renderedCountEv_append_tail, renderedCount] at h0 ⊢
      simp [h0, htail1, if_pos hgstate]
    · rw [getElem?_updateAt_ne _ _ hij] at hj
      have hne : r.decisionId ≠ d.decisionId :=
        (decIds_ne hnd hrow hj hij).symm
      have := hcnt j r hj
      simp only [renderedCount, hev, renderedCountEv_append_tail]
      rw [htail0 r.decisionId hne]
      simpa using this
  · intro did hdid
    rw [hids] at hdid
    have hne : did ≠ d.decisionId := by
      intro hEq
      apply hdid
      have : d ∈ db.decisions := mem_of_getElem?_some hrow
      subst hEq
      exact List.mem_map.mpr ⟨d, this, rfl⟩
    have := hout did hdid
    simp only [renderedCount, hev, renderedCountEv_append_tail]
    rw [htail0 did hne]
    simpa using this

/-- Render-invariant preservation: insert a fresh non-rendered row
while appending only non-render events. -/
theorem renderInv_insert {db db' : DB} {row : Decision} {tail : List Event}
    (hInv : RenderInv db)
    (hfresh : row.decisionId ∉ decIds db)
    (hstate : row.state ≠ .RENDERED)
    (hdec : db'.decisions = db.decisions ++ [row])
    (hev : db'.events = db.events ++ tail)
    (htail : ∀ did, renderedCountEv tail did = 0) : RenderInv db' := by
  obtain ⟨hnd, hcnt, hout⟩ := hInv
  have hc : ∀ did, renderedCount db' did = renderedCount db did := by
    intro did
    simp [renderedCount, hev, renderedCountEv_append_tail, htail]
  have hids : decIds db' = decIds db ++ [row.decisionId] := by
    simp [decIds, hdec]
  refine ⟨?_, ?_, ?_⟩
  · rw [hids]
    simp [List.nodup_append, hnd, hfresh]
  · intro j r hj
    rw [hdec] at hj
    rcases Nat.lt_trichotomy j db.decisions.length with hlt | heq | hgt
    · rw [List.getElem?_append_left hlt] at hj
      rw [hc]
      exact hcnt j r hj
    · subst heq
      rw [List.getElem?_concat_length] at hj
      obtain rfl : row = r := by simpa using hj
      rw [hc]
      have := hout row.decisionId hfresh
      simp [this, if_neg hstate]
    · rw [List.getElem?_append_right (by omega)] at hj
      have : j - db.decisions.length ≠ 0 := by omega
      rcases Nat.exists_eq_succ_of_ne_zero this with ⟨m, hm⟩
      rw [hm] at hj
      simp at hj
  · intro did hdid
    rw [hids] at hdid
    simp only [List.mem_append, List.mem_singleton, not_or] at hdid
    rw [hc]
    exact hout did hdid.1

theorem renderedCountEv_nil (did : String) : renderedCountEv [] did = 0 := rfl

theorem renderedCountEv_singleton (e : Event) (did : String) :
    renderedCountEv [e] did = if isRenderedFor did e then 1 else 0 := by
  cases h : isRenderedFor did e <;> simp [renderedCountEv, List.filter, h]

/-! ## Shape lemmas for the interactive mutations -/

theorem claimDecision_ok_spec {ident : Option Identity} {pid did eid : String}
    {now : Nat} {db : DB} {res : ClaimResult} {db' : DB}
    (h : claimDecision ident pid did eid now db = .ok (res, db')) :
    db' = db ∨
    ∃ (i : Nat) (d : Decision) (auth : AuthContext),
      db.decisions[i]? = some d ∧ (d.state = .PENDING ∨ d.state = .CLAIMED) ∧
      db'.decisions = updateAt db.decisions i
        (claimPatch auth.userId (now + DECISION_CLAIM_MS)) ∧
      db'.cards = db.cards ∧ db'.commands = db.commands ∧ db'.members = db.members ∧
      db'.events = db.events ++ [decisionClaimedEvent auth d eid now] := by
  unfold claimDecision at h
  split at h
  · simp at h
  · next auth hauth =>
    split at h
    · simp at h
    · simp at h
    · next i d heq =>
      have hrow := (uniqueIdx_eq_some heq).1
      split at h
      · simp at h
      · split at h
        · simp at h
        · next hopen =>
          have hstates : d.state = .PENDING ∨ d.state = .CLAIMED := by
            rcases not_and_or.mp hopen with h1 | h1 <;>
              [exact Or.inl (not_not.mp h1); exact Or.inr (not_not.mp h1)]
          split at h
          · simp only [Except.ok.injEq, Prod.mk.injEq] at h
            exact Or.inl h.2.symm
          · split at h
            · simp at h
            · next n db2 happ =>
              have hdb2 := appendEvent_ok_noKey rfl happ
              simp only [Except.ok.injEq, Prod.mk.injEq] at h
              obtain ⟨-, rfl⟩ := h
              subst hdb2
              exact Or.inr ⟨i, d, auth, hrow, hstates, rfl, rfl, rfl, rfl, rfl⟩

theorem renewDecisionClaim_ok_spec {ident : Option Identity} {pid did : String}
    {now : Nat} {db : DB} {res : Nat} {db' : DB}
    (h : renewDecisionClaim ident pid did now db = .ok (res, db')) :
    ∃ (i : Nat) (d : Decision),
      db.decisions[i]? = some d ∧ d.state = .CLAIMED ∧
      db'.decisions = updateAt db.decisions i (renewPatch (now + DECISION_CLAIM_MS)) ∧
      db'.cards = db.cards ∧ db'.commands = db.commands ∧ db'.members = db.members ∧
      db'.events = db.events := by
  unfold renewDecisionClaim at h
  split at h
  · simp at h
  · split at h
    · simp at h
    · simp at h
    · next i d heq =>
      have hrow := (uniqueIdx_eq_some heq).1
      split at h
      · simp at h
      · split at h
        · simp at h
        · next hcl =>
          have hstate : d.state = .CLAIMED := by
            rcases not_or.mp hcl with ⟨h1, -⟩
            exact not_not.mp h1
          simp only [Except.ok.injEq, Prod.mk.injEq] at h
          obtain ⟨-, rfl⟩ := h
          exact ⟨i, d, hrow, hstate, rfl, rfl, rfl, rfl, rfl⟩

theorem renderDecision_ok_spec {ident : Option Identity} {pid did opt : String}
    {note : Option String} {eid : String} {now : Nat} {db : DB}
    {res : RenderResult} {db' : DB}
    (h : renderDecision ident pid did opt note eid now db = .ok (res, db')) :
    (∃ (d : Decision) (auth : AuthContext) (reason : Option String),
      db'.decisions = db.decisions ∧ db'.cards = db.cards ∧
      db'.commands = db.commands ∧ db'.members = db.members ∧
      db'.events = db.events ++ [renderRejectedEvent auth d opt reason eid now]) ∨
    (∃ (i : Nat) (d : Decision) (auth : AuthContext),
      db.decisions[i]? = some d ∧ (d.state = .PENDING ∨ d.state = .CLAIMED) ∧
      res = .rendered opt ∧
      db'.decisions = updateAt db.decisions i (renderPatch opt auth.userId now) ∧
      db'.cards = db.cards ∧ db'.commands = db.commands ∧ db'.members = db.members ∧
      db'.events = db.events ++ [decisionRenderedEvent auth d opt note eid now]) := by
  unfold renderDecision at h
  split at h
  · simp at h
  · next auth hauth =>
    split at h
    · simp at h
    · simp at h
    · next i d heq =>
      have hrow := (uniqueIdx_eq_some heq).1
      split at h
      · simp at h
      · split at h
        · -- already-resolved rejection
          split at h
          · simp at h
          · next n db2 happ =>
            have hdb2 := appendEvent_ok_noKey rfl happ
            simp only [Except.ok.injEq, Prod.mk.injEq] at h
            obtain ⟨-, rfl⟩ := h
            subst hdb2
            exact Or.inl ⟨d, auth, none, rfl, rfl, rfl, rfl, rfl⟩
        · next hopen =>
          have hstates : d.state = .PENDING ∨ d.state = .CLAIMED := by
            rcases not_and_or.mp hopen with h1 | h1 <;>
              [exact Or.inl (not_not.mp h1); exact Or.inr (not_not.mp h1)]
          split at h
          · -- claimed-by-another rejection
            split at h
            · simp at h
            · next n db2 happ =>
              have hdb2 := appendEvent_ok_noKey rfl happ
              simp only [Except.ok.injEq, Prod.mk.injEq] at h
              obtain ⟨-, rfl⟩ := h
              subst hdb2
              exact Or.inl ⟨d, auth, some "claimed_by_another", rfl, rfl, rfl, rfl, rfl⟩
          · split at h
            · simp at h
            · -- the successful render
              split at h
              · simp at h
              · next n db2 happ =>
                have hdb2 := appendEvent_ok_noKey rfl happ
                simp only [Except.ok.injEq, Prod.mk.injEq] at h
                obtain ⟨hres, rfl⟩ := h
                subst hdb2
                exact Or.inr ⟨i, d, auth, hrow, hstates, hres.symm, rfl, rfl, rfl, rfl, rfl⟩

theorem requestDecisionCore_ok_spec {tid pid : String} {a : RequestDecisionArgs}
    {did eid : String} {now : Nat} {db : DB} {res : String} {db' : DB}
    (h : requestDecisionCore tid pid a did eid now db = .ok (res, db')) :
    db'.decisions = db.decisions ++ [requestDecisionRow tid pid a did now] ∧
    db'.cards = db.cards ∧ db'.commands = db.commands ∧ db'.members = db.members ∧
    db'.events = db.events ++ [decisionRequestedEvent tid pid a did eid now] := by
  unfold requestDecisionCore at h
  have hins : ∀ (db0 : DB),
      requestDecisionInsert tid pid a did eid now db0 = .ok (res, db') →
      db'.decisions = db0.decisions ++ [requestDecisionRow tid pid a did now] ∧
      db'.cards = db0.cards ∧ db'.commands = db0.commands ∧ db'.members = db0.members ∧
      db'.events = db0.events ++ [decisionRequestedEvent tid pid a did eid now] := by
    intro db0 h0
    unfold requestDecisionInsert at h0
    split at h0
    · simp at h0
    · next n db2 happ =>
      have hdb2 := appendEvent_ok_noKey rfl happ
      simp only [Except.ok.injEq, Prod.mk.injEq] at h0
      obtain ⟨-, rfl⟩ := h0
      subst hdb2
      exact ⟨rfl, rfl, rfl, rfl, rfl⟩
  split at h
  · simp at h
  · split at h
    · split at h
      · simp at h
      · exact hins db h
    · exact hins db h

theorem requestCommandCore_ok_spec {tid pid : String} {a : RequestCommandArgs}
    {cid kid e1 e2 : String} {now : Nat} {db : DB}
    {res : String × String} {db' : DB}
    (h : requestCommandCore tid pid a cid kid e1 e2 now db = .ok (res, db')) :
    db'.decisions = db.decisions ∧ db'.members = db.members ∧
    db'.commands = db.commands ++ [commandRow tid pid a cid e1 now] ∧
    db'.cards = db.cards ++ [commandCardRow tid pid a kid now] ∧
    ∃ tail, db'.events = db.events ++ tail ∧
      (tail = [commandRequestedEvent tid pid a cid kid e1 now,
               commandCardCreatedEvent tid pid a cid kid e2 now] ∨
       tail = [commandCardCreatedEvent tid pid a cid kid e2 now]) := by
  unfold requestCommandCore at h
  split at h
  · simp at h
  · next n1 db1 happ1 =>
    split at h
    · simp at h
    · next n2 db4 happ2 =>
      have hspec1 := appendEvent_ok happ1
      have hdb4 := appendEvent_ok_noKey rfl happ2
      simp only [Except.ok.injEq, Prod.mk.injEq] at h
      obtain ⟨-, rfl⟩ := h
      obtain ⟨hcm, hca, hde, hme, -, hev⟩ := hspec1
      subst hdb4
      rcases hev with hev | hev <;>
        refine ⟨by simp [hde], by simp [hme], by simp [hcm], by simp [hca], ?_⟩
      · exact ⟨[commandCardCreatedEvent tid pid a cid kid e2 now], by simp [hev], Or.inr rfl⟩
      · exact ⟨[commandRequestedEvent tid pid a cid kid e1 now,
               commandCardCreatedEvent tid pid a cid kid e2 now], by simp [hev], Or.inl rfl⟩

theorem createCard_ok_spec {a : CreateCardArgs} {cid eid : String} {now : Nat}
    {db : DB} {res : String} {db' : DB}
    (h : createCard a cid eid now db = .ok (res, db')) :
    db'.decisions = db.decisions ∧ db'.members = db.members ∧
    db'.commands = db.commands ∧
    db'.cards = db.cards ++ [createCardRow a cid now] ∧
    db'.events = db.events ++ [createCardEvent a cid eid now] := by
  unfold createCard at h
  split at h
  · simp at h
  · next n db2 happ =>
    have hdb2 := appendEvent_ok_noKey rfl happ
    simp only [Except.ok.injEq, Prod.mk.injEq] at h
    obtain ⟨-, rfl⟩ := h
    subst hdb2
    exact ⟨rfl, rfl, rfl, rfl, rfl⟩

/-! ## Frames of the sweeper's writes -/

/-- An event that counts as a `DecisionRendered` for no decision id. -/
def NoRenderEv (e : Event) : Prop := ∀ did, isRenderedFor did e = false

/-- The card frame of a sweeper step: cards are patched in place only,
keep their `cardId`, and any row that changes at all moves to a state
in `S` with the `retryAtTs` rule of `transitionPatch` for a
non-`RETRY_SCHEDULED` target. -/
def cardsFrame (S : List CardState) (db db' : DB) : Prop :=
  db'.cards.length = db.cards.length ∧
  ∀ (k : Nat) (c : Card), db.cards[k]? = some c →
    ∃ c', db'.cards[k]? = some c' ∧ c'.cardId = c.cardId ∧
      (c' = c ∨ (c'.state ∈ S ∧
        c'.retryAtTs = (if c.state = .RETRY_SCHEDULED then none else c.retryAtTs)))

theorem cardsFrame_of_eq {S : List CardState} {db db' : DB}
    (h : db'.cards = db.cards) : cardsFrame S db db' := by
  refine ⟨by rw [h], fun k c hc => ⟨c, by rw [h]; exact hc, rfl, Or.inl rfl⟩⟩

theorem cardsFrame_trans {S : List CardState} {db1 db2 db3 : DB}
    (hS : CardState.RETRY_SCHEDULED ∉ S)
    (h12 : cardsFrame S db1 db2) (h23 : cardsFrame S db2 db3) :
    cardsFrame S db1 db3 := by
  obtain ⟨hl12, hf12⟩ := h12
  obtain ⟨hl23, hf23⟩ := h23
  refine ⟨by omega, fun k c hc => ?_⟩
  obtain ⟨c', hc', hid', hcase'⟩ := hf12 k c hc
  obtain ⟨c'', hc'', hid'', hcase''⟩ := hf23 k c' hc'
  refine ⟨c'', hc'', by rw [hid'', hid'], ?_⟩
  rcases hcase' with rfl | ⟨hs', hr'⟩
  · exact hcase''
  · rcases hcase'' with rfl | ⟨hs'', hr''⟩
    · exact Or.inr ⟨hs', hr'⟩
    · refine Or.inr ⟨hs'', ?_⟩
      have hne : c'.state ≠ .RETRY_SCHEDULED := fun hEq => hS (hEq ▸ hs')
      rw [hr'', if_neg hne, hr']

theorem cardsFrame_mono {S S' : List CardState} {db db' : DB}
    (hss : ∀ s ∈ S, s ∈ S') (h : cardsFrame S db db') : cardsFrame S' db db' := by
  obtain ⟨hl, hf⟩ := h
  refine ⟨hl, fun k c hc => ?_⟩
  obtain ⟨c', hc', hid, hcase⟩ := hf k c hc
  exact ⟨c', hc', hid, hcase.imp id (fun ⟨h1, h2⟩ => ⟨hss _ h1, h2⟩)⟩

theorem getElem?_exists_of_lt {l : List α} {k : Nat} (h : k < l.length) :
    ∃ a, l[k]? = some a := by
  induction l generalizing k with
  | nil => simp at h
  | cons x xs ih =>
    cases k with
    | zero => exact ⟨x, by simp⟩
    | succ m =>
      obtain ⟨a, ha⟩ := ih (by simpa [Nat.succ_lt_succ_iff] using h)
      exact ⟨a, by simpa using ha⟩

/-- `RetryInv` survives any step within the sweeper's card frame, since
every state in the frame set is distinct from `RETRY_SCHEDULED`. -/
theorem retryInv_of_cardsFrame {S : List CardState} {db db' : DB}
    (hS : CardState.RETRY_SCHEDULED ∉ S)
    (hInv : RetryInv db) (hfr : cardsFrame S db db') : RetryInv db' := by
  intro c' hc'
  obtain ⟨hl, hf⟩ := hfr
  obtain ⟨k, hk⟩ := getElem?_of_mem_eq hc'
  have hklt : k < db.cards.length := by
    have := getElem?_some_lt hk
    omega
  obtain ⟨c, hc⟩ := getElem?_exists_of_lt hklt
  obtain ⟨c2, hc2, -, hcase⟩ := hf k c hc
  obtain rfl : c2 = c' := by rw [hk] at hc2; exact (by simpa using hc2 : c' = c2).symm
  rcases hcase with heq | ⟨hs, hr⟩
  · rw [heq]; exact hInv c (mem_of_getElem?_some hc)
  · have hcinv := hInv c (mem_of_getElem?_some hc)
    constructor
    · intro hsome
      exact absurd hsome (by
        by_cases hrs : c.state = .RETRY_SCHEDULED
        · simp [hr, hrs]
        · have : c.retryAtTs.isSome = false := by
            rcases hi : c.retryAtTs.isSome with - | -
            · rfl
            · exact absurd (hcinv.mp hi) hrs
          simp [hr, if_neg hrs, this])
    · intro hst
      exact absurd hst (fun hEq => hS (hEq ▸ hs))

theorem retryInv_of_cards_eq {db db' : DB} (h : db'.cards = db.cards)
    (hInv : RetryInv db) : RetryInv db' := by
  intro c hc
  exact hInv c (h ▸ hc)

theorem retryInv_append_card {db db' : DB} {c : Card}
    (hInv : RetryInv db) (h : db'.cards = db.cards ++ [c])
    (hst : c.state = .READY) (hrt : c.retryAtTs = none) : RetryInv db' := by
  intro x hx
  rw [h] at hx
  rcases List.mem_append.mp hx with hx | hx
  · exact hInv x hx
  · obtain rfl : c = x := (by simpa using hx : x = c).symm
    constructor
    · intro hsome; simp [hrt] at hsome
    · intro hs; simp [hst] at hs

/-- `EdgeInv` survives appending validated events. -/
theorem edgeInv_extend {db db' : DB} {tail : List Event}
    (hInv : EdgeInv db) (hev : db'.events = db.events ++ tail)
    (htail : ∀ e ∈ tail, EdgeOK e) : EdgeInv db' := by
  intro e he
  rw [hev] at he
  rcases List.mem_append.mp he with he | he
  · exact hInv e he
  · exact htail e he

/-! ## Shape lemmas for the sweeper's per-item steps -/

/-- The decision-row outcome of `expireOne` for snapshot row `d`. -/
def expireOutcomePatch (d : Decision) (now : Nat) : Decision → Decision :=
  match d.fallbackOption with
  | some fb => renderPatch fb "system:sweeper" now
  | none => expirePatch

/-- The decision-row outcome of `shedOne` for snapshot row `d`. -/
def shedOutcomePatch (d : Decision) (now : Nat) : Decision → Decision :=
  match d.fallbackOption with
  | some fb => shedRenderPatch fb now
  | none => extendPatch ((d.expiresAt.getD now) + DEFER_EXTENSION_MS)

theorem transitionPatch_cardId (a : TransitionArgs) (s : CardState) (now : Nat)
    (c : Card) : (transitionPatch a s now c).cardId = c.cardId := rfl

theorem transitionPatch_state (a : TransitionArgs) (s : CardState) (now : Nat)
    (c : Card) : (transitionPatch a s now c).state = a.toState := rfl

theorem transitionPatch_retry_noArg {a : TransitionArgs} (hr : a.retryAtTs = none)
    (s : CardState) (now : Nat) (c : Card) :
    (transitionPatch a s now c).retryAtTs =
      if s = .RETRY_SCHEDULED then none else c.retryAtTs := by
  simp [transitionPatch, hr]

/-- A single in-place card patch with the no-`retryAtTs`-argument rule
yields a `cardsFrame`. -/
theorem cardsFrame_updateAt {S : List CardState} {db db' : DB} {i : Nat}
    {card : Card} {g : Card → Card}
    (hc : db.cards[i]? = some card)
    (hcards : db'.cards = updateAt db.cards i g)
    (hgstate : (g card).state ∈ S)
    (hgid : (g card).cardId = card.cardId)
    (hgretry : (g card).retryAtTs =
      if card.state = .RETRY_SCHEDULED then none else card.retryAtTs) :
    cardsFrame S db db' := by
  refine ⟨by rw [hcards, length_updateAt], fun k c hck => ?_⟩
  by_cases hik : i = k
  · subst hik
    obtain rfl : card = c := by rw [hc] at hck; simpa using hck
    exact ⟨g card, by rw [hcards]; exact getElem?_updateAt_self g hc, hgid,
      Or.inr ⟨hgstate, hgretry⟩⟩
  · exact ⟨c, by rw [hcards, getElem?_updateAt_ne _ _ hik]; exact hck, rfl, Or.inl rfl⟩

theorem cardsFrame_congr_left {S : List CardState} {db0 db db' : DB}
    (hcc : db.cards = db0.cards) (h : cardsFrame S db db') : cardsFrame S db0 db' := by
  obtain ⟨hl, hf⟩ := h
  exact ⟨by rw [hl, hcc], fun k c hc => hf k c (by rw [hcc]; exact hc)⟩

/-- `transitionLinkedCard` characterized. -/
theorem transitionLinkedCard_ok_spec {d : Decision} {toS : CardState}
    {reason : String} {now : Nat} {db db' : DB}
    (h : transitionLinkedCard d toS reason now db = .ok db') :
    db'.decisions = db.decisions ∧ db'.commands = db.commands ∧
    db'.members = db.members ∧
    (∃ tail, db'.events = db.events ++ tail ∧
      ∀ e ∈ tail, EdgeOK e ∧ NoRenderEv e) ∧
    cardsFrame [toS] db db' := by
  unfold transitionLinkedCard at h
  split at h
  · simp at h
  · next j card heq =>
    split at h
    · next hnd =>
      simp only [freshEvt] at h
      split at h
      · simp at h
      · next res db2 htc =>
        obtain rfl : db2 = db' := by simpa using h
        obtain ⟨i, card2, hc2, -, -, hvalid, hdb2⟩ := transitionCard_ok htc
        subst hdb2
        refine ⟨rfl, rfl, rfl, ⟨[transitionEvent _ card2 card2.state _ now], rfl, ?_⟩, ?_⟩
        · intro e he
          rw [List.mem_singleton] at he
          subst he
          constructor
          · intro f t r hp
            obtain ⟨rfl, rfl, rfl⟩ : card2.state = f ∧ toS = t ∧ reason = r := by
              simpa [transitionEvent] using hp
            simpa using hvalid
          · intro did
            simp [isRenderedFor, transitionEvent]
        · refine cardsFrame_updateAt (by simpa using hc2) rfl ?_ rfl ?_
          · simp [transitionPatch_state]
          · exact transitionPatch_retry_noArg rfl _ now card2
    · obtain rfl : db = db' := by simpa using h
      exact ⟨rfl, rfl, rfl, ⟨[], by simp, by simp⟩, cardsFrame_of_eq rfl⟩
  · obtain rfl : db = db' := by simpa using h
    exact ⟨rfl, rfl, rfl, ⟨[], by simp, by simp⟩, cardsFrame_of_eq rfl⟩

theorem renderedCountEv_zero_of_noRender {t : List Event}
    (h : ∀ e ∈ t, NoRenderEv e) (did : String) : renderedCountEv t did = 0 := by
  induction t with
  | nil => rfl
  | cons e es ih =>
    have he := h e (List.mem_cons_self e es)
    have hs : isRenderedFor did e = false := he did
    have ihs := ih (fun x hx => h x (List.mem_cons_of_mem e hx))
    simp [renderedCountEv, List.filter, hs] at ihs ⊢
    exact ihs

theorem isRenderedFor_decisionExpired (did : String) (d : Decision)
    (eid : String) (now : Nat) :
    isRenderedFor did (decisionExpiredEvent d eid now) = false := rfl

theorem isRenderedFor_sweeperRendered (did : String) (d : Decision)
    (fb note eid : String) (now : Nat) :
    isRenderedFor did (sweeperRenderedEvent d fb note eid now) = (d.decisionId == did) := by
  simp [isRenderedFor, sweeperRenderedEvent]

theorem isRenderedFor_deferred (did : String) (d : Decision) (action : String)
    (newE : Option Nat) (count : Nat) (eid : String) (now : Nat) :
    isRenderedFor did (deferredEvent d action newE count eid now) = false := rfl

theorem releaseOne_ok_spec {now : Nat} {c : Card} {db db' : DB}
    (h : releaseOne now c db = .ok db') :
    db'.decisions = db.decisions ∧ db'.commands = db.commands ∧
    db'.members = db.members ∧
    (∃ tail, db'.events = db.events ++ tail ∧
      ∀ e ∈ tail, EdgeOK e ∧ NoRenderEv e) ∧
    cardsFrame [.READY] db db' := by
  unfold releaseOne at h
  split at h
  · simp only [freshEvt] at h
    split at h
    · simp at h
    · next res db2 htc =>
      obtain rfl : db2 = db' := by simpa using h
      obtain ⟨i, card2, hc2, -, -, hvalid, hdb2⟩ := transitionCard_ok htc
      subst hdb2
      refine ⟨rfl, rfl, rfl, ⟨[transitionEvent _ card2 card2.state _ now], rfl, ?_⟩, ?_⟩
      · intro e he
        rw [List.mem_singleton] at he
        subst he
        constructor
        · intro f t r hp
          obtain ⟨rfl, rfl, rfl⟩ : card2.state = f ∧ CardState.READY = t ∧ _ = r := by
            simpa [transitionEvent] using hp
          simpa using hvalid
        · intro did
          simp [isRenderedFor, transitionEvent]
      · refine cardsFrame_updateAt (by simpa using hc2) rfl ?_ rfl ?_
        · simp [transitionPatch_state]
        · exact transitionPatch_retry_noArg rfl _ now card2
  · obtain rfl : db = db' := by simpa using h
    exact ⟨rfl, rfl, rfl, ⟨[], by simp, by simp⟩, cardsFrame_of_eq rfl⟩

theorem expireOne_ok_spec {now i : Nat} {d : Decision} {db db' : DB}
    (h : expireOne now (i, d) db = .ok db') :
    db'.commands = db.commands ∧ db'.members = db.members ∧
    db'.decisions = updateAt db.decisions i (expireOutcomePatch d now) ∧
    cardsFrame [.RUNNING, .FAILED] db db' ∧
    ∃ tail, db'.events = db.events ++ tail ∧ (∀ e ∈ tail, EdgeOK e) ∧
      renderedCountEv tail d.decisionId = (if d.fallbackOption.isSome then 1 else 0) ∧
      (∀ did, did ≠ d.decisionId → renderedCountEv tail did = 0) ∧
      (∃ eid, decisionExpiredEvent d eid now ∈ tail) := by
  unfold expireOne at h
  simp only [freshEvt] at h
  split at h
  · simp at h
  · next n1 db1 happ1 =>
    have hdb1 := appendEvent_ok_noKey rfl happ1
    subst hdb1
    split at h
    · next fb hfb =>
      simp only [freshEvt] at h
      split at h
      · simp at h
      · next n2 db4 happ2 =>
        have hdb4 := appendEvent_ok_noKey rfl happ2
        subst hdb4
        obtain ⟨hdec, hcmd, hmem, ⟨tail2, hev2, htl2⟩, hfr⟩ :=
          transitionLinkedCard_ok_spec h
        refine ⟨by simpa using hcmd, by simpa using hmem, ?_, ?_, ?_⟩
        · rw [hdec]
          simp [expireOutcomePatch, hfb]
        · exact cardsFrame_congr_left (by simp) (cardsFrame_mono (by simp) hfr)
        · refine ⟨[decisionExpiredEvent d ("evt_" ++ Nat.repr db.gen) now,
            sweeperRenderedEvent d fb "auto-resolved via fallback on expiration"
              ("evt_" ++ Nat.repr (db.gen + 1)) now] ++ tail2, ?_, ?_, ?_, ?_, ?_⟩
          · rw [hev2]
            simp [List.append_assoc]
          · intro e he
            simp only [List.mem_append, List.mem_cons, List.mem_singleton] at he
            rcases he with (rfl | rfl | hfalse) | he
            · intro f t r hp; simp [decisionExpiredEvent] at hp
            · intro f t r hp; simp [sweeperRenderedEvent] at hp
            · simp at hfalse
            · exact (htl2 e he).1
          · rw [renderedCountEv_append_tail,
              renderedCountEv_zero_of_noRender (fun e he => (htl2 e he).2)]
            simp [renderedCountEv, List.filter, isRenderedFor_decisionExpired,
              isRenderedFor_sweeperRendered, hfb]
          · intro did hdid
            rw [renderedCountEv_append_tail,
              renderedCountEv_zero_of_noRender (fun e he => (htl2 e he).2)]
            have hbeq : (d.decisionId == did) = false :=
              beq_eq_false_iff_ne.mpr (Ne.symm hdid)
            simp [renderedCountEv, List.filter, isRenderedFor_decisionExpired,
              isRenderedFor_sweeperRendered, hbeq]
          · exact ⟨"evt_" ++ Nat.repr db.gen, by simp⟩
    · next hfb =>
      obtain ⟨hdec, hcmd, hmem, ⟨tail2, hev2, htl2⟩, hfr⟩ :=
        transitionLinkedCard_ok_spec h
      refine ⟨by simpa using hcmd, by simpa using hmem, ?_, ?_, ?_⟩
      · rw [hdec]
        simp [expireOutcomePatch, hfb]
      · exact cardsFrame_congr_left (by simp) (cardsFrame_mono (by simp) hfr)
      · refine ⟨[decisionExpiredEvent d ("evt_" ++ Nat.repr db.gen) now] ++ tail2, ?_, ?_, ?_, ?_, ?_⟩
        · rw [hev2]
          simp [List.append_assoc]
        · intro e he
          simp only [List.mem_append, List.mem_singleton] at he
          rcases he with rfl | he
          · intro f t r hp; simp [decisionExpiredEvent] at hp
          · exact (htl2 e he).1
        · rw [renderedCountEv_append_tail,
            renderedCountEv_zero_of_noRender (fun e he => (htl2 e he).2)]
          simp [renderedCountEv, List.filter, isRenderedFor_decisionExpired, hfb]
        · intro did hdid
          rw [renderedCountEv_append_tail,
            renderedCountEv_zero_of_noRender (fun e he => (htl2 e he).2)]
          simp [renderedCountEv, List.filter, isRenderedFor_decisionExpired]
        · exact ⟨"evt_" ++ Nat.repr db.gen, by simp⟩

theorem reclaimOne_ok_spec {now i : Nat} {d : Decision} {db db' : DB}
    (h : reclaimOne now (i, d) db = .ok db') :
    db'.commands = db.commands ∧ db'.members = db.members ∧
    db'.cards = db.cards ∧
    db'.decisions = updateAt db.decisions i reclaimPatch ∧
    ∃ tail, db'.events = db.events ++ tail ∧
      (∀ e ∈ tail, EdgeOK e ∧ NoRenderEv e) ∧
      (∃ eid, claimExpiredEvent d eid now ∈ tail) := by
  unfold reclaimOne at h
  simp only [freshEvt] at h
  split at h
  · simp at h
  · next n1 dbx happ =>
    have hdbx := appendEvent_ok_noKey rfl happ
    subst hdbx
    obtain rfl : _ = db' := by simpa using h
    refine ⟨rfl, rfl, rfl, rfl,
      ⟨[claimExpiredEvent d ("evt_" ++ Nat.repr db.gen) now], by simp, ?_, ?_⟩⟩
    · intro e he
      rw [List.mem_singleton] at he
      subst he
      constructor
      · intro f t r hp
        simp [claimExpiredEvent] at hp
      · intro did
        rfl
    · exact ⟨"evt_" ++ Nat.repr db.gen, by simp⟩

theorem shedOne_ok_spec {now count i : Nat} {d : Decision} {db db' : DB}
    (h : shedOne now count (i, d) db = .ok db') :
    db'.commands = db.commands ∧ db'.members = db.members ∧
    db'.decisions = updateAt db.decisions i (shedOutcomePatch d now) ∧
    cardsFrame [.RUNNING] db db' ∧
    ∃ tail, db'.events = db.events ++ tail ∧ (∀ e ∈ tail, EdgeOK e) ∧
      renderedCountEv tail d.decisionId = (if d.fallbackOption.isSome then 1 else 0) ∧
      (∀ did, did ≠ d.decisionId → renderedCountEv tail did = 0) ∧
      (∀ fb, d.fallbackOption = some fb →
        ∃ eid eid2, deferredEvent d "auto_resolved_with_fallback" none count eid now ∈ tail ∧
          sweeperRenderedEvent d fb "auto-resolved via load shedding" eid2 now ∈ tail) ∧
      (d.fallbackOption = none →
        ∃ eid, deferredEvent d "extended_expiry"
          (some ((d.expiresAt.getD now) + DEFER_EXTENSION_MS)) count eid now ∈ tail) := by
  unfold shedOne at h
  simp only [freshEvt] at h
  split at h
  · next fb hfb =>
    split at h
    · simp at h
    · next n1 db3 happ1 =>
      have hdb3 := appendEvent_ok_noKey rfl happ1
      subst hdb3
      split at h
      · simp at h
      · next n2 db5 happ2 =>
        have hdb5 := appendEvent_ok_noKey rfl happ2
        subst hdb5
        obtain ⟨hdec, hcmd, hmem, ⟨tail2, hev2, htl2⟩, hfr⟩ :=
          transitionLinkedCard_ok_spec h
        refine ⟨by simpa using hcmd, by simpa using hmem, ?_, ?_, ?_⟩
        · rw [hdec]
          simp [shedOutcomePatch, hfb]
        · exact cardsFrame_congr_left (by simp) hfr
        · refine ⟨[deferredEvent d "auto_resolved_with_fallback" none count
              ("evt_" ++ Nat.repr db.gen) now,
            sweeperRenderedEvent d fb "auto-resolved via load shedding"
              ("evt_" ++ Nat.repr (db.gen + 1)) now] ++ tail2, ?_, ?_, ?_, ?_, ?_, ?_⟩
          · rw [hev2]
            simp [List.append_assoc]
          · intro e he
            simp only [List.mem_append, List.mem_cons, List.mem_singleton] at he
            rcases he with (rfl | rfl | hfalse) | he
            · intro f t r hp; simp [deferredEvent] at hp
            · intro f t r hp; simp [sweeperRenderedEvent] at hp
            · simp at hfalse
            · exact (htl2 e he).1
          · rw [renderedCountEv_append_tail,
              renderedCountEv_zero_of_noRender (fun e he => (htl2 e he).2)]
            simp [renderedCountEv, List.filter, isRenderedFor_sweeperRendered, hfb,
              isRenderedFor_deferred]
          · intro did hdid
            rw [renderedCountEv_append_tail,
              renderedCountEv_zero_of_noRender (fun e he => (htl2 e he).2)]
            have hbeq : (d.decisionId == did) = false :=
              beq_eq_false_iff_ne.mpr (Ne.symm hdid)
            simp [renderedCountEv, List.filter, isRenderedFor_sweeperRendered, hbeq,
              isRenderedFor_deferred]
          · intro fb2 hfb2
            obtain rfl : fb = fb2 := by rw [hfb] at hfb2; simpa using hfb2
            exact ⟨"evt_" ++ Nat.repr db.gen, "evt_" ++ Nat.repr (db.gen + 1),
              by simp, by simp⟩
          · intro hnone
            rw [hfb] at hnone
            simp at hnone
  · next hfb =>
    split at h
    · simp at h
    · next n1 db3 happ1 =>
      have hdb3 := appendEvent_ok_noKey rfl happ1
      subst hdb3
      obtain rfl : _ = db' := by simpa using h
      refine ⟨rfl, rfl, ?_, cardsFrame_of_eq rfl, ?_⟩
      · simp [shedOutcomePatch, hfb]
      · refine ⟨[deferredEvent d "extended_expiry"
            (some ((d.expiresAt.getD now) + DEFER_EXTENSION_MS)) count
            ("evt_" ++ Nat.repr db.gen) now], by simp, ?_, ?_, ?_, ?_, ?_⟩
        · intro e he
          rw [List.mem_singleton] at he
          subst he
          intro f t r hp
          simp [deferredEvent] at hp
        · simp [renderedCountEv, List.filter, isRenderedFor_deferred, hfb]
        · intro did hdid
          simp [renderedCountEv, List.filter, isRenderedFor_deferred]
        · intro fb2 hfb2
          rw [hfb] at hfb2
          simp at hfb2
        · intro hnone
          exact ⟨"evt_" ++ Nat.repr db.gen, by simp⟩

/-! ## Loop lemmas -/

theorem eachE_ok_cons {F : α → DB → Except Err DB} {x : α} {xs : List α}
    {db db' : DB} (h : eachE F (x :: xs) db = .ok db') :
    ∃ db1, F x db = .ok db1 ∧ eachE F xs db1 = .ok db' := by
  unfold eachE at h
  split at h
  · simp at h
  · next db1 heq => exact ⟨db1, heq, h⟩

theorem eachE_pres {F : α → DB → Except Err DB} {P : DB → Prop}
    (hstep : ∀ x db db', P db → F x db = .ok db' → P db') :
    ∀ {l : List α} {db db' : DB}, P db → eachE F l db = .ok db' → P db' := by
  intro l
  induction l with
  | nil =>
    intro db db' hP h
    unfold eachE at h
    cases h
    exact hP
  | cons x xs ih =>
    intro db db' hP h
    obtain ⟨db1, hF, hrest⟩ := eachE_ok_cons h
    exact ih (hstep x db db1 hP hF) hrest

/-- Tracked per-row loop preservation of the render invariant: the step
patches exactly the snapshot row, appending the right number of render
events for its id. -/
theorem eachE_track_renderInv {F : (Nat × Decision) → DB → Except Err DB}
    (hstep : ∀ (i : Nat) (d : Decision) (db db' : DB), d.state ≠ .RENDERED →
      F (i, d) db = .ok db' →
      ∃ (g : Decision → Decision) (tail : List Event),
        db'.decisions = updateAt db.decisions i g ∧
        db'.events = db.events ++ tail ∧
        (g d).decisionId = d.decisionId ∧
        (((g d).state = .RENDERED ∧ renderedCountEv tail d.decisionId = 1 ∧
           (∀ did, did ≠ d.decisionId → renderedCountEv tail did = 0)) ∨
         ((g d).state ≠ .RENDERED ∧ ∀ did, renderedCountEv tail did = 0))) :
    ∀ (pend : List (Nat × Decision)) (db db' : DB),
      pend.Pairwise (fun x y => x.1 ≠ y.1) →
      (∀ x ∈ pend, db.decisions[x.1]? = some x.2 ∧ x.2.state ≠ .RENDERED) →
      RenderInv db → eachE F pend db = .ok db' → RenderInv db' := by
  intro pend
  induction pend with
  | nil =>
    intro db db' hp hr hInv h
    unfold eachE at h
    obtain rfl : db = db' := by simpa using h
    exact hInv
  | cons x rest ih =>
    rintro db db' hp hr hInv h
    obtain ⟨i, d⟩ := x
    obtain ⟨db1, hF, hrest⟩ := eachE_ok_cons h
    obtain ⟨hrow, hnr⟩ := hr (i, d) (List.mem_cons_self _ _)
    obtain ⟨g, tail, hdec, hev, hgid, hcase⟩ := hstep i d db db1 hnr hF
    have hInv1 : RenderInv db1 := by
      rcases hcase with ⟨hst, h1, h0⟩ | ⟨hst, h0⟩
      · exact renderInv_patch_render hInv hrow hgid hst hnr hdec hev h1 h0
      · exact renderInv_patch_keep hInv hrow hgid hst hnr hdec hev h0
    have hne : ∀ y ∈ rest, (i, d).1 ≠ y.1 := (List.pairwise_cons.mp hp).1
    refine ih db1 db' (List.pairwise_cons.mp hp).2 ?_ hInv1 hrest
    intro y hy
    obtain ⟨hyrow, hynr⟩ := hr y (List.mem_cons_of_mem _ hy)
    refine ⟨?_, hynr⟩
    rw [hdec, getElem?_updateAt_ne _ _ (hne y hy)]
    exact hyrow

/-- The per-item step of `expireOne` in the form consumed by the
tracked loop lemma. -/
theorem expireOne_track (i : Nat) (d : Decision) (db db' : DB)
    (hnr : d.state ≠ .RENDERED) (h : expireOne now (i, d) db = .ok db') :
    ∃ (g : Decision → Decision) (tail : List Event),
      db'.decisions = updateAt db.decisions i g ∧
      db'.events = db.events ++ tail ∧
      (g d).decisionId = d.decisionId ∧
      (((g d).state = .RENDERED ∧ renderedCountEv tail d.decisionId = 1 ∧
         (∀ did, did ≠ d.decisionId → renderedCountEv tail did = 0)) ∨
       ((g d).state ≠ .RENDERED ∧ ∀ did, renderedCountEv tail did = 0)) := by
  obtain ⟨-, -, hdec, -, tail, hev, -, h1, h0, -⟩ := expireOne_ok_spec h
  refine ⟨expireOutcomePatch d now, tail, hdec, hev, ?_, ?_⟩
  · cases hfb : d.fallbackOption <;> simp [expireOutcomePatch, hfb, renderPatch, expirePatch]
  · cases hfb : d.fallbackOption with
    | some fb =>
      refine Or.inl ⟨by simp [expireOutcomePatch, hfb, renderPatch], ?_, h0⟩
      rw [h1]
      simp [hfb]
    | none =>
      refine Or.inr ⟨by simp [expireOutcomePatch, hfb, expirePatch, hnr], ?_⟩
      intro did
      by_cases hdid : did = d.decisionId
      · subst hdid
        rw [h1]
        simp [hfb]
      · exact h0 did hdid

/-- The per-item step of `reclaimOne` in tracked form. -/
theorem reclaimOne_track (i : Nat) (d : Decision) (db db' : DB)
    (hnr : d.state ≠ .RENDERED) (h : reclaimOne now (i, d) db = .ok db') :
    ∃ (g : Decision → Decision) (tail : List Event),
      db'.decisions = updateAt db.decisions i g ∧
      db'.events = db.events ++ tail ∧
      (g d).decisionId = d.decisionId ∧
      (((g d).state = .RENDERED ∧ renderedCountEv tail d.decisionId = 1 ∧
         (∀ did, did ≠ d.decisionId → renderedCountEv tail did = 0)) ∨
       ((g d).state ≠ .RENDERED ∧ ∀ did, renderedCountEv tail did = 0)) := by
  obtain ⟨-, -, -, hdec, tail, hev, htl, -⟩ := reclaimOne_ok_spec h
  refine ⟨reclaimPatch, tail, hdec, hev, rfl, Or.inr ⟨by simp [reclaimPatch], ?_⟩⟩
  exact fun did => renderedCountEv_zero_of_noRender (fun e he => (htl e he).2) did

/-- The per-item step of `shedOne` in tracked form. -/
theorem shedOne_track (i : Nat) (d : Decision) (db db' : DB)
    (hnr : d.state ≠ .RENDERED) (h : shedOne now count (i, d) db = .ok db') :
    ∃ (g : Decision → Decision) (tail : List Event),
      db'.decisions = updateAt db.decisions i g ∧
      db'.events = db.events ++ tail ∧
      (g d).decisionId = d.decisionId ∧
      (((g d).state = .RENDERED ∧ renderedCountEv tail d.decisionId = 1 ∧
         (∀ did, did ≠ d.decisionId → renderedCountEv tail did = 0)) ∨
       ((g d).state ≠ .RENDERED ∧ ∀ did, renderedCountEv tail did = 0)) := by
  obtain ⟨-, -, hdec, -, tail, hev, -, h1, h0, -, -⟩ := shedOne_ok_spec h
  refine ⟨shedOutcomePatch d now, tail, hdec, hev, ?_, ?_⟩
  · cases hfb : d.fallbackOption <;>
      simp [shedOutcomePatch, hfb, shedRenderPatch, extendPatch]
  · cases hfb : d.fallbackOption with
    | some fb =>
      refine Or.inl ⟨by simp [shedOutcomePatch, hfb, shedRenderPatch], ?_, h0⟩
      rw [h1]
      simp [hfb]
    | none =>
      refine Or.inr ⟨by simp [shedOutcomePatch, hfb, extendPatch, hnr], ?_⟩
      intro did
      by_cases hdid : did = d.decisionId
      · subst hdid
        rw [h1]
        simp [hfb]
      · exact h0 did hdid

/-! ## Snapshot facts -/

theorem expireSnapshot_pairwise (now : Nat) (db : DB) :
    (expireSnapshot now db).Pairwise (fun x y => x.1 ≠ y.1) := by
  have h1 := pairwise_fst_enumIdx db.decisions
  exact (h1.sublist ((List.filter_sublist _).trans (List.filter_sublist _)))

theorem expireSnapshot_rows {now : Nat} {db : DB} {x : Nat × Decision}
    (hx : x ∈ expireSnapshot now db) :
    db.decisions[x.1]? = some x.2 ∧ (x.2.state = .PENDING ∨ x.2.state = .CLAIMED) ∧
      isExpiredAt now x.2 = true := by
  unfold expireSnapshot at hx
  have h2 := List.mem_filter.mp hx
  have h1 := List.mem_filter.mp h2.1
  obtain ⟨i, d⟩ := x
  refine ⟨mem_enumIdx.mp h1.1, ?_, h2.2⟩
  have := h1.2
  simp only [isOpen, Bool.or_eq_true, beq_iff_eq] at this
  exact this

theorem reclaimSnapshot_pairwise (now : Nat) (db : DB) :
    (reclaimSnapshot now db).Pairwise (fun x y => x.1 ≠ y.1) := by
  have h1 := pairwise_fst_enumIdx db.decisions
  exact (h1.sublist ((List.filter_sublist _).trans (List.filter_sublist _)))

theorem reclaimSnapshot_rows {now : Nat} {db : DB} {x : Nat × Decision}
    (hx : x ∈ reclaimSnapshot now db) :
    db.decisions[x.1]? = some x.2 ∧ x.2.state = .CLAIMED := by
  unfold reclaimSnapshot at hx
  have h2 := List.mem_filter.mp hx
  have h1 := List.mem_filter.mp h2.1
  refine ⟨mem_enumIdx.mp h1.1, ?_⟩
  have := h1.2
  simpa using this

theorem wheneverSnapshot_pairwise (p : String) (db : DB) :
    (wheneverSnapshot p db).Pairwise (fun x y => x.1 ≠ y.1) := by
  have h1 := pairwise_fst_enumIdx db.decisions
  exact h1.sublist (List.filter_sublist _)

theorem wheneverSnapshot_rows {p : String} {db : DB} {x : Nat × Decision}
    (hx : x ∈ wheneverSnapshot p db) :
    db.decisions[x.1]? = some x.2 ∧ x.2.projectId = p ∧
      x.2.state = .PENDING ∧ x.2.urgency = .whenever := by
  unfold wheneverSnapshot at hx
  have h1 := List.mem_filter.mp hx
  refine ⟨mem_enumIdx.mp h1.1, ?_⟩
  have := h1.2
  simp only [Bool.and_eq_true, beq_iff_eq] at this
  exact ⟨this.1.1, this.1.2, this.2⟩

/-! ## Phase-level preservation -/

theorem releaseRetries_renderInv {now : Nat} {db db' : DB}
    (hInv : RenderInv db) (h : releaseRetries now db = .ok db') : RenderInv db' := by
  refine eachE_pres ?_ hInv h
  intro c db1 db2 hP hF
  obtain ⟨hdec, -, -, ⟨tail, hev, htl⟩, -⟩ := releaseOne_ok_spec hF
  exact renderInv_append hP hdec hev
    (fun did => renderedCountEv_zero_of_noRender (fun e he => (htl e he).2) did)

theorem releaseRetries_edgeInv {now : Nat} {db db' : DB}
    (hInv : EdgeInv db) (h : releaseRetries now db = .ok db') : EdgeInv db' := by
  refine eachE_pres ?_ hInv h
  intro c db1 db2 hP hF
  obtain ⟨-, -, -, ⟨tail, hev, htl⟩, -⟩ := releaseOne_ok_spec hF
  exact edgeInv_extend hP hev (fun e he => (htl e he).1)

theorem releaseRetries_retryInv {now : Nat} {db db' : DB}
    (hInv : RetryInv db) (h : releaseRetries now db = .ok db') : RetryInv db' := by
  refine eachE_pres ?_ hInv h
  intro c db1 db2 hP hF
  obtain ⟨-, -, -, -, hfr⟩ := releaseOne_ok_spec hF
  exact retryInv_of_cardsFrame (by simp) hP hfr

theorem expireDecisions_renderInv {now : Nat} {db db' : DB}
    (hInv : RenderInv db) (h : expireDecisions now db = .ok db') : RenderInv db' := by
  refine eachE_track_renderInv (fun i d dba dbb hnr hF => expireOne_track i d dba dbb hnr hF)
    (expireSnapshot now db) db db' (expireSnapshot_pairwise now db) ?_ hInv h
  intro x hx
  obtain ⟨hrow, hst, -⟩ := expireSnapshot_rows hx
  refine ⟨hrow, ?_⟩
  rcases hst with hst | hst <;> simp [hst]

theorem expireDecisions_edgeInv {now : Nat} {db db' : DB}
    (hInv : EdgeInv db) (h : expireDecisions now db = .ok db') : EdgeInv db' := by
  refine eachE_pres ?_ hInv h
  rintro ⟨i, d⟩ db1 db2 hP hF
  obtain ⟨-, -, -, -, tail, hev, htl, -⟩ := expireOne_ok_spec hF
  exact edgeInv_extend hP hev htl

theorem expireDecisions_retryInv {now : Nat} {db db' : DB}
    (hInv : RetryInv db) (h : expireDecisions now db = .ok db') : RetryInv db' := by
  refine eachE_pres ?_ hInv h
  rintro ⟨i, d⟩ db1 db2 hP hF
  obtain ⟨-, -, -, hfr, -⟩ := expireOne_ok_spec hF
  exact retryInv_of_cardsFrame (by simp) hP hfr

theorem reclaimExpiredClaims_renderInv {now : Nat} {db db' : DB}
    (hInv : RenderInv db) (h : reclaimExpiredClaims now db = .ok db') : RenderInv db' := by
  refine eachE_track_renderInv (fun i d dba dbb hnr hF => reclaimOne_track i d dba dbb hnr hF)
    (reclaimSnapshot now db) db db' (reclaimSnapshot_pairwise now db) ?_ hInv h
  intro x hx
  obtain ⟨hrow, hst⟩ := reclaimSnapshot_rows hx
  exact ⟨hrow, by simp [hst]⟩

theorem reclaimExpiredClaims_edgeInv {now : Nat} {db db' : DB}
    (hInv : EdgeInv db) (h : reclaimExpiredClaims now db = .ok db') : EdgeInv db' := by
  refine eachE_pres ?_ hInv h
  rintro ⟨i, d⟩ db1 db2 hP hF
  obtain ⟨-, -, -, -, tail, hev, htl, -⟩ := reclaimOne_ok_spec hF
  exact edgeInv_extend hP hev (fun e he => (htl e he).1)

theorem reclaimExpiredClaims_retryInv {now : Nat} {db db' : DB}
    (hInv : RetryInv db) (h : reclaimExpiredClaims now db = .ok db') : RetryInv db' := by
  refine eachE_pres ?_ hInv h
  rintro ⟨i, d⟩ db1 db2 hP hF
  obtain ⟨-, -, hcards, -, -⟩ := reclaimOne_ok_spec hF
  exact retryInv_of_cards_eq hcards hP

theorem shedProject_renderInv {now : Nat} {pn : List Decision} {p : String}
    {db db' : DB} (hInv : RenderInv db) (h : shedProject now pn p db = .ok db') :
    RenderInv db' := by
  simp only [shedProject] at h
  split at h
  · refine eachE_track_renderInv (fun i d dba dbb hnr hF => shedOne_track i d dba dbb hnr hF)
      (wheneverSnapshot p db) db db' (wheneverSnapshot_pairwise p db) ?_ hInv h
    intro x hx
    obtain ⟨hrow, -, hst, -⟩ := wheneverSnapshot_rows hx
    exact ⟨hrow, by simp [hst]⟩
  · obtain rfl : db = db' := by simpa using h
    exact hInv

theorem shedProject_edgeInv {now : Nat} {pn : List Decision} {p : String}
    {db db' : DB} (hInv : EdgeInv db) (h : shedProject now pn p db = .ok db') :
    EdgeInv db' := by
  simp only [shedProject] at h
  split at h
  · refine eachE_pres ?_ hInv h
    rintro ⟨i, d⟩ db1 db2 hP hF
    obtain ⟨-, -, -, -, tail, hev, htl, -⟩ := shedOne_ok_spec hF
    exact edgeInv_extend hP hev htl
  · obtain rfl : db = db' := by simpa using h
    exact hInv

theorem shedProject_retryInv {now : Nat} {pn : List Decision} {p : String}
    {db db' : DB} (hInv : RetryInv db) (h : shedProject now pn p db = .ok db') :
    RetryInv db' := by
  simp only [shedProject] at h
  split at h
  · refine eachE_pres ?_ hInv h
    rintro ⟨i, d⟩ db1 db2 hP hF
    obtain ⟨-, -, -, hfr, -⟩ := shedOne_ok_spec hF
    exact retryInv_of_cardsFrame (by simp) hP hfr
  · obtain rfl : db = db' := by simpa using h
    exact hInv

theorem loadShed_renderInv {now : Nat} {db db' : DB}
    (hInv : RenderInv db) (h : loadShed now db = .ok db') : RenderInv db' := by
  unfold loadShed at h
  exact eachE_pres (fun p db1 db2 hP hF => shedProject_renderInv hP hF) hInv h

theorem loadShed_edgeInv {now : Nat} {db db' : DB}
    (hInv : EdgeInv db) (h : loadShed now db = .ok db') : EdgeInv db' := by
  unfold loadShed at h
  exact eachE_pres (fun p db1 db2 hP hF => shedProject_edgeInv hP hF) hInv h

theorem loadShed_retryInv {now : Nat} {db db' : DB}
    (hInv : RetryInv db) (h : loadShed now db = .ok db') : RetryInv db' := by
  unfold loadShed at h
  exact eachE_pres (fun p db1 db2 hP hF => shedProject_retryInv hP hF) hInv h

theorem sweep_ok_chain {now : Nat} {db db' : DB} (h : sweep now db = .ok db') :
    ∃ db1 db2 db3,
      releaseRetries now db = .ok db1 ∧ expireDecisions now db1 = .ok db2 ∧
      reclaimExpiredClaims now db2 = .ok db3 ∧ loadShed now db3 = .ok db' := by
  unfold sweep at h
  split at h
  · simp at h
  · next db1 h1 =>
    split at h
    · simp at h
    · next db2 h2 =>
      split at h
      · simp at h
      · next db3 h3 => exact ⟨db1, db2, db3, h1, h2, h3, h⟩

theorem sweep_renderInv {now : Nat} {db db' : DB}
    (hInv : RenderInv db) (h : sweep now db = .ok db') : RenderInv db' := by
  obtain ⟨db1, db2, db3, h1, h2, h3, h4⟩ := sweep_ok_chain h
  exact loadShed_renderInv
    (reclaimExpiredClaims_renderInv
      (expireDecisions_renderInv (releaseRetries_renderInv hInv h1) h2) h3) h4

theorem sweep_edgeInv {now : Nat} {db db' : DB}
    (hInv : EdgeInv db) (h : sweep now db = .ok db') : EdgeInv db' := by
  obtain ⟨db1, db2, db3, h1, h2, h3, h4⟩ := sweep_ok_chain h
  exact loadShed_edgeInv
    (reclaimExpiredClaims_edgeInv
      (expireDecisions_edgeInv (releaseRetries_edgeInv hInv h1) h2) h3) h4

theorem sweep_retryInv {now : Nat} {db db' : DB}
    (hInv : RetryInv db) (h : sweep now db = .ok db') : RetryInv db' := by
  obtain ⟨db1, db2, db3, h1, h2, h3, h4⟩ := sweep_ok_chain h
  exact loadShed_retryInv
    (reclaimExpiredClaims_retryInv
      (expireDecisions_retryInv (releaseRetries_retryInv hInv h1) h2) h3) h4

/-! ## Per-operation invariant preservation -/

theorem map_snd_ok {β : Type} {f : Except Err (β × DB)} {db' : DB}
    (h : f.map (fun x => x.2) = .ok db') : ∃ res, f = .ok (res, db') := by
  cases f with
  | error e => simp [Except.map] at h
  | ok p =>
    obtain ⟨r, d⟩ := p
    have hd : d = db' := by simpa [Except.map] using h
    exact ⟨r, by rw [hd]⟩

theorem noRenderTail_singleton {e : Event} (h : NoRenderEv e) :
    ∀ did, renderedCountEv [e] did = 0 := by
  intro did
  refine renderedCountEv_zero_of_noRender ?_ did
  intro x hx
  rw [List.mem_singleton] at hx
  subst hx
  exact h

theorem isRenderedFor_decisionRenderedEvent (did : String) (auth : AuthContext)
    (d : Decision) (opt : String) (note : Option String) (eid : String) (now : Nat) :
    isRenderedFor did (decisionRenderedEvent auth d opt note eid now) =
      (d.decisionId == did) := by
  simp [isRenderedFor, decisionRenderedEvent]

theorem retryInv_transitionPatch {db db' : DB} {i : Nat} {card : Card}
    {a : TransitionArgs} {now : Nat}
    (hInv : RetryInv db) (hrow : db.cards[i]? = some card)
    (hvalid : a.toState ∈ VALID_TRANSITIONS card.state)
    (hok : a.toState = .RETRY_SCHEDULED → a.retryAtTs.isSome)
    (hcards : db'.cards = updateAt db.cards i (transitionPatch a card.state now)) :
    RetryInv db' := by
  intro c hc
  rw [hcards] at hc
  obtain ⟨j, hj⟩ := getElem?_of_mem_eq hc
  by_cases hij : i = j
  · subst hij
    rw [getElem?_updateAt_self _ hrow] at hj
    obtain rfl : transitionPatch a card.state now card = c := by simpa using hj
    have hold := hInv card (mem_of_getElem?_some hrow)
    by_cases hfs : card.state = .RETRY_SCHEDULED
    · have hto : a.toState = .READY := by
        rw [hfs] at hvalid
        simpa [VALID_TRANSITIONS] using hvalid
      simp [transitionPatch, hfs, hto]
    · by_cases hts : a.toState = .RETRY_SCHEDULED
      · have hsome := hok hts
        simp [transitionPatch, hfs, hts, hsome]
      · have hnone : card.retryAtTs.isSome = false := by
          cases h2 : card.retryAtTs.isSome
          · rfl
          · exact absurd (hold.mp h2) hfs
        simp [transitionPatch, hfs, hts, hnone]
  · rw [getElem?_updateAt_ne _ _ hij] at hj
    exact hInv c (mem_of_getElem?_some hj)

theorem requestCommandCore_tail_noRender {tid pid : String} {a : RequestCommandArgs}
    {cid kid e1 e2 : String} {now : Nat} {tail : List Event}
    (htail : tail = [commandRequestedEvent tid pid a cid kid e1 now,
                     commandCardCreatedEvent tid pid a cid kid e2 now] ∨
             tail = [commandCardCreatedEvent tid pid a cid kid e2 now]) :
    ∀ did, renderedCountEv tail did = 0 := by
  intro did
  refine renderedCountEv_zero_of_noRender ?_ did
  intro e he
  rcases htail with rfl | rfl
  · simp only [List.mem_cons, List.not_mem_nil, or_false] at he
    rcases he with rfl | rfl
    · intro did2; rfl
    · intro did2; rfl
  · rw [List.mem_singleton] at he
    subst he
    intro did2; rfl

theorem requestCommandCore_tail_edgeOK {tid pid : String} {a : RequestCommandArgs}
    {cid kid e1 e2 : String} {now : Nat} {tail : List Event}
    (htail : tail = [commandRequestedEvent tid pid a cid kid e1 now,
                     commandCardCreatedEvent tid pid a cid kid e2 now] ∨
             tail = [commandCardCreatedEvent tid pid a cid kid e2 now]) :
    ∀ e ∈ tail, EdgeOK e := by
  intro e he f t r hc
  rcases htail with rfl | rfl
  · simp only [List.mem_cons, List.not_mem_nil, or_false] at he
    rcases he with rfl | rfl
    · simp [commandRequestedEvent] at hc
    · simp [commandCardCreatedEvent] at hc
  · rw [List.mem_singleton] at he
    subst he
    simp [commandCardCreatedEvent] at hc

/-- `RenderInv` is preserved by every operation, provided the ids the
caller generated for `requestDecision` are fresh. -/
theorem renderInv_runOp {op : Op} {db db' : DB} (hInv : RenderInv db)
    (hf : freshOK db op = true) (h : runOp op db = .ok db') : RenderInv db' := by
  cases op with
  | requestCommand ident a cid kid e1 e2 now =>
    simp only [runOp] at h
    obtain ⟨res, h⟩ := map_snd_ok h
    unfold requestCommand at h
    split at h
    · simp at h
    · obtain ⟨hde, hme, hcm, hca, tail, hev, htail⟩ := requestCommandCore_ok_spec h
      exact renderInv_append hInv hde hev (requestCommandCore_tail_noRender htail)
  | httpRequestCommand tid a cid kid e1 e2 now =>
    simp only [runOp] at h
    obtain ⟨res, h⟩ := map_snd_ok h
    obtain ⟨hde, hme, hcm, hca, tail, hev, htail⟩ := requestCommandCore_ok_spec h
    exact renderInv_append hInv hde hev (requestCommandCore_tail_noRender htail)
  | createCard a cid e now =>
    simp only [runOp] at h
    obtain ⟨res, h⟩ := map_snd_ok h
    obtain ⟨hde, hme, hcm, hca, hev⟩ := createCard_ok_spec h
    exact renderInv_append hInv hde hev (noRenderTail_singleton (fun did2 => rfl))
  | transitionCard a e now =>
    simp only [runOp] at h
    obtain ⟨res, h⟩ := map_snd_ok h
    obtain ⟨i, card, -, -, -, -, rfl⟩ := transitionCard_ok h
    exact renderInv_append hInv rfl rfl (noRenderTail_singleton (fun did2 => rfl))
  | requestDecision ident a did e now =>
    simp only [runOp] at h
    obtain ⟨res, h⟩ := map_snd_ok h
    unfold requestDecision at h
    split at h
    · simp at h
    · next auth hauth =>
      obtain ⟨hde, hca, hcm, hme, hev⟩ := requestDecisionCore_ok_spec h
      refine renderInv_insert hInv ?_ (by simp [requestDecisionRow]) hde hev
        (noRenderTail_singleton (fun did2 => rfl))
      intro hmem
      obtain ⟨d0, hd0, hid⟩ := List.mem_map.mp hmem
      simp only [freshOK] at hf
      rw [List.all_eq_true] at hf
      exact of_decide_eq_true (hf d0 hd0) hid
  | httpRequestDecision tid a did e now =>
    simp only [runOp] at h
    obtain ⟨res, h⟩ := map_snd_ok h
    obtain ⟨hde, hca, hcm, hme, hev⟩ := requestDecisionCore_ok_spec h
    refine renderInv_insert hInv ?_ (by simp [requestDecisionRow]) hde hev
      (noRenderTail_singleton (fun did2 => rfl))
    intro hmem
    obtain ⟨d0, hd0, hid⟩ := List.mem_map.mp hmem
    simp only [freshOK] at hf
    rw [List.all_eq_true] at hf
    exact of_decide_eq_true (hf d0 hd0) hid
  | claimDecision ident pid did e now =>
    simp only [runOp] at h
    obtain ⟨res, h⟩ := map_snd_ok h
    rcases claimDecision_ok_spec h with rfl | ⟨i, d, auth, hrow, hstates, hdec, -, -, -, hev⟩
    · exact hInv
    · refine renderInv_patch_keep hInv hrow (claimPatch_decisionId _ _ _)
        (by simp [claimPatch]) ?_ hdec hev (noRenderTail_singleton (fun did2 => rfl))
      rcases hstates with hs | hs <;> simp [hs]
  | renewClaim ident pid did now =>
    simp only [runOp] at h
    obtain ⟨res, h⟩ := map_snd_ok h
    obtain ⟨i, d, hrow, hstate, hdec, -, -, -, hev⟩ := renewDecisionClaim_ok_spec h
    refine renderInv_patch_keep hInv hrow rfl (by simp [renewPatch, hstate])
      (by simp [hstate]) hdec ((by simp [hev]) : db'.events = db.events ++ [])
      (fun did2 => rfl)
  | renderDecision ident pid did opt note e now =>
    simp only [runOp] at h
    obtain ⟨res, h⟩ := map_snd_ok h
    rcases renderDecision_ok_spec h with
      ⟨d, auth, reason, hdec, -, -, -, hev⟩ |
      ⟨i, d, auth, hrow, hstates, -, hdec, -, -, -, hev⟩
    · exact renderInv_append hInv hdec hev (noRenderTail_singleton (fun did2 => rfl))
    · refine renderInv_patch_render hInv hrow (renderPatch_decisionId _ _ _ _)
        (by simp [renderPatch]) ?_ hdec hev ?_ ?_
      · rcases hstates with hs | hs <;> simp [hs]
      · rw [renderedCountEv_singleton, isRenderedFor_decisionRenderedEvent]
        simp
      · intro did2 hne
        rw [renderedCountEv_singleton, isRenderedFor_decisionRenderedEvent]
        simp [Ne.symm hne]
  | sweep now =>
    simp only [runOp] at h
    exact sweep_renderInv hInv h

/-- `EdgeInv` is preserved unconditionally by every operation. -/
theorem edgeInv_runOp {op : Op} {db db' : DB} (hInv : EdgeInv db)
    (h : runOp op db = .ok db') : EdgeInv db' := by
  cases op with
  | requestCommand ident a cid kid e1 e2 now =>
    simp only [runOp] at h
    obtain ⟨res, h⟩ := map_snd_ok h
    unfold requestCommand at h
    split at h
    · simp at h
    · obtain ⟨-, -, -, -, tail, hev, htail⟩ := requestCommandCore_ok_spec h
      exact edgeInv_extend hInv hev (requestCommandCore_tail_edgeOK htail)
  | httpRequestCommand tid a cid kid e1 e2 now =>
    simp only [runOp] at h
    obtain ⟨res, h⟩ := map_snd_ok h
    obtain ⟨-, -, -, -, tail, hev, htail⟩ := requestCommandCore_ok_spec h
    exact edgeInv_extend hInv hev (requestCommandCore_tail_edgeOK htail)
  | createCard a cid e now =>
    simp only [runOp] at h
    obtain ⟨res, h⟩ := map_snd_ok h
    obtain ⟨-, -, -, -, hev⟩ := createCard_ok_spec h
    refine edgeInv_extend hInv hev ?_
    intro ev he f t r hc
    rw [List.mem_singleton] at he
    subst he
    simp [createCardEvent] at hc
  | transitionCard a e now =>
    simp only [runOp] at h
    obtain ⟨res, h⟩ := map_snd_ok h
    obtain ⟨i, card, -, -, -, hvalid, rfl⟩ := transitionCard_ok h
    refine edgeInv_extend hInv rfl ?_
    intro ev he f t r hc
    rw [List.mem_singleton] at he
    subst he
    obtain ⟨rfl, rfl, rfl⟩ : card.state = f ∧ a.toState = t ∧ a.reason = r := by
      simpa [transitionEvent] using hc
    exact hvalid
  | requestDecision ident a did e now =>
    simp only [runOp] at h
    obtain ⟨res, h⟩ := map_snd_ok h
    unfold requestDecision at h
    split at h
    · simp at h
    · obtain ⟨-, -, -, -, hev⟩ := requestDecisionCore_ok_spec h
      refine edgeInv_extend hInv hev ?_
      intro ev he f t r hc
      rw [List.mem_singleton] at he
      subst he
      simp [decisionRequestedEvent] at hc
  | httpRequestDecision tid a did e now =>
    simp only [runOp] at h
    obtain ⟨res, h⟩ := map_snd_ok h
    obtain ⟨-, -, -, -, hev⟩ := requestDecisionCore_ok_spec h
    refine edgeInv_extend hInv hev ?_
    intro ev he f t r hc
    rw [List.mem_singleton] at he
    subst he
    simp [decisionRequestedEvent] at hc
  | claimDecision ident pid did e now =>
    simp only [runOp] at h
    obtain ⟨res, h⟩ := map_snd_ok h
    rcases claimDecision_ok_spec h with rfl | ⟨i, d, auth, -, -, -, -, -, -, hev⟩
    · exact hInv
    · refine edgeInv_extend hInv hev ?_
      intro ev he f t r hc
      rw [List.mem_singleton] at he
      subst he
      simp [decisionClaimedEvent] at hc
  | renewClaim ident pid did now =>
    simp only [runOp] at h
    obtain ⟨res, h⟩ := map_snd_ok h
    obtain ⟨i, d, -, -, -, -, -, -, hev⟩ := renewDecisionClaim_ok_spec h
    intro ev he
    rw [hev] at he
    exact hInv ev he
  | renderDecision ident pid did opt note e now =>
    simp only [runOp] at h
    obtain ⟨res, h⟩ := map_snd_ok h
    rcases renderDecision_ok_spec h with
      ⟨d, auth, reason, -, -, -, -, hev⟩ |
      ⟨i, d, auth, -, -, -, -, -, -, -, hev⟩
    · refine edgeInv_extend hInv hev ?_
      intro ev he f t r hc
      rw [List.mem_singleton] at he
      subst he
      simp [renderRejectedEvent] at hc
    · refine edgeInv_extend hInv hev ?_
      intro ev he f t r hc
      rw [List.mem_singleton] at he
      subst he
      simp [decisionRenderedEvent] at hc
  | sweep now =>
    simp only [runOp] at h
    exact sweep_edgeInv hInv h

/-- `RetryInv` is preserved by every operation whose `transitionCard`
calls into `RETRY_SCHEDULED` supply the `retryAtTs` argument. -/
theorem retryInv_runOp {op : Op} {db db' : DB} (hInv : RetryInv db)
    (hr : retryOK op = true) (h : runOp op db = .ok db') : RetryInv db' := by
  cases op with
  | requestCommand ident a cid kid e1 e2 now =>
    simp only [runOp] at h
    obtain ⟨res, h⟩ := map_snd_ok h
    unfold requestCommand at h
    split at h
    · simp at h
    · obtain ⟨-, -, -, hca, -⟩ := requestCommandCore_ok_spec h
      exact retryInv_append_card hInv hca rfl rfl
  | httpRequestCommand tid a cid kid e1 e2 now =>
    simp only [runOp] at h
    obtain ⟨res, h⟩ := map_snd_ok h
    obtain ⟨-, -, -, hca, -⟩ := requestCommandCore_ok_spec h
    exact retryInv_append_card hInv hca rfl rfl
  | createCard a cid e now =>
    simp only [runOp] at h
    obtain ⟨res, h⟩ := map_snd_ok h
    obtain ⟨-, -, -, hca, -⟩ := createCard_ok_spec h
    exact retryInv_append_card hInv hca rfl rfl
  | transitionCard a e now =>
    simp only [runOp] at h
    obtain ⟨res, h⟩ := map_snd_ok h
    obtain ⟨i, card, hrow, -, -, hvalid, rfl⟩ := transitionCard_ok h
    refine retryInv_transitionPatch hInv hrow hvalid ?_ rfl
    intro hts
    simp only [retryOK, hts] at hr
    simpa using hr
  | requestDecision ident a did e now =>
    simp only [runOp] at h
    obtain ⟨res, h⟩ := map_snd_ok h
    unfold requestDecision at h
    split at h
    · simp at h
    · obtain ⟨-, hca, -, -, -⟩ := requestDecisionCore_ok_spec h
      exact retryInv_of_cards_eq hca hInv
  | httpRequestDecision tid a did e now =>
    simp only [runOp] at h
    obtain ⟨res, h⟩ := map_snd_ok h
    obtain ⟨-, hca, -, -, -⟩ := requestDecisionCore_ok_spec h
    exact retryInv_of_cards_eq hca hInv
  | claimDecision ident pid did e now =>
    simp only [runOp] at h
    obtain ⟨res, h⟩ := map_snd_ok h
    rcases claimDecision_ok_spec h with rfl | ⟨i, d, auth, -, -, -, hca, -, -, -⟩
    · exact hInv
    · exact retryInv_of_cards_eq hca hInv
  | renewClaim ident pid did now =>
    simp only [runOp] at h
    obtain ⟨res, h⟩ := map_snd_ok h
    obtain ⟨i, d, -, -, -, hca, -, -, -⟩ := renewDecisionClaim_ok_spec h
    exact retryInv_of_cards_eq hca hInv
  | renderDecision ident pid did opt note e now =>
    simp only [runOp] at h
    obtain ⟨res, h⟩ := map_snd_ok h
    rcases renderDecision_ok_spec h with
      ⟨d, auth, reason, -, hca, -, -, -⟩ |
      ⟨i, d, auth, -, -, -, -, hca, -, -, -⟩
    · exact retryInv_of_cards_eq hca hInv
    · exact retryInv_of_cards_eq hca hInv
  | sweep now =>
    simp only [runOp] at h
    exact sweep_retryInv hInv h

/-! ## Trace-level preservation -/

theorem renderInv_applyOp {op : Op} {db : DB} (hInv : RenderInv db)
    (hf : freshOK db op = true) : RenderInv (applyOp op db) := by
  unfold applyOp
  split
  · next db1 h1 => exact renderInv_runOp hInv hf h1
  · exact hInv

theorem edgeInv_applyOp {op : Op} {db : DB} (hInv : EdgeInv db) :
    EdgeInv (applyOp op db) := by
  unfold applyOp
  split
  · next db1 h1 => exact edgeInv_runOp hInv h1
  · exact hInv

theorem retryInv_applyOp {op : Op} {db : DB} (hInv : RetryInv db)
    (hr : retryOK op = true) : RetryInv (applyOp op db) := by
  unfold applyOp
  split
  · next db1 h1 => exact retryInv_runOp hInv hr h1
  · exact hInv

theorem renderInv_runTrace {ops : List Op} {db : DB}
    (hfr : freshTrace ops db = true) (hInv : RenderInv db) :
    RenderInv (runTrace ops db) := by
  induction ops generalizing db with
  | nil => exact hInv
  | cons op ops ih =>
    unfold freshTrace at hfr
    rw [Bool.and_eq_true] at hfr
    show RenderInv (runTrace ops (applyOp op db))
    exact ih hfr.2 (renderInv_applyOp hInv hfr.1)

theorem edgeInv_runTrace {ops : List Op} {db : DB} (hInv : EdgeInv db) :
    EdgeInv (runTrace ops db) := by
  induction ops generalizing db with
  | nil => exact hInv
  | cons op ops ih =>
    show EdgeInv (runTrace ops (applyOp op db))
    exact ih (edgeInv_applyOp hInv)

theorem retryInv_runTrace {ops : List Op} {db : DB}
    (hr : ∀ op ∈ ops, retryOK op = true) (hInv : RetryInv db) :
    RetryInv (runTrace ops db) := by
  induction ops generalizing db with
  | nil => exact hInv
  | cons op ops ih =>
    show RetryInv (runTrace ops (applyOp op db))
    exact ih (fun o ho => hr o (List.mem_cons_of_mem _ ho))
      (retryInv_applyOp hInv (hr op (List.mem_cons_self _ _)))

theorem renderInv_initDB (members : List Member) : RenderInv (initDB members) := by
  refine ⟨List.nodup_nil, ?_, ?_⟩
  · intro i d hd
    simp [initDB] at hd
  · intro did hdid
    rfl

theorem edgeInv_initDB (members : List Member) : EdgeInv (initDB members) := by
  intro e he
  simp [initDB] at he

theorem retryInv_initDB (members : List Member) : RetryInv (initDB members) := by
  intro c hc
  simp [initDB] at hc

/-! ## Tracking a single row, event, and card through the sweeper -/

theorem eachE_append_ok {F : α → DB → Except Err DB} :
    ∀ {l1 l2 : List α} {db db' : DB}, eachE F (l1 ++ l2) db = .ok db' →
      ∃ dbm, eachE F l1 db = .ok dbm ∧ eachE F l2 dbm = .ok db' := by
  intro l1
  induction l1 with
  | nil => intro l2 db db' h; exact ⟨db, rfl, h⟩
  | cons x xs ih =>
    intro l2 db db' h
    rw [List.cons_append] at h
    obtain ⟨db1, hF, hrest⟩ := eachE_ok_cons h
    obtain ⟨dbm, hm1, hm2⟩ := ih hrest
    refine ⟨dbm, ?_, hm2⟩
    unfold eachE
    rw [hF]
    exact hm1

theorem eachE_error_head {F : α → DB → Except Err DB} {x : α} {xs : List α}
    {db : DB} {err : Err} (h : F x db = .error err) :
    eachE F (x :: xs) db = .error err := by
  unfold eachE
  rw [h]

/-- `eachE_pres` with the preserved predicate given explicitly. -/
theorem eachE_presP (P : DB → Prop) {F : α → DB → Except Err DB}
    (hstep : ∀ x db db', P db → F x db = .ok db' → P db') :
    ∀ {l : List α} {db db' : DB}, P db → eachE F l db = .ok db' → P db' :=
  eachE_pres hstep

theorem eachE_pres_mem (P : DB → Prop) {F : α → DB → Except Err DB} :
    ∀ {l : List α} {db db' : DB},
      (∀ x ∈ l, ∀ db1 db2, P db1 → F x db1 = .ok db2 → P db2) →
      P db → eachE F l db = .ok db' → P db' := by
  intro l
  induction l with
  | nil =>
    intro db db' hstep hP h
    unfold eachE at h
    cases h
    exact hP
  | cons x xs ih =>
    intro db db' hstep hP h
    obtain ⟨db1, hF, hrest⟩ := eachE_ok_cons h
    exact ih (fun y hy => hstep y (List.mem_cons_of_mem _ hy))
      (hstep x (List.mem_cons_self _ _) db db1 hP hF) hrest

/-- If some element of the loop establishes `Q` and every step of the
loop preserves it, `Q` holds at the end of the loop. -/
theorem eachE_establish_pres (Q : DB → Prop) {F : α → DB → Except Err DB}
    (hpres : ∀ x db1 db2, Q db1 → F x db1 = .ok db2 → Q db2) :
    ∀ {l : List α} {x : α} (hx : x ∈ l)
      (hest : ∀ db1 db2, F x db1 = .ok db2 → Q db2)
      {db db' : DB} (h : eachE F l db = .ok db'), Q db' := by
  intro l
  induction l with
  | nil => intro x hx; simp at hx
  | cons y ys ih =>
    intro x hx hest db db' h
    obtain ⟨db1, hF, hrest⟩ := eachE_ok_cons h
    rcases List.mem_cons.mp hx with rfl | hx
    · exact eachE_presP Q hpres (hest db db1 hF) hrest
    · exact ih hx hest hrest

/-- Tracked loop outcome for a per-row sweeper phase: each step patches
exactly its own snapshot index, so every snapshot row ends at its
per-item outcome and every untouched index is preserved. -/
theorem eachE_track_outcome (outF : Decision → Decision)
    {F : (Nat × Decision) → DB → Except Err DB}
    (hstep : ∀ (i : Nat) (d : Decision) (db db' : DB), F (i, d) db = .ok db' →
      ∃ g : Decision → Decision, db'.decisions = updateAt db.decisions i g ∧
        g d = outF d) :
    ∀ (pend : List (Nat × Decision)) (db db' : DB),
      pend.Pairwise (fun x y => x.1 ≠ y.1) →
      (∀ x ∈ pend, db.decisions[x.1]? = some x.2) →
      eachE F pend db = .ok db' →
      (∀ x ∈ pend, db'.decisions[x.1]? = some (outF x.2)) ∧
      (∀ j : Nat, (∀ x ∈ pend, x.1 ≠ j) → db'.decisions[j]? = db.decisions[j]?) := by
  intro pend
  induction pend with
  | nil =>
    intro db db' hp hr h
    unfold eachE at h
    cases h
    exact ⟨by simp, fun j _ => rfl⟩
  | cons x rest ih =>
    intro db db' hp hr h
    obtain ⟨i, d⟩ := x
    obtain ⟨db1, hF, hrest⟩ := eachE_ok_cons h
    obtain ⟨g, hdec, hgd⟩ := hstep i d db db1 hF
    have hne : ∀ y ∈ rest, (i, d).1 ≠ y.1 := (List.pairwise_cons.mp hp).1
    have hr1 : ∀ x ∈ rest, db1.decisions[x.1]? = some x.2 := by
      intro x hx
      rw [hdec, getElem?_updateAt_ne _ _ (hne x hx)]
      exact hr x (List.mem_cons_of_mem _ hx)
    obtain ⟨htr, hfr⟩ := ih db1 db' (List.pairwise_cons.mp hp).2 hr1 hrest
    constructor
    · intro x hx
      rcases List.mem_cons.mp hx with rfl | hx
      · rw [hfr i (fun y hy => Ne.symm (hne y hy))]
        rw [hdec, getElem?_updateAt_self g (hr (i, d) (List.mem_cons_self _ _)), hgd]
      · exact htr x hx
    · intro j hj
      rw [hfr j (fun x hx => hj x (List.mem_cons_of_mem _ hx)), hdec,
        getElem?_updateAt_ne _ _ (hj (i, d) (List.mem_cons_self _ _))]

/-! ## Per-phase frame facts -/

theorem releaseRetries_decisions_eq {now : Nat} {db db' : DB}
    (h : releaseRetries now db = .ok db') : db'.decisions = db.decisions := by
  refine eachE_presP (fun x => x.decisions = db.decisions) ?_ rfl h
  intro c db1 db2 hP hF
  rw [(releaseOne_ok_spec hF).1, hP]

theorem releaseRetries_events_mono {now : Nat} {db db' : DB}
    (h : releaseRetries now db = .ok db') : ∀ e ∈ db.events, e ∈ db'.events := by
  intro e he
  refine eachE_presP (fun x => e ∈ x.events) ?_ he h
  intro c db1 db2 hP hF
  obtain ⟨-, -, -, ⟨tail, ht, -⟩, -⟩ := releaseOne_ok_spec hF
  rw [ht]
  exact List.mem_append_left _ hP

theorem expireDecisions_events_mono {now : Nat} {db db' : DB}
    (h : expireDecisions now db = .ok db') : ∀ e ∈ db.events, e ∈ db'.events := by
  intro e he
  refine eachE_presP (fun x => e ∈ x.events) ?_ he h
  rintro ⟨i, d⟩ db1 db2 hP hF
  obtain ⟨-, -, -, -, tail, ht, -⟩ := expireOne_ok_spec hF
  rw [ht]
  exact List.mem_append_left _ hP

theorem reclaimExpiredClaims_events_mono {now : Nat} {db db' : DB}
    (h : reclaimExpiredClaims now db = .ok db') : ∀ e ∈ db.events, e ∈ db'.events := by
  intro e he
  refine eachE_presP (fun x => e ∈ x.events) ?_ he h
  rintro ⟨i, d⟩ db1 db2 hP hF
  obtain ⟨-, -, -, -, tail, ht, -⟩ := reclaimOne_ok_spec hF
  rw [ht]
  exact List.mem_append_left _ hP

theorem shedProject_events_mono {now : Nat} {pn : List Decision} {p : String}
    {db db' : DB} (h : shedProject now pn p db = .ok db') :
    ∀ e ∈ db.events, e ∈ db'.events := by
  intro e he
  simp only [shedProject] at h
  split at h
  · refine eachE_presP (fun x => e ∈ x.events) ?_ he h
    rintro ⟨i, d⟩ db1 db2 hP hF
    obtain ⟨-, -, -, -, tail, ht, -⟩ := shedOne_ok_spec hF
    rw [ht]
    exact List.mem_append_left _ hP
  · cases h
    exact he

theorem loadShed_events_mono {now : Nat} {db db' : DB}
    (h : loadShed now db = .ok db') : ∀ e ∈ db.events, e ∈ db'.events := by
  intro e he
  unfold loadShed at h
  refine eachE_presP (fun x => e ∈ x.events) ?_ he h
  intro p db1 db2 hP hF
  exact shedProject_events_mono hF e hP

theorem reclaimExpiredClaims_cards_eq {now : Nat} {db db' : DB}
    (h : reclaimExpiredClaims now db = .ok db') : db'.cards = db.cards := by
  refine eachE_presP (fun x => x.cards = db.cards) ?_ rfl h
  rintro ⟨i, d⟩ db1 db2 hP hF
  rw [(reclaimOne_ok_spec hF).2.2.1, hP]

/-- Row preservation by one project of phase 4: a row that does not meet
the project's snapshot condition is untouched. -/
theorem shedProject_preserves_row {now : Nat} {pn : List Decision} {q : String}
    {db db' : DB} {j : Nat} {r : Decision}
    (hrow : db.decisions[j]? = some r)
    (hout : r.projectId ≠ q ∨ r.state ≠ .PENDING ∨ r.urgency ≠ .whenever)
    (h : shedProject now pn q db = .ok db') : db'.decisions[j]? = some r := by
  simp only [shedProject] at h
  split at h
  · have hfr := (eachE_track_outcome (fun d0 => shedOutcomePatch d0 now d0)
      (fun i d dba dbb hF => ⟨shedOutcomePatch d now, (shedOne_ok_spec hF).2.2.1, rfl⟩)
      (wheneverSnapshot q db) db db' (wheneverSnapshot_pairwise q db)
      (fun x hx => (wheneverSnapshot_rows hx).1) h).2
    rw [hfr j ?_]
    · exact hrow
    · intro x hx hxj
      obtain ⟨hxrow, hproj, hst, hur⟩ := wheneverSnapshot_rows hx
      rw [hxj, hrow] at hxrow
      obtain rfl : r = x.2 := by simpa using hxrow
      rcases hout with hc | hc | hc
      · exact hc hproj
      · exact hc hst
      · exact hc hur
  · cases h
    exact hrow

/-- A row that is not `PENDING` is untouched by the whole of phase 4. -/
theorem loadShed_preserves_row {now : Nat} {db db' : DB} {j : Nat} {r : Decision}
    (hrow : db.decisions[j]? = some r) (hst : r.state ≠ .PENDING)
    (h : loadShed now db = .ok db') : db'.decisions[j]? = some r := by
  unfold loadShed at h
  refine eachE_presP (fun x => x.decisions[j]? = some r) ?_ hrow h
  intro p db1 db2 hP hF
  exact shedProject_preserves_row hP (Or.inr (Or.inl hst)) hF

/-- A row that is not `CLAIMED` is untouched by phase 3. -/
theorem reclaimExpiredClaims_preserves_row {now : Nat} {db db' : DB} {j : Nat}
    {r : Decision} (hrow : db.decisions[j]? = some r) (hst : r.state ≠ .CLAIMED)
    (h : reclaimExpiredClaims now db = .ok db') : db'.decisions[j]? = some r := by
  unfold reclaimExpiredClaims at h
  refine ((eachE_track_outcome reclaimPatch
    (fun i d dba dbb hF => ⟨reclaimPatch, (reclaimOne_ok_spec hF).2.2.2.1, rfl⟩)
    (reclaimSnapshot now db) db db' (reclaimSnapshot_pairwise now db)
    (fun x hx => (reclaimSnapshot_rows hx).1) h).2 j ?_).trans hrow
  intro x hx hxj
  obtain ⟨hxrow, hxst⟩ := reclaimSnapshot_rows hx
  rw [hxj, hrow] at hxrow
  obtain rfl : r = x.2 := by simpa using hxrow
  exact hst hxst

/-! ## No card of a given id left in `NEEDS_DECISION` -/

/-- No card with this `cardId` is in `NEEDS_DECISION`. -/
def NoNDCard (cid : String) (db : DB) : Prop :=
  ∀ c ∈ db.cards, c.cardId = cid → c.state ≠ .NEEDS_DECISION

theorem noNDCard_of_cardsFrame {S : List CardState}
    (hS : CardState.NEEDS_DECISION ∉ S) {cid : String} {db db' : DB}
    (h : cardsFrame S db db') (hP : NoNDCard cid db) : NoNDCard cid db' := by
  intro c' hc'
  obtain ⟨k, hk⟩ := getElem?_of_mem_eq hc'
  obtain ⟨hl, hf⟩ := h
  have hklt : k < db.cards.length := by
    have := getElem?_some_lt hk
    omega
  obtain ⟨c, hc⟩ := getElem?_exists_of_lt hklt
  obtain ⟨c2, hc2, hid, hcase⟩ := hf k c hc
  obtain rfl : c2 = c' := by rw [hk] at hc2; exact (by simpa using hc2 : c' = c2).symm
  intro hcid
  rcases hcase with heqc | ⟨hs, -⟩
  · rw [heqc] at hcid ⊢
    exact hP c (mem_of_getElem?_some hc) hcid
  · intro hnd
    rw [hnd] at hs
    exact hS hs

/-- After a successful `transitionLinkedCard` with a target other than
`NEEDS_DECISION`, no card with the decision's `cardId` is left in
`NEEDS_DECISION`. -/
theorem transitionLinkedCard_noND {d : Decision} {toS : CardState}
    {reason : String} {now : Nat} {db db' : DB}
    (hne : toS ≠ .NEEDS_DECISION)
    (h : transitionLinkedCard d toS reason now db = .ok db') :
    NoNDCard d.cardId db' := by
  unfold transitionLinkedCard at h
  split at h
  · simp at h
  · next j card heq =>
    obtain ⟨hjrow, hjp, hjuniq⟩ := uniqueIdx_eq_some heq
    split at h
    · next hnd =>
      simp only [freshEvt] at h
      split at h
      · simp at h
      · next res db2 htc =>
        obtain rfl : db2 = db' := by simpa using h
        obtain ⟨i, card2, hc2, hcid2, -, -, hdb2⟩ := transitionCard_ok htc
        subst hdb2
        intro c hc hcid
        obtain ⟨k, hk⟩ := getElem?_of_mem_eq hc
        by_cases hik : i = k
        · subst hik
          rw [getElem?_updateAt_self _ hc2] at hk
          obtain rfl : transitionPatch _ card2.state now card2 = c := by simpa using hk
          rw [transitionPatch_state]
          exact hne
        · rw [getElem?_updateAt_ne _ _ hik] at hk
          obtain ⟨hkj, -⟩ := hjuniq k c hk (by simpa using hcid)
          have hcid2' : card2.cardId = d.cardId := hcid2
          obtain ⟨hij, -⟩ := hjuniq i card2 (by simpa using hc2) (by simpa using hcid2')
          exact absurd (hij.trans hkj.symm) hik
    · next hnd =>
      obtain rfl : db = db' := by simpa using h
      intro c hc hcid
      obtain ⟨k, hk⟩ := getElem?_of_mem_eq hc
      obtain ⟨-, rfl⟩ := hjuniq k c hk (by simpa using hcid)
      simpa using hnd
  · next heq =>
    obtain rfl : db = db' := by simpa using h
    intro c hc hcid
    obtain ⟨k, hk⟩ := getElem?_of_mem_eq hc
    have := uniqueIdx_eq_none heq k c hk
    rw [hcid] at this
    simp at this

theorem expireOne_noND {now i : Nat} {d : Decision} {db db' : DB}
    (h : expireOne now (i, d) db = .ok db') : NoNDCard d.cardId db' := by
  unfold expireOne at h
  simp only [freshEvt] at h
  split at h
  · simp at h
  · split at h
    · split at h
      · simp at h
      · exact transitionLinkedCard_noND (by decide) h
    · exact transitionLinkedCard_noND (by decide) h

theorem shedOne_noND {now count i : Nat} {d : Decision} {fb : String}
    {db db' : DB} (hfb : d.fallbackOption = some fb)
    (h : shedOne now count (i, d) db = .ok db') : NoNDCard d.cardId db' := by
  unfold shedOne at h
  simp only [freshEvt] at h
  split at h
  · split at h
    · simp at h
    · split at h
      · simp at h
      · exact transitionLinkedCard_noND (by decide) h
  · next hnone =>
    rw [hfb] at hnone
    simp at hnone

theorem expireDecisions_noND_pres {now : Nat} {cid : String} {db db' : DB}
    (hP : NoNDCard cid db) (h : expireDecisions now db = .ok db') :
    NoNDCard cid db' := by
  refine eachE_presP (NoNDCard cid) ?_ hP h
  rintro ⟨i, d⟩ db1 db2 hQ hF
  exact noNDCard_of_cardsFrame (by decide) (expireOne_ok_spec hF).2.2.2.1 hQ

theorem shedProject_noND_pres {now : Nat} {pn : List Decision} {p : String}
    {cid : String} {db db' : DB} (hP : NoNDCard cid db)
    (h : shedProject now pn p db = .ok db') : NoNDCard cid db' := by
  simp only [shedProject] at h
  split at h
  · refine eachE_presP (NoNDCard cid) ?_ hP h
    rintro ⟨i, d⟩ db1 db2 hQ hF
    exact noNDCard_of_cardsFrame (by decide) (shedOne_ok_spec hF).2.2.2.1 hQ
  · cases h
    exact hP

theorem loadShed_noND_pres {now : Nat} {cid : String} {db db' : DB}
    (hP : NoNDCard cid db) (h : loadShed now db = .ok db') : NoNDCard cid db' := by
  unfold loadShed at h
  refine eachE_presP (NoNDCard cid) ?_ hP h
  intro p db1 db2 hQ hF
  exact shedProject_noND_pres hQ hF

/-! ## The fate of an expired open decision across a whole sweep -/

/-- An open decision whose `expiresAt` has passed ends the sweep at its
expiry outcome, a `DecisionExpired` event for it is in the log, and no
card with its `cardId` remains in `NEEDS_DECISION`. -/
theorem sweep_expired_row {now : Nat} {db db' : DB} {i : Nat} {d : Decision}
    (hrow : db.decisions[i]? = some d)
    (hopen : isOpen d = true)
    (hexp : isExpiredAt now d = true)
    (h : sweep now db = .ok db') :
    db'.decisions[i]? = some (expireOutcomePatch d now d) ∧
    (∃ eid, decisionExpiredEvent d eid now ∈ db'.events) ∧
    NoNDCard d.cardId db' := by
  obtain ⟨db1, db2, db3, h1, h2, h3, h4⟩ := sweep_ok_chain h
  have hdeq : db1.decisions = db.decisions := releaseRetries_decisions_eq h1
  have hrow1 : db1.decisions[i]? = some d := by rw [hdeq]; exact hrow
  have hmem : (i, d) ∈ expireSnapshot now db1 := by
    unfold expireSnapshot
    exact List.mem_filter.mpr
      ⟨List.mem_filter.mpr ⟨mem_enumIdx.mpr hrow1, by simpa using hopen⟩,
       by simpa using hexp⟩
  unfold expireDecisions at h2
  have htrack := eachE_track_outcome (fun d0 => expireOutcomePatch d0 now d0)
    (fun i0 d0 dba dbb hF => ⟨expireOutcomePatch d0 now, (expireOne_ok_spec hF).2.2.1, rfl⟩)
    (expireSnapshot now db1) db1 db2 (expireSnapshot_pairwise now db1)
    (fun x hx => (expireSnapshot_rows hx).1) h2
  have hrow2 : db2.decisions[i]? = some (expireOutcomePatch d now d) :=
    htrack.1 (i, d) hmem
  have hev2 : ∃ eid, decisionExpiredEvent d eid now ∈ db2.events := by
    refine eachE_establish_pres (fun x => ∃ eid, decisionExpiredEvent d eid now ∈ x.events)
      ?_ hmem ?_ h2
    · rintro ⟨i0, d0⟩ dba dbb ⟨eid, hQ⟩ hF
      obtain ⟨-, -, -, -, tail, ht, -⟩ := expireOne_ok_spec hF
      exact ⟨eid, by rw [ht]; exact List.mem_append_left _ hQ⟩
    · intro dba dbb hF
      obtain ⟨-, -, -, -, tail, ht, -, -, -, eid, hm⟩ := expireOne_ok_spec hF
      exact ⟨eid, by rw [ht]; exact List.mem_append_right _ hm⟩
  have hnd2 : NoNDCard d.cardId db2 := by
    refine eachE_establish_pres (NoNDCard d.cardId) ?_ hmem
      (fun dba dbb hF => expireOne_noND hF) h2
    rintro ⟨i0, d0⟩ dba dbb hQ hF
    exact noNDCard_of_cardsFrame (by decide) (expireOne_ok_spec hF).2.2.2.1 hQ
  have hstate_ne : (expireOutcomePatch d now d).state ≠ .CLAIMED := by
    cases hfb : d.fallbackOption <;>
      simp [expireOutcomePatch, hfb, renderPatch, expirePatch]
  have hstate_ne2 : (expireOutcomePatch d now d).state ≠ .PENDING := by
    cases hfb : d.fallbackOption <;>
      simp [expireOutcomePatch, hfb, renderPatch, expirePatch]
  have hrow3 := reclaimExpiredClaims_preserves_row hrow2 hstate_ne h3
  have hrow4 := loadShed_preserves_row hrow3 hstate_ne2 h4
  have hev4 : ∃ eid, decisionExpiredEvent d eid now ∈ db'.events := by
    obtain ⟨eid, hm⟩ := hev2
    exact ⟨eid, loadShed_events_mono h4 _ (reclaimExpiredClaims_events_mono h3 _ hm)⟩
  have hnd3 : NoNDCard d.cardId db3 := by
    intro c hc
    rw [reclaimExpiredClaims_cards_eq h3] at hc
    exact hnd2 c hc
  exact ⟨hrow4, hev4, loadShed_noND_pres hnd3 h4⟩

/-! ## The fate of a project's `whenever` backlog under load shedding -/

theorem dedupFirstAux_not_seen : ∀ (l seen : List String) (x : String),
    x ∈ dedupFirstAux l seen → x ∉ seen := by
  intro l
  induction l with
  | nil => intro seen x hx; simp [dedupFirstAux] at hx
  | cons y ys ih =>
    intro seen x hx
    unfold dedupFirstAux at hx
    split at hx
    · exact ih seen x hx
    · next hy =>
      rcases List.mem_cons.mp hx with rfl | hx
      · exact hy
      · intro hseen
        exact ih _ _ hx (List.mem_cons_of_mem _ hseen)

theorem dedupFirstAux_nodup : ∀ (l seen : List String), (dedupFirstAux l seen).Nodup := by
  intro l
  induction l with
  | nil => intro seen; simp [dedupFirstAux]
  | cons y ys ih =>
    intro seen
    unfold dedupFirstAux
    split
    · exact ih seen
    · refine List.nodup_cons.mpr ⟨?_, ih (y :: seen)⟩
      intro hy
      exact dedupFirstAux_not_seen ys (y :: seen) y hy (List.mem_cons_self _ _)

theorem dedupFirst_nodup (l : List String) : (dedupFirst l).Nodup :=
  dedupFirstAux_nodup l []

theorem mem_dedupFirstAux : ∀ (l seen : List String) (x : String),
    x ∈ l → x ∉ seen → x ∈ dedupFirstAux l seen := by
  intro l
  induction l with
  | nil => intro seen x hx; simp at hx
  | cons y ys ih =>
    intro seen x hx hseen
    unfold dedupFirstAux
    split
    · next hy =>
      rcases List.mem_cons.mp hx with rfl | hx
      · exact absurd hy hseen
      · exact ih seen x hx hseen
    · next hy =>
      rcases List.mem_cons.mp hx with rfl | hx
      · exact List.mem_cons_self _ _
      · by_cases hxy : x = y
        · subst hxy; exact List.mem_cons_self _ _
        · refine List.mem_cons_of_mem _ (ih (y :: seen) x hx ?_)
          intro hc
          rcases List.mem_cons.mp hc with hc | hc
          · exact hxy hc
          · exact hseen hc

theorem mem_dedupFirst {l : List String} {x : String} (hx : x ∈ l) :
    x ∈ dedupFirst l :=
  mem_dedupFirstAux l [] x hx (by simp)

/-- A decision row of a project whose `now` backlog does not exceed the
defer threshold is untouched by `loadShed`. -/
theorem loadShed_project_idle {now : Nat} {db db' : DB} {p : String}
    (h : loadShed now db = .ok db')
    (hcnt : ¬ NOW_BACKLOG_DEFER_THRESHOLD <
      ((pendingNowSnapshot db).filter (fun d0 => d0.projectId == p)).length)
    {j : Nat} {r : Decision} (hrow : db.decisions[j]? = some r)
    (hproj : r.projectId = p) :
    db'.decisions[j]? = some r := by
  unfold loadShed at h
  refine eachE_presP (fun x => x.decisions[j]? = some r) ?_ hrow h
  intro q db1 db2 hP hF
  by_cases hqp : q = p
  · subst hqp
    simp only [shedProject] at hF
    rw [if_neg hcnt] at hF
    cases hF
    exact hP
  · exact shedProject_preserves_row hP
      (Or.inl (by rw [hproj]; exact fun hc => hqp hc.symm)) hF

/-- An event at a fixed log position survives an append-only step. -/
theorem events_getElem?_mono {db db' : DB} {tail : List Event}
    (hev : db'.events = db.events ++ tail) {k : Nat} {e : Event}
    (h : db.events[k]? = some e) : db'.events[k]? = some e := by
  rw [hev, List.getElem?_append_left (getElem?_some_lt h)]
  exact h

/-- A loop all of whose steps move cards only within the frame set
stays within the frame set. -/
theorem eachE_cardsFrame {S : List CardState} (hS : CardState.RETRY_SCHEDULED ∉ S)
    {F : α → DB → Except Err DB}
    (hstep : ∀ x db1 db2, F x db1 = .ok db2 → cardsFrame S db1 db2) :
    ∀ {l : List α} {db db' : DB}, eachE F l db = .ok db' → cardsFrame S db db' := by
  intro l db db' h
  refine eachE_presP (fun x => cardsFrame S db x) ?_ (cardsFrame_of_eq rfl) h
  intro x db1 db2 hP hF
  exact cardsFrame_trans hS hP (hstep x db1 db2 hF)

/-- Every card write of one project's shedding targets `RUNNING`. -/
theorem shedProject_cardsFrame {now : Nat} {pn : List Decision} {p : String}
    {db db' : DB} (h : shedProject now pn p db = .ok db') :
    cardsFrame [.RUNNING] db db' := by
  simp only [shedProject] at h
  split at h
  · refine eachE_cardsFrame (by decide) ?_ h
    rintro ⟨i, d⟩ db1 db2 hF
    exact (shedOne_ok_spec hF).2.2.2.1
  · cases h
    exact cardsFrame_of_eq rfl

/-- Every card write of the whole load-shedding phase targets
`RUNNING`. -/
theorem loadShed_cardsFrame {now : Nat} {db db' : DB}
    (h : loadShed now db = .ok db') : cardsFrame [.RUNNING] db db' := by
  unfold loadShed at h
  exact eachE_cardsFrame (by decide) (fun p db1 db2 hF => shedProject_cardsFrame hF) h

/-- A loop all of whose steps only append events only appends events. -/
theorem eachE_events_ext {F : α → DB → Except Err DB}
    (hstep : ∀ x db1 db2, F x db1 = .ok db2 → ∃ tail, db2.events = db1.events ++ tail) :
    ∀ {l : List α} {db db' : DB}, eachE F l db = .ok db' →
      ∃ tail, db'.events = db.events ++ tail := by
  intro l db db' h
  refine eachE_presP (fun x => ∃ tail, x.events = db.events ++ tail) ?_ ⟨[], by simp⟩ h
  intro x db1 db2 hP hF
  obtain ⟨t1, ht1⟩ := hP
  obtain ⟨t2, ht2⟩ := hstep x db1 db2 hF
  exact ⟨t1 ++ t2, by rw [ht2, ht1, List.append_assoc]⟩

theorem shedProject_events_ext {now : Nat} {pn : List Decision} {p : String}
    {db db' : DB} (h : shedProject now pn p db = .ok db') :
    ∃ tail, db'.events = db.events ++ tail := by
  simp only [shedProject] at h
  split at h
  · refine eachE_events_ext ?_ h
    rintro ⟨i, d⟩ db1 db2 hF
    obtain ⟨-, -, -, -, tail, ht, -⟩ := shedOne_ok_spec hF
    exact ⟨tail, ht⟩
  · cases h
    exact ⟨[], by simp⟩

/-- The fallback path of `shedOne` appends its `DecisionDeferred` and
`DecisionRendered` adjacently, in that order, before the card
transition's tail. -/
theorem shedOne_ok_adjacent {now count i : Nat} {d : Decision} {fb : String}
    {db db' : DB} (hfb : d.fallbackOption = some fb)
    (h : shedOne now count (i, d) db = .ok db') :
    ∃ (e1 e2 : String) (tail2 : List Event),
      db'.events = db.events ++
        deferredEvent d "auto_resolved_with_fallback" none count e1 now ::
        sweeperRenderedEvent d fb "auto-resolved via load shedding" e2 now :: tail2 := by
  unfold shedOne at h
  simp only [freshEvt] at h
  split at h
  · next fb2 hfb2 =>
    obtain rfl : fb = fb2 := by rw [hfb] at hfb2; simpa using hfb2
    split at h
    · simp at h
    · next n1 db3 happ1 =>
      have hdb3 := appendEvent_ok_noKey rfl happ1
      subst hdb3
      split at h
      · simp at h
      · next n2 db5 happ2 =>
        have hdb5 := appendEvent_ok_noKey rfl happ2
        subst hdb5
        obtain ⟨-, -, -, ⟨tail2, hev2, -⟩, -⟩ := transitionLinkedCard_ok_spec h
        refine ⟨"evt_" ++ Nat.repr db.gen, "evt_" ++ Nat.repr (db.gen + 1), tail2, ?_⟩
        rw [hev2]
        simp
  · next hnone =>
    rw [hfb] at hnone
    simp at hnone

/-- A `whenever`/`PENDING` decision of a project whose `now` backlog
exceeds the defer threshold is shed by `loadShed`: its row ends at the
shed outcome; on the fallback path the `DecisionDeferred` and
`DecisionRendered` events sit adjacently in that order in the final log
and no card with its `cardId` remains in `NEEDS_DECISION`. -/
theorem loadShed_project_sheds {now : Nat} {db db' : DB} {p : String}
    (h : loadShed now db = .ok db')
    (hcnt : NOW_BACKLOG_DEFER_THRESHOLD <
      ((pendingNowSnapshot db).filter (fun d0 => d0.projectId == p)).length)
    {i : Nat} {d : Decision} (hx : (i, d) ∈ wheneverSnapshot p db) :
    db'.decisions[i]? = some (shedOutcomePatch d now d) ∧
    (∀ fb, d.fallbackOption = some fb →
      (∃ (e1 e2 : String) (k : Nat),
        db'.events[k]? = some (deferredEvent d "auto_resolved_with_fallback" none
          ((pendingNowSnapshot db).filter (fun d0 => d0.projectId == p)).length
          e1 now) ∧
        db'.events[k + 1]? = some (sweeperRenderedEvent d fb
          "auto-resolved via load shedding" e2 now)) ∧
      NoNDCard d.cardId db') ∧
    (d.fallbackOption = none →
      ∃ eid, deferredEvent d "extended_expiry"
        (some ((d.expiresAt.getD now) + DEFER_EXTENSION_MS))
        ((pendingNowSnapshot db).filter (fun d0 => d0.projectId == p)).length
        eid now ∈ db'.events) := by
  obtain ⟨hrow0, hproj0, hst0, hur0⟩ := wheneverSnapshot_rows hx
  have hrow : db.decisions[i]? = some d := hrow0
  have hproj : d.projectId = p := hproj0
  have hst : d.state = .PENDING := hst0
  have hur : d.urgency = .whenever := hur0
  have hpmem : p ∈ dedupFirst ((pendingNowSnapshot db).map (fun d0 => d0.projectId)) := by
    have hne : ∃ d0, d0 ∈ (pendingNowSnapshot db).filter (fun d0 => d0.projectId == p) := by
      rcases hlst : (pendingNowSnapshot db).filter (fun d0 => d0.projectId == p) with - | ⟨a, l⟩
      · rw [hlst] at hcnt
        simp [NOW_BACKLOG_DEFER_THRESHOLD] at hcnt
      · exact ⟨a, by rw [hlst]; exact List.mem_cons_self _ _⟩
    obtain ⟨d0, hd0⟩ := hne
    have hm := List.mem_filter.mp hd0
    refine mem_dedupFirst (List.mem_map.mpr ⟨d0, hm.1, ?_⟩)
    simpa using hm.2
  obtain ⟨l1, l2, hsplit⟩ := List.append_of_mem hpmem
  have hnodup := dedupFirst_nodup ((pendingNowSnapshot db).map (fun d0 => d0.projectId))
  rw [hsplit] at hnodup
  have hnd := List.nodup_append.mp hnodup
  have hp1 : p ∉ l1 := fun hc => hnd.2.2 hc (List.mem_cons_self _ _)
  have hp2 : p ∉ l2 := (List.nodup_cons.mp hnd.2.1).1
  simp only [loadShed] at h
  rw [hsplit] at h
  obtain ⟨dbm, hA, hB⟩ := eachE_append_ok h
  obtain ⟨dbm2, hp', hC⟩ := eachE_ok_cons hB
  have hrowm : dbm.decisions[i]? = some d := by
    refine eachE_pres_mem (fun x => x.decisions[i]? = some d) ?_ hrow hA
    intro q hq db1 db2 hP hF
    refine shedProject_preserves_row hP (Or.inl ?_) hF
    rw [hproj]
    intro hc
    exact hp1 (hc ▸ hq)
  simp only [shedProject] at hp'
  rw [if_pos hcnt] at hp'
  have hxm : (i, d) ∈ wheneverSnapshot p dbm := by
    unfold wheneverSnapshot
    refine List.mem_filter.mpr ⟨mem_enumIdx.mpr hrowm, ?_⟩
    simp [hproj, hst, hur]
  have htrack := eachE_track_outcome (fun d0 => shedOutcomePatch d0 now d0)
    (fun i0 d0 dba dbb hF => ⟨shedOutcomePatch d0 now, (shedOne_ok_spec hF).2.2.1, rfl⟩)
    (wheneverSnapshot p dbm) dbm dbm2 (wheneverSnapshot_pairwise p dbm)
    (fun x hxx => (wheneverSnapshot_rows hxx).1) hp'
  have hrowm2 : dbm2.decisions[i]? = some (shedOutcomePatch d now d) :=
    htrack.1 (i, d) hxm
  have hOutProj : (shedOutcomePatch d now d).projectId = p := by
    cases hfb : d.fallbackOption <;>
      simp [shedOutcomePatch, hfb, shedRenderPatch, extendPatch, hproj]
  have hrowFinal : db'.decisions[i]? = some (shedOutcomePatch d now d) := by
    refine eachE_pres_mem
      (fun x => x.decisions[i]? = some (shedOutcomePatch d now d)) ?_ hrowm2 hC
    intro q hq db1 db2 hP hF
    refine shedProject_preserves_row hP (Or.inl ?_) hF
    rw [hOutProj]
    intro hc
    exact hp2 (hc ▸ hq)
  have hl2mono : ∀ e, e ∈ dbm2.events → e ∈ db'.events := by
    intro e he
    refine eachE_presP (fun x => e ∈ x.events) ?_ he hC
    intro q db1 db2 hP hF
    exact shedProject_events_mono hF e hP
  refine ⟨hrowFinal, ?_, ?_⟩
  · intro fb hfb
    refine ⟨?_, ?_⟩
    · obtain ⟨e1, e2, k, hk1, hk2⟩ :
          ∃ (e1 e2 : String) (k : Nat),
            dbm2.events[k]? = some (deferredEvent d "auto_resolved_with_fallback" none
              ((pendingNowSnapshot db).filter (fun d0 => d0.projectId == p)).length
              e1 now) ∧
            dbm2.events[k + 1]? = some (sweeperRenderedEvent d fb
              "auto-resolved via load shedding" e2 now) := by
        refine eachE_establish_pres
          (fun x => ∃ (e1 e2 : String) (k : Nat),
            x.events[k]? = some (deferredEvent d "auto_resolved_with_fallback" none
              ((pendingNowSnapshot db).filter (fun d0 => d0.projectId == p)).length
              e1 now) ∧
            x.events[k + 1]? = some (sweeperRenderedEvent d fb
              "auto-resolved via load shedding" e2 now)) ?_ hxm ?_ hp'
        · rintro ⟨i0, d0⟩ dba dbb ⟨e1, e2, k, hQ1, hQ2⟩ hF
          obtain ⟨-, -, -, -, tail, ht, -⟩ := shedOne_ok_spec hF
          exact ⟨e1, e2, k, events_getElem?_mono ht hQ1, events_getElem?_mono ht hQ2⟩
        · intro dba dbb hF
          obtain ⟨e1, e2, tail2, hev⟩ := shedOne_ok_adjacent hfb hF
          refine ⟨e1, e2, dba.events.length, ?_, ?_⟩
          · rw [hev, List.getElem?_append_right (Nat.le_refl _)]
            simp
          · rw [hev, List.getElem?_append_right (Nat.le_succ_of_le (Nat.le_refl _))]
            have hone : dba.events.length + 1 - dba.events.length = 1 := by omega
            rw [hone]
            simp
      have hprop : ∀ (kk : Nat) (e : Event),
          dbm2.events[kk]? = some e → db'.events[kk]? = some e := by
        intro kk e he
        refine eachE_presP (fun x => x.events[kk]? = some e) ?_ he hC
        intro q db1 db2 hP hF
        obtain ⟨tail, ht⟩ := shedProject_events_ext hF
        exact events_getElem?_mono ht hP
      exact ⟨e1, e2, k, hprop k _ hk1, hprop (k + 1) _ hk2⟩
    · have hndm2 : NoNDCard d.cardId dbm2 := by
        refine eachE_establish_pres (NoNDCard d.cardId) ?_ hxm
          (fun dba dbb hF => shedOne_noND hfb hF) hp'
        rintro ⟨i0, d0⟩ dba dbb hQ hF
        exact noNDCard_of_cardsFrame (by decide) (shedOne_ok_spec hF).2.2.2.1 hQ
      refine eachE_presP (NoNDCard d.cardId) ?_ hndm2 hC
      intro q db1 db2 hQ hF
      exact shedProject_noND_pres hQ hF
  · intro hfb
    obtain ⟨eid, hm⟩ : ∃ eid, deferredEvent d "extended_expiry"
        (some ((d.expiresAt.getD now) + DEFER_EXTENSION_MS))
        ((pendingNowSnapshot db).filter (fun d0 => d0.projectId == p)).length
        eid now ∈ dbm2.events := by
      refine eachE_establish_pres
        (fun x => ∃ eid, deferredEvent d "extended_expiry"
          (some ((d.expiresAt.getD now) + DEFER_EXTENSION_MS))
          ((pendingNowSnapshot db).filter (fun d0 => d0.projectId == p)).length
          eid now ∈ x.events) ?_ hxm ?_ hp'
      · rintro ⟨i0, d0⟩ dba dbb ⟨eid, hQ⟩ hF
        obtain ⟨-, -, -, -, tail, ht, -⟩ := shedOne_ok_spec hF
        exact ⟨eid, by rw [ht]; exact List.mem_append_left _ hQ⟩
      · intro dba dbb hF
        obtain ⟨-, -, -, -, tail, ht, -, -, -, -, hnonec⟩ := shedOne_ok_spec hF
        obtain ⟨eid, hm1⟩ := hnonec hfb
        exact ⟨eid, by rw [ht]; exact List.mem_append_right _ hm1⟩
    exact ⟨eid, hl2mono _ hm⟩

/-! ## Forward evaluation lemmas for `appendEvent` and the mutations -/

theorem appendEvent_noKey_eval {e : Event} {db : DB}
    (hs1 : containsSecret e.payload = false)
    (ht : e.tags = none) (hk : e.idempotencyKey = none) :
    appendEvent e db = .ok (db.events.length, { db with events := db.events ++ [e] }) := by
  unfold appendEvent
  rw [hk, ht]
  simp [hs1]

theorem appendEvent_dup_eval {e : Event} {db : DB} {k : String}
    (hs1 : containsSecret e.payload = false)
    (ht : e.tags = none)
    (hk : e.idempotencyKey = some k)
    (hdup : ∃ e0 ∈ db.events, e0.idempotencyKey = some k) :
    ∃ n, appendEvent e db = .ok (n, db) := by
  unfold appendEvent
  rw [hk, ht]
  rcases hf : (enumIdx db.events).find? (fun x => x.2.idempotencyKey == some k) with - | x
  · obtain ⟨e0, he0, hk0⟩ := hdup
    obtain ⟨idx, hidx⟩ := getElem?_of_mem_eq he0
    have hmem : (idx, e0) ∈ enumIdx db.events := mem_enumIdx.mpr hidx
    have hno := List.find?_eq_none.mp hf _ hmem
    simp [hk0] at hno
  · obtain ⟨j, e1⟩ := x
    refine ⟨j, ?_⟩
    simp [hs1, hf]

/-- A `requestCommand` body re-run with a duplicate idempotency key:
the `CommandRequested` append is deduplicated, but the command row, the
card row and the `CardCreated` event are all written again, and the
freshly generated ids are returned. -/
theorem requestCommandCore_dup {tid pid : String} {a : RequestCommandArgs}
    {cid kid e1 e2 : String} {now : Nat} {db : DB} {k : String}
    (hk : a.idempotencyKey = some k)
    (hdup : ∃ e0 ∈ db.events, e0.idempotencyKey = some k)
    (hs1 : containsSecret (commandRequestedEvent tid pid a cid kid e1 now).payload = false)
    (hs2 : containsSecret (commandCardCreatedEvent tid pid a cid kid e2 now).payload = false) :
    requestCommandCore tid pid a cid kid e1 e2 now db =
      .ok ((cid, kid),
        { db with
          commands := db.commands ++ [commandRow tid pid a cid e1 now]
          cards := db.cards ++ [commandCardRow tid pid a kid now]
          events := db.events ++ [commandCardCreatedEvent tid pid a cid kid e2 now] }) := by
  obtain ⟨n, hap⟩ := appendEvent_dup_eval hs1 rfl hk hdup
  have hap2 : appendEvent (commandCardCreatedEvent tid pid a cid kid e2 now)
      { db with
        commands := db.commands ++ [commandRow tid pid a cid e1 now]
        cards := db.cards ++ [commandCardRow tid pid a kid now] } =
      .ok (db.events.length,
        { db with
          commands := db.commands ++ [commandRow tid pid a cid e1 now]
          cards := db.cards ++ [commandCardRow tid pid a kid now]
          events := db.events ++ [commandCardCreatedEvent tid pid a cid kid e2 now] }) :=
    appendEvent_noKey_eval hs2 rfl rfl
  unfold requestCommandCore
  rw [hap]
  simp only []
  rw [hap2]

/-- `claimDecision` evaluated on the two live branches, given the auth
and lookup results. -/
theorem claimDecision_eval {ident : Option Identity} {pid did eid : String}
    {now : Nat} {db : DB} {auth : AuthContext} {i : Nat} {d : Decision}
    (hauth : requireAuth db ident pid [.operator, .owner] = .ok auth)
    (hrow : uniqueIdx (fun d0 => d0.decisionId == did) db.decisions = .ok (some (i, d)))
    (hproj : d.projectId = auth.projectId)
    (hstate : d.state = .PENDING ∨ d.state = .CLAIMED) :
    (claimGuard d auth.userId now = true →
      claimDecision ident pid did eid now db =
        .ok (.alreadyClaimed d.claimedBy d.claimedUntil, db)) ∧
    (claimGuard d auth.userId now = false →
      containsSecret (decisionClaimedEvent auth d eid now).payload = false →
      claimDecision ident pid did eid now db =
        .ok (.claimed (now + DECISION_CLAIM_MS),
          { db with
            decisions := updateAt db.decisions i
              (claimPatch auth.userId (now + DECISION_CLAIM_MS))
            events := db.events ++ [decisionClaimedEvent auth d eid now] })) := by
  have hnotboth : ¬ (d.state ≠ .PENDING ∧ d.state ≠ .CLAIMED) := by
    rcases hstate with hs | hs <;> simp [hs]
  constructor
  · intro hg
    unfold claimDecision
    rw [hauth, hrow]
    simp [hproj, hnotboth, hg]
  · intro hg hsec
    unfold claimDecision
    rw [hauth, hrow]
    simp [hproj, hnotboth, hg, appendEvent_noKey_eval hsec rfl rfl]

/-- `renderDecision` evaluated on its two recorded-rejection branches,
given the auth and lookup results. -/
theorem renderDecision_eval {ident : Option Identity} {pid did opt : String}
    {note : Option String} {eid : String} {now : Nat} {db : DB}
    {auth : AuthContext} {i : Nat} {d : Decision}
    (hauth : requireAuth db ident pid [.operator, .owner] = .ok auth)
    (hrow : uniqueIdx (fun d0 => d0.decisionId == did) db.decisions = .ok (some (i, d)))
    (hproj : d.projectId = auth.projectId) :
    (d.state ≠ .PENDING → d.state ≠ .CLAIMED →
      containsSecret (renderRejectedEvent auth d opt none eid now).payload = false →
      renderDecision ident pid did opt note eid now db =
        .ok (.rejected ("Decision already resolved (state: " ++ stateName d.state ++ ")"),
          { db with events := db.events ++ [renderRejectedEvent auth d opt none eid now] })) ∧
    (d.state = .CLAIMED → d.claimedBy.isSome = true → d.claimedBy ≠ some auth.userId →
      containsSecret
        (renderRejectedEvent auth d opt (some "claimed_by_another") eid now).payload = false →
      renderDecision ident pid did opt note eid now db =
        .ok (.rejected "Decision is claimed by another operator",
          { db with events := db.events ++
            [renderRejectedEvent auth d opt (some "claimed_by_another") eid now] })) := by
  constructor
  · intro hs1 hs2 hsec
    unfold renderDecision
    rw [hauth, hrow]
    simp [hproj, hs1, hs2, appendEvent_noKey_eval hsec rfl rfl]
  · intro hcl hsome hne hsec
    unfold renderDecision
    rw [hauth, hrow]
    simp [hproj, hcl, hsome, hne, appendEvent_noKey_eval hsec rfl rfl]

/-- `transitionCard` off the transition table: the precise thrown
error. -/
theorem transitionCard_invalid {a : TransitionArgs} {eid : String} {now : Nat}
    {db : DB} {i : Nat} {card : Card}
    (hrow : uniqueIdx (fun c => c.cardId == a.cardId) db.cards = .ok (some (i, card)))
    (hnot : a.toState ∉ VALID_TRANSITIONS card.state) :
    transitionCard a eid now db = .error (.InvalidTransition card.state a.toState) := by
  unfold transitionCard
  rw [hrow]
  simp [hnot]

theorem renderedCount_le_one_of_renderInv {db : DB} (hInv : RenderInv db)
    (did : String) : renderedCount db did ≤ 1 := by
  obtain ⟨hnd, hcnt, hout⟩ := hInv
  by_cases hmem : did ∈ decIds db
  · obtain ⟨d, hd, rfl⟩ := List.mem_map.mp hmem
    obtain ⟨i, hi⟩ := getElem?_of_mem_eq hd
    have := hcnt i d hi
    split at this <;> omega
  · simp [hout did hmem]

/-! ## A concrete pump: one render, then arbitrarily many recorded
rejections for the same decision id -/

def c1Member : Member :=
  { tenantId := "t", projectId := "p", userId := "u", role := .owner }

def c1Members : List Member := [c1Member]

def c1Ident : Identity := { subject := "u" }

def c1Auth : AuthContext :=
  { userId := "u", tenantId := "t", projectId := "p", role := .owner }

def c1Option : DecisionOption := { key := "k", label := "K", consequence := "c" }

def c1Args : RequestDecisionArgs :=
  { projectId := "p", cardId := "card", commandId := "cmd", runId := "run"
    correlationId := "corr", causationId := none, urgency := .now, title := "T"
    options := [c1Option], expiresAt := none, fallbackOption := none }

def c1ReqOp : Op := .requestDecision (some c1Ident) c1Args "d1" "e0" 0

def c1RenderOp : Op := .renderDecision (some c1Ident) "p" "d1" "k" none "e1" 1

def c1Row : Decision := requestDecisionRow "t" "p" c1Args "d1" 0

def c1RenderedRow : Decision := renderPatch "k" "u" 1 c1Row

def c1BaseEvents : List Event :=
  [decisionRequestedEvent "t" "p" c1Args "d1" "e0" 0,
   decisionRenderedEvent c1Auth c1Row "k" none "e1" 1]

def c1RejEv : Event := renderRejectedEvent c1Auth c1RenderedRow "k" none "e1" 1

/-- The pumped database: the rendered decision plus an event log. -/
def c1DB (evs : List Event) : DB :=
  { events := evs, commands := [], cards := [], decisions := [c1RenderedRow]
    members := c1Members, gen := 0 }

theorem c1_step (evs : List Event) :
    runOp c1RenderOp (c1DB evs) = .ok (c1DB (evs ++ [c1RejEv])) := rfl

theorem c1_apply (evs : List Event) :
    applyOp c1RenderOp (c1DB evs) = c1DB (evs ++ [c1RejEv]) := by
  unfold applyOp
  rw [c1_step]

theorem c1_pump : ∀ (n : Nat) (evs : List Event),
    runTrace (List.replicate n c1RenderOp) (c1DB evs) =
      c1DB (evs ++ List.replicate n c1RejEv) := by
  intro n
  induction n with
  | zero => intro evs; simp [runTrace]
  | succ m ih =>
    intro evs
    rw [List.replicate_succ]
    show runTrace (List.replicate m c1RenderOp) (applyOp c1RenderOp (c1DB evs)) = _
    rw [c1_apply, ih, List.replicate_succ]
    rw [List.append_cons evs c1RejEv (List.replicate m c1RejEv)]

theorem c1_init :
    applyOp c1RenderOp (applyOp c1ReqOp (initDB c1Members)) = c1DB c1BaseEvents := by
  decide

theorem c1_fresh_replicate : ∀ (n : Nat) (db : DB),
    freshTrace (List.replicate n c1RenderOp) db = true := by
  intro n
  induction n with
  | zero => intro db; rfl
  | succ m ih =>
    intro db
    rw [List.replicate_succ]
    show (freshOK db c1RenderOp && freshTrace (List.replicate m c1RenderOp)
      (applyOp c1RenderOp db)) = true
    rw [ih]
    rfl

theorem c1_fresh (n : Nat) :
    freshTrace (c1ReqOp :: c1RenderOp :: List.replicate n c1RenderOp)
      (initDB c1Members) = true := by
  show (freshOK (initDB c1Members) c1ReqOp &&
    (freshOK (applyOp c1ReqOp (initDB c1Members)) c1RenderOp &&
      freshTrace (List.replicate n c1RenderOp)
        (applyOp c1RenderOp (applyOp c1ReqOp (initDB c1Members))))) = true
  rw [c1_fresh_replicate]
  rfl

theorem filter_replicate_true {p : α → Bool} {x : α} (hx : p x = true) :
    ∀ n : Nat, (List.replicate n x).filter p = List.replicate n x := by
  intro n
  induction n with
  | zero => rfl
  | succ m ih =>
    rw [List.replicate_succ, List.filter_cons_of_pos hx, ih]

theorem filter_replicate_false {p : α → Bool} {x : α} (hx : p x = false) :
    ∀ n : Nat, (List.replicate n x).filter p = [] := by
  intro n
  induction n with
  | zero => rfl
  | succ m ih =>
    rw [List.replicate_succ, List.filter_cons_of_neg (by simp [hx]), ih]

theorem c1_rejected_count (n : Nat) :
    rejectedCount (c1DB (c1BaseEvents ++ List.replicate n c1RejEv)) "d1" = n := by
  unfold rejectedCount c1DB
  rw [List.filter_append, filter_replicate_true (by rfl) n]
  simp
  decide

theorem c1_rendered_count (n : Nat) :
    renderedCount (c1DB (c1BaseEvents ++ List.replicate n c1RejEv)) "d1" = 1 := by
  unfold renderedCount renderedCountEv c1DB
  rw [List.filter_append, filter_replicate_false (by rfl) n]
  simp
  decide

/-! ## Concrete instances for the remaining claims -/

instance {ε α : Type} [DecidableEq ε] [DecidableEq α] : DecidableEq (Except ε α) :=
  fun x y =>
    match x, y with
    | .ok a, .ok b =>
      if h : a = b then .isTrue (by rw [h])
      else .isFalse (by intro hc; cases hc; exact h rfl)
    | .error e, .error f =>
      if h : e = f then .isTrue (by rw [h])
      else .isFalse (by intro hc; cases hc; exact h rfl)
    | .ok _, .error _ => .isFalse (by intro hc; cases hc)
    | .error _, .ok _ => .isFalse (by intro hc; cases hc)

def c2Spec : CommandSpec :=
  { commandType := "deploy", commandVersion := none, args := none, context := none
    constraints := none }

def c2Args : RequestCommandArgs :=
  { projectId := "p", correlationId := "corr", title := "T", commandSpec := c2Spec
    idempotencyKey := some "idem" }

def c2DupDB : DB :=
  { events := [commandRequestedEvent "t" "p" c2Args "cmd1" "card1" "ev1" 0]
    commands := [], cards := [], decisions := [], members := [], gen := 0 }

def c3Spec : CardSpec := { commandType := "deploy", args := none, constraints := none }

def c3Args : CreateCardArgs :=
  { tenantId := "t", projectId := "p", commandId := "cmd", correlationId := "corr"
    title := "T", priority := 5, spec := c3Spec }

def c4Card : Card :=
  { cardId := "c", tenantId := "t", projectId := "p", state := .NEEDS_DECISION
    priority := 1, title := "T", spec := c3Spec, createdTs := 0, updatedTs := 0
    attempt := 0, retryAtTs := none }

def c4Dec1 : Decision :=
  { decisionId := "d1", tenantId := "t", projectId := "p", cardId := "c"
    commandId := "cmd", runId := "run", state := .PENDING, urgency := .now
    title := "T", options := [c1Option], requestedAt := 0, expiresAt := some 1
    fallbackOption := some "k", claimedBy := none, claimedUntil := none
    renderedOption := none, renderedAt := none, renderedBy := none }

def c4Dec2 : Decision := { c4Dec1 with decisionId := "d2", fallbackOption := none }

def c4DB : DB :=
  { events := [], commands := [], cards := [c4Card]
    decisions := [c4Dec1, c4Dec2], members := [], gen := 0 }

def c4wDB : DB := { c4DB with decisions := [c4Dec1] }

def c4wDB' : DB := match sweep 50 c4wDB with | .ok d => d | .error _ => initDB []

def c5Dec : Decision := { c4Dec1 with expiresAt := none, fallbackOption := none }

def c5DB : DB :=
  { events := [], commands := [], cards := [], decisions := [c5Dec]
    members := c1Members, gen := 0 }

def c6Dec : Decision := { c5Dec with state := .RENDERED }

def c6DB : DB := { c5DB with decisions := [c6Dec] }

def c7DecN (id : String) : Decision := { c5Dec with decisionId := id }

def c7DecW : Decision :=
  { c5Dec with decisionId := "dw", urgency := .whenever, fallbackOption := some "k" }

def c7DB : DB :=
  { events := [], commands := [], cards := [c4Card]
    decisions := [c7DecN "n1", c7DecN "n2", c7DecN "n3", c7DecW]
    members := [], gen := 0 }

def c7DB' : DB := match loadShed 10 c7DB with | .ok d => d | .error _ => initDB []

def c8Card : Card := { c4Card with state := .DONE }

def c8DB : DB :=
  { events := [], commands := [], cards := [c8Card], decisions := [], members := []
    gen := 0 }

def c9Args : TransitionArgs :=
  { cardId := "c", toState := .RETRY_SCHEDULED, reason := "backoff"
    correlationId := "x", commandId := none, runId := none, decisionId := none
    retryAtTs := none }

def c8Args : TransitionArgs := { c9Args with toState := .RUNNING }

def c9Card : Card := { c4Card with state := .RUNNING }

def c9DB : DB :=
  { events := [], commands := [], cards := [c9Card], decisions := [], members := []
    gen := 0 }

def c10Card2 : Card := { c4Card with state := .READY }

def c10Dec1 : Decision := { c4Dec1 with fallbackOption := none }

def c10Dec2 : Decision :=
  { c4Dec1 with decisionId := "d2", fallbackOption := none, cardId := "other" }

def c10DB : DB :=
  { events := [], commands := [], cards := [c4Card, c10Card2]
    decisions := [c10Dec1, c10Dec2], members := [], gen := 0 }

def c10DB2 : DB := { c10DB with decisions := [c10Dec2] }

/-! ## Error propagation through the sweep -/

theorem eachE_append_error {F : α → DB → Except Err DB} :
    ∀ {l1 : List α} {x : α} {l2 : List α} {db dbm : DB} {err : Err},
      eachE F l1 db = .ok dbm → F x dbm = .error err →
      eachE F (l1 ++ x :: l2) db = .error err := by
  intro l1
  induction l1 with
  | nil =>
    intro x l2 db dbm err h1 h2
    unfold eachE at h1
    cases h1
    rw [List.nil_append]
    exact eachE_error_head h2
  | cons y ys ih =>
    intro x l2 db dbm err h1 h2
    obtain ⟨db1, hF, hrest⟩ := eachE_ok_cons h1
    rw [List.cons_append]
    unfold eachE
    rw [hF]
    exact ih hrest h2


/-! # The claims -/

/-- Claim C1: across any operation sequence from an initial database
whose generated decision ids are fresh, every decision id has at most
one `DecisionRendered` event in the log, while for any target count `n`
there is a run with exactly `n` `DecisionRenderRejected` events for a
single decision id. -/
theorem C1_render_once_rejections_unbounded (members : List Member) (ops : List Op)
    (hfr : freshTrace ops (initDB members) = true) (did : String) (n : Nat) :
    renderedCount (runTrace ops (initDB members)) did ≤ 1 ∧
    ∃ (members2 : List Member) (ops2 : List Op) (did2 : String),
      freshTrace ops2 (initDB members2) = true ∧
      renderedCount (runTrace ops2 (initDB members2)) did2 ≤ 1 ∧
      rejectedCount (runTrace ops2 (initDB members2)) did2 = n := by
  constructor
  · exact renderedCount_le_one_of_renderInv
      (renderInv_runTrace hfr (renderInv_initDB members)) did
  · refine ⟨c1Members, c1ReqOp :: c1RenderOp :: List.replicate n c1RenderOp, "d1",
      c1_fresh n, ?_, ?_⟩
    · show renderedCount (runTrace (List.replicate n c1RenderOp)
        (applyOp c1RenderOp (applyOp c1ReqOp (initDB c1Members)))) "d1" ≤ 1
      rw [c1_init, c1_pump n c1BaseEvents, c1_rendered_count n]
    · show rejectedCount (runTrace (List.replicate n c1RenderOp)
        (applyOp c1RenderOp (applyOp c1ReqOp (initDB c1Members)))) "d1" = n
      rw [c1_init, c1_pump n c1BaseEvents]
      exact c1_rejected_count n

/-- Witness for C1 at a concrete trace and count. -/
theorem C1_witness :
    freshTrace [] (initDB []) = true ∧
    (renderedCount (runTrace [] (initDB [])) "d1" ≤ 1 ∧
     ∃ (members2 : List Member) (ops2 : List Op) (did2 : String),
       freshTrace ops2 (initDB members2) = true ∧
       renderedCount (runTrace ops2 (initDB members2)) did2 ≤ 1 ∧
       rejectedCount (runTrace ops2 (initDB members2)) did2 = 3) :=
  ⟨rfl, C1_render_once_rejections_unbounded [] [] rfl "d1" 3⟩

/-- Counterexample to C2 as stated: a second `requestCommand` with the
same idempotency key still inserts a second command row, a second card
row and a second `CardCreated` event — only the `CommandRequested`
append is suppressed. -/
theorem C2_counterexample :
    ∃ db1 db2 : DB,
      requestCommandCore "t" "p" c2Args "cmd1" "card1" "ev1" "ev2" 0 (initDB []) =
        .ok (("cmd1", "card1"), db1) ∧
      requestCommandCore "t" "p" c2Args "cmd2" "card2" "ev3" "ev4" 1 db1 =
        .ok (("cmd2", "card2"), db2) ∧
      db2.commands.length = 2 ∧ db2.cards.length = 2 ∧
      (db2.events.filter (fun e => e.type == .CardCreated)).length = 2 ∧
      (db2.events.filter (fun e => e.type == .CommandRequested)).length = 1 := by
  refine ⟨_, _, rfl, rfl, by decide, by decide, by decide, by decide⟩

/-- Claim C2 (amended): a duplicate idempotency key deduplicates only
the `CommandRequested` append; the command row, the card row and the
`CardCreated` event are written again and the freshly generated ids are
returned. -/
theorem C2_duplicate_key_behavior {tid pid : String} {a : RequestCommandArgs}
    {cid kid e1 e2 : String} {now : Nat} {db : DB} {k : String}
    (hk : a.idempotencyKey = some k)
    (hdup : ∃ e0 ∈ db.events, e0.idempotencyKey = some k)
    (hs1 : containsSecret (commandRequestedEvent tid pid a cid kid e1 now).payload = false)
    (hs2 : containsSecret (commandCardCreatedEvent tid pid a cid kid e2 now).payload = false) :
    ∃ db', requestCommandCore tid pid a cid kid e1 e2 now db = .ok ((cid, kid), db') ∧
      db'.commands = db.commands ++ [commandRow tid pid a cid e1 now] ∧
      db'.cards = db.cards ++ [commandCardRow tid pid a kid now] ∧
      db'.events = db.events ++ [commandCardCreatedEvent tid pid a cid kid e2 now] :=
  ⟨_, requestCommandCore_dup hk hdup hs1 hs2, rfl, rfl, rfl⟩

/-- Witness for C2 on a database that already holds the keyed event. -/
theorem C2_witness :
    c2Args.idempotencyKey = some "idem" ∧
    (∃ e0 ∈ c2DupDB.events, e0.idempotencyKey = some "idem") ∧
    ∃ db', requestCommandCore "t" "p" c2Args "cmd2" "card2" "ev3" "ev4" 1 c2DupDB =
        .ok (("cmd2", "card2"), db') ∧
      db'.commands = c2DupDB.commands ++ [commandRow "t" "p" c2Args "cmd2" "ev3" 1] ∧
      db'.cards = c2DupDB.cards ++ [commandCardRow "t" "p" c2Args "card2" 1] ∧
      db'.events = c2DupDB.events ++
        [commandCardCreatedEvent "t" "p" c2Args "cmd2" "card2" "ev4" 1] :=
  ⟨rfl, by decide, C2_duplicate_key_behavior rfl (by decide) (by decide) (by decide)⟩

/-- Claim C3 (code bug): `createCard` performs no authentication at all
— in a database where no caller can even resolve a membership, the
mutation still succeeds and writes the card row and the `CardCreated`
event.  The spec (and `design.md`) require the `bot|owner` role set via
the auth middleware. -/
theorem C3_createCard_skips_auth :
    (∀ (ident : Option Identity) (pid : String) (roles : List Role),
      ∃ err, requireAuth (initDB []) ident pid roles = .error err) ∧
    ∃ db', createCard c3Args "card1" "ev1" 0 (initDB []) = .ok ("card1", db') ∧
      db'.cards = [createCardRow c3Args "card1" 0] ∧
      db'.events = [createCardEvent c3Args "card1" "ev1" 0] := by
  constructor
  · intro ident pid roles
    cases ident with
    | none => exact ⟨.Unauthenticated, rfl⟩
    | some id0 => exact ⟨.NotAMember, rfl⟩
  · exact ⟨_, rfl, rfl, rfl⟩

/-- Claim C4 (amended): after a successful sweep, an open decision
whose `expiresAt` has passed is `RENDERED` with its fallback (rendered
by "system:sweeper") iff it had one and `EXPIRED` otherwise, its claim
fields are cleared, a `DecisionExpired` event carrying
`hadFallback = fallbackOption.isSome` is logged, and no card with its
`cardId` is left in `NEEDS_DECISION`.  (The original per-decision card
target `RUNNING`/`FAILED` fails when expired decisions share a card —
see the counterexample.) -/
theorem C4_sweeper_expiry {now : Nat} {db db' : DB} {i : Nat} {d : Decision}
    (hrow : db.decisions[i]? = some d)
    (hopen : d.state = .PENDING ∨ d.state = .CLAIMED)
    (hexp : ∃ t, d.expiresAt = some t ∧ t ≤ now)
    (h : sweep now db = .ok db') :
    ∃ d', db'.decisions[i]? = some d' ∧ d'.decisionId = d.decisionId ∧
      (∀ fb, d.fallbackOption = some fb →
        d'.state = .RENDERED ∧ d'.renderedOption = some fb ∧
        d'.renderedBy = some "system:sweeper") ∧
      (d.fallbackOption = none → d'.state = .EXPIRED) ∧
      d'.claimedBy = none ∧ d'.claimedUntil = none ∧
      (∃ e ∈ db'.events, e.type = .DecisionExpired ∧
        e.decisionId = some d.decisionId ∧
        e.payload = .decisionExpired d.expiresAt d.fallbackOption.isSome) ∧
      (∀ c ∈ db'.cards, c.cardId = d.cardId → c.state ≠ .NEEDS_DECISION) := by
  have hopen' : isOpen d = true := by rcases hopen with hs | hs <;> simp [isOpen, hs]
  have hexp' : isExpiredAt now d = true := by
    obtain ⟨t, ht, hle⟩ := hexp
    simp [isExpiredAt, ht, hle]
  obtain ⟨hrow', hev, hnd⟩ := sweep_expired_row hrow hopen' hexp' h
  refine ⟨expireOutcomePatch d now d, hrow', ?_, ?_, ?_, ?_, ?_, ?_, hnd⟩
  · cases hfb : d.fallbackOption <;>
      simp [expireOutcomePatch, hfb, renderPatch, expirePatch]
  · intro fb hfb
    simp [expireOutcomePatch, hfb, renderPatch]
  · intro hfb
    simp [expireOutcomePatch, hfb, expirePatch]
  · cases hfb : d.fallbackOption <;>
      simp [expireOutcomePatch, hfb, renderPatch, expirePatch]
  · cases hfb : d.fallbackOption <;>
      simp [expireOutcomePatch, hfb, renderPatch, expirePatch]
  · obtain ⟨eid, hm⟩ := hev
    exact ⟨decisionExpiredEvent d eid now, hm, rfl, rfl, rfl⟩

/-- Counterexample to C4 as stated: two expired decisions share a
`NEEDS_DECISION` card; the one without a fallback still expires, but
its card ends in `RUNNING` (moved by the fallback sibling), not
`FAILED`. -/
theorem C4_counterexample :
    c4Card.state = .NEEDS_DECISION ∧
    c4Dec2.cardId = c4Card.cardId ∧ c4Dec2.fallbackOption = none ∧
    ∃ db', sweep 100 c4DB = .ok db' ∧
      db'.decisions.map (fun r => r.state) = [.RENDERED, .EXPIRED] ∧
      db'.cards.map (fun c => c.state) = [.RUNNING] := by
  refine ⟨rfl, rfl, rfl, ?_⟩
  exact ⟨_, rfl, by decide, by decide⟩

/-- Witness for C4 on a concrete expired decision with a fallback. -/
theorem C4_witness :
    sweep 50 c4wDB = .ok c4wDB' ∧
    ∃ d', c4wDB'.decisions[0]? = some d' ∧ d'.decisionId = c4Dec1.decisionId ∧
      (∀ fb, c4Dec1.fallbackOption = some fb →
        d'.state = .RENDERED ∧ d'.renderedOption = some fb ∧
        d'.renderedBy = some "system:sweeper") ∧
      (c4Dec1.fallbackOption = none → d'.state = .EXPIRED) ∧
      d'.claimedBy = none ∧ d'.claimedUntil = none ∧
      (∃ e ∈ c4wDB'.events, e.type = .DecisionExpired ∧
        e.decisionId = some c4Dec1.decisionId ∧
        e.payload = .decisionExpired c4Dec1.expiresAt c4Dec1.fallbackOption.isSome) ∧
      (∀ c ∈ c4wDB'.cards, c.cardId = c4Dec1.cardId → c.state ≠ .NEEDS_DECISION) :=
  ⟨rfl, C4_sweeper_expiry
    ((by decide) : c4wDB.decisions[0]? = some c4Dec1)
    (Or.inl rfl)
    ((⟨1, rfl, by decide⟩) : ∃ t, c4Dec1.expiresAt = some t ∧ t ≤ 50)
    (rfl : sweep 50 c4wDB = Except.ok c4wDB')⟩

/-- Claim C5: `claimDecision` on an open decision — the
active-foreign-claim guard holds exactly when the decision is claimed
by a different user with an unexpired lease, in which case the row is
returned unmodified as `already_claimed`; otherwise (including a
re-claim by the current holder) the row moves to `CLAIMED` with
`claimedBy` the caller and `claimedUntil = now + 5 minutes`, and
`DecisionClaimed` is appended. -/
theorem C5_claimDecision_behavior {ident : Option Identity} {pid did eid : String}
    {now : Nat} {db : DB} {auth : AuthContext} {i : Nat} {d : Decision}
    (hauth : requireAuth db ident pid [.operator, .owner] = .ok auth)
    (hrow : uniqueIdx (fun d0 => d0.decisionId == did) db.decisions = .ok (some (i, d)))
    (hproj : d.projectId = auth.projectId)
    (hstate : d.state = .PENDING ∨ d.state = .CLAIMED) :
    (claimGuard d auth.userId now = true ↔
      (∃ cb, d.claimedBy = some cb ∧ cb ≠ auth.userId) ∧
      (∃ cu, d.claimedUntil = some cu ∧ now < cu)) ∧
    (d.claimedBy = some auth.userId → claimGuard d auth.userId now = false) ∧
    (claimGuard d auth.userId now = true →
      claimDecision ident pid did eid now db =
        .ok (.alreadyClaimed d.claimedBy d.claimedUntil, db)) ∧
    (claimGuard d auth.userId now = false →
      containsSecret (decisionClaimedEvent auth d eid now).payload = false →
      claimDecision ident pid did eid now db =
        .ok (.claimed (now + DECISION_CLAIM_MS),
          { db with
            decisions := updateAt db.decisions i
              (claimPatch auth.userId (now + DECISION_CLAIM_MS))
            events := db.events ++ [decisionClaimedEvent auth d eid now] })) ∧
    DECISION_CLAIM_MS = 5 * 60 * 1000 ∧
    (claimPatch auth.userId (now + DECISION_CLAIM_MS) d).state = .CLAIMED ∧
    (claimPatch auth.userId (now + DECISION_CLAIM_MS) d).claimedBy = some auth.userId ∧
    (claimPatch auth.userId (now + DECISION_CLAIM_MS) d).claimedUntil =
      some (now + DECISION_CLAIM_MS) := by
  obtain ⟨hbr1, hbr2⟩ := claimDecision_eval hauth hrow hproj hstate
  refine ⟨?_, ?_, hbr1, hbr2, rfl, rfl, rfl, rfl⟩
  · unfold claimGuard
    cases hcb : d.claimedBy with
    | none => simp
    | some cb =>
      cases hcu : d.claimedUntil with
      | none => simp
      | some cu => simp [Bool.and_eq_true]
  · intro hcb
    unfold claimGuard
    rw [hcb]
    cases hcu : d.claimedUntil with
    | none => rfl
    | some cu => simp

/-- Witness for C5: a concrete unclaimed decision is claimed with a
five-minute lease and a `DecisionClaimed` event. -/
theorem C5_witness :
    requireAuth c5DB (some c1Ident) "p" [.operator, .owner] = .ok c1Auth ∧
    claimDecision (some c1Ident) "p" "d1" "e9" 7 c5DB =
      .ok (.claimed (7 + DECISION_CLAIM_MS),
        { c5DB with
          decisions := updateAt c5DB.decisions 0
            (claimPatch c1Auth.userId (7 + DECISION_CLAIM_MS))
          events := c5DB.events ++ [decisionClaimedEvent c1Auth c5Dec "e9" 7] }) :=
  ⟨by decide,
   (C5_claimDecision_behavior
     ((by decide) : requireAuth c5DB (some c1Ident) "p" [.operator, .owner] = .ok c1Auth)
     ((by decide) : uniqueIdx (fun d0 => d0.decisionId == "d1") c5DB.decisions =
       .ok (some (0, c5Dec)))
     rfl (Or.inl rfl)).2.2.2.1 rfl (by decide)⟩

/-- Claim C6: `renderDecision` on an already-resolved decision, or by a
non-claimant on a `CLAIMED` decision, does not throw: it appends a
`DecisionRenderRejected` event recording the attempted option, the
attempting user and the current state (plus the `claimed_by_another`
reason on the claim-conflict path), leaves the decision rows unchanged,
and returns a structured rejection. -/
theorem C6_render_rejections_recorded {ident : Option Identity} {pid did opt : String}
    {note : Option String} {eid : String} {now : Nat} {db : DB}
    {auth : AuthContext} {i : Nat} {d : Decision}
    (hauth : requireAuth db ident pid [.operator, .owner] = .ok auth)
    (hrow : uniqueIdx (fun d0 => d0.decisionId == did) db.decisions = .ok (some (i, d)))
    (hproj : d.projectId = auth.projectId) :
    ((renderRejectedEvent auth d opt none eid now).payload =
      .decisionRenderRejected opt auth.userId d.state none) ∧
    (d.state ≠ .PENDING → d.state ≠ .CLAIMED →
      containsSecret (renderRejectedEvent auth d opt none eid now).payload = false →
      renderDecision ident pid did opt note eid now db =
        .ok (.rejected ("Decision already resolved (state: " ++ stateName d.state ++ ")"),
          { db with events := db.events ++
            [renderRejectedEvent auth d opt none eid now] })) ∧
    (d.state = .CLAIMED → d.claimedBy.isSome = true → d.claimedBy ≠ some auth.userId →
      containsSecret
        (renderRejectedEvent auth d opt (some "claimed_by_another") eid now).payload = false →
      renderDecision ident pid did opt note eid now db =
        .ok (.rejected "Decision is claimed by another operator",
          { db with events := db.events ++
            [renderRejectedEvent auth d opt (some "claimed_by_another") eid now] })) := by
  obtain ⟨hbr1, hbr2⟩ := renderDecision_eval hauth hrow hproj
  exact ⟨rfl, hbr1, hbr2⟩

/-- Witness for C6: a render attempt on a `RENDERED` decision yields a
recorded rejection and leaves the rows unchanged. -/
theorem C6_witness :
    renderDecision (some c1Ident) "p" "d1" "k" none "e9" 7 c6DB =
      .ok (.rejected ("Decision already resolved (state: " ++ stateName c6Dec.state ++ ")"),
        { c6DB with events := c6DB.events ++
          [renderRejectedEvent c1Auth c6Dec "k" none "e9" 7] }) :=
  (C6_render_rejections_recorded
    ((by decide) : requireAuth c6DB (some c1Ident) "p" [.operator, .owner] = .ok c1Auth)
    ((by decide) : uniqueIdx (fun d0 => d0.decisionId == "d1") c6DB.decisions =
      .ok (some (0, c6Dec)))
    rfl).2.1 (by decide) (by decide) (by decide)

/-- Claim C7: under `loadShed`, for a project whose `now` backlog
exceeds the defer threshold (2), every `PENDING`/`whenever` decision of
the project is shed: with a fallback it is auto-resolved to `RENDERED`
by "system:sweeper", the log holds its
`DecisionDeferred{auto_resolved_with_fallback}` immediately followed by
its `DecisionRendered`, and a card of its `cardId` that was in
`NEEDS_DECISION` at phase entry is transitioned to `RUNNING` (and none
is left in `NEEDS_DECISION`); without a fallback its `expiresAt`
becomes `(expiresAt ?? now) + 24h` with
`DecisionDeferred{extended_expiry}`.  When the backlog does not exceed
the threshold, the project's decision rows are untouched by the
phase. -/
theorem C7_loadShed_behavior {now : Nat} {db db' : DB} {p : String}
    (h : loadShed now db = .ok db') :
    (NOW_BACKLOG_DEFER_THRESHOLD <
        ((pendingNowSnapshot db).filter (fun d0 => d0.projectId == p)).length →
      ∀ (i : Nat) (d : Decision), (i, d) ∈ wheneverSnapshot p db →
        (∀ fb, d.fallbackOption = some fb →
          (∃ d', db'.decisions[i]? = some d' ∧ d'.state = .RENDERED ∧
            d'.renderedOption = some fb ∧ d'.renderedBy = some "system:sweeper") ∧
          (∃ (e1 e2 : String) (k : Nat),
            db'.events[k]? = some (deferredEvent d "auto_resolved_with_fallback" none
              ((pendingNowSnapshot db).filter (fun d0 => d0.projectId == p)).length
              e1 now) ∧
            db'.events[k + 1]? = some (sweeperRenderedEvent d fb
              "auto-resolved via load shedding" e2 now)) ∧
          (∀ (j : Nat) (c : Card), db.cards[j]? = some c → c.cardId = d.cardId →
            c.state = .NEEDS_DECISION →
            ∃ c', db'.cards[j]? = some c' ∧ c'.cardId = c.cardId ∧
              c'.state = .RUNNING) ∧
          (∀ c ∈ db'.cards, c.cardId = d.cardId → c.state ≠ .NEEDS_DECISION)) ∧
        (d.fallbackOption = none →
          (∃ d', db'.decisions[i]? = some d' ∧ d'.state = .PENDING ∧
            d'.expiresAt = some ((d.expiresAt.getD now) + DEFER_EXTENSION_MS)) ∧
          (∃ eid, deferredEvent d "extended_expiry"
            (some ((d.expiresAt.getD now) + DEFER_EXTENSION_MS))
            ((pendingNowSnapshot db).filter (fun d0 => d0.projectId == p)).length
            eid now ∈ db'.events))) ∧
    (¬ NOW_BACKLOG_DEFER_THRESHOLD <
        ((pendingNowSnapshot db).filter (fun d0 => d0.projectId == p)).length →
      ∀ (j : Nat) (r : Decision), db.decisions[j]? = some r → r.projectId = p →
        db'.decisions[j]? = some r) := by
  constructor
  · intro hcnt i d hx
    obtain ⟨hout, hsome, hnone⟩ := loadShed_project_sheds h hcnt hx
    have hstP : d.state = .PENDING := (wheneverSnapshot_rows hx).2.2.1
    constructor
    · intro fb hfb
      obtain ⟨hadj, hnd⟩ := hsome fb hfb
      refine ⟨⟨shedOutcomePatch d now d, hout, ?_, ?_, ?_⟩, hadj, ?_, hnd⟩
      · simp [shedOutcomePatch, hfb, shedRenderPatch]
      · simp [shedOutcomePatch, hfb, shedRenderPatch]
      · simp [shedOutcomePatch, hfb, shedRenderPatch]
      · intro j c hcj hcid hnd0
        obtain ⟨hl, hf⟩ := loadShed_cardsFrame h
        obtain ⟨c', hc', hid, hcase⟩ := hf j c hcj
        refine ⟨c', hc', hid, ?_⟩
        rcases hcase with heq | ⟨hs, -⟩
        · exfalso
          apply hnd c' (mem_of_getElem?_some hc') (by rw [hid, hcid])
          rw [heq, hnd0]
        · simpa using hs
    · intro hfb
      refine ⟨⟨shedOutcomePatch d now d, hout, ?_, ?_⟩, hnone hfb⟩
      · simp [shedOutcomePatch, hfb, extendPatch, hstP]
      · simp [shedOutcomePatch, hfb, extendPatch]
  · intro hcnt j r hrow hproj
    exact loadShed_project_idle h hcnt hrow hproj

/-- Witness for C7: three `now`-urgency pending decisions push the
backlog over the threshold; the `whenever` decision with a fallback is
auto-resolved and its `NEEDS_DECISION` card is transitioned to
`RUNNING`. -/
theorem C7_witness :
    loadShed 10 c7DB = .ok c7DB' ∧
    NOW_BACKLOG_DEFER_THRESHOLD <
      ((pendingNowSnapshot c7DB).filter (fun d0 => d0.projectId == "p")).length ∧
    (3, c7DecW) ∈ wheneverSnapshot "p" c7DB ∧
    (∃ d', c7DB'.decisions[3]? = some d' ∧ d'.state = .RENDERED ∧
      d'.renderedOption = some "k" ∧ d'.renderedBy = some "system:sweeper") ∧
    (∃ c', c7DB'.cards[0]? = some c' ∧ c'.cardId = c4Card.cardId ∧
      c'.state = .RUNNING) :=
  ⟨rfl, by decide, by decide,
   (((@C7_loadShed_behavior 10 c7DB c7DB' "p" rfl).1
     (by decide) 3 c7DecW (by decide)).1 "k" rfl).1,
   (((@C7_loadShed_behavior 10 c7DB c7DB' "p" rfl).1
     (by decide) 3 c7DecW (by decide)).1 "k" rfl).2.2.1 0 c4Card (by decide) rfl rfl⟩

/-- Claim C8: every `CardTransitioned(from, to)` in any reachable log is
an edge of `VALID_TRANSITIONS`; a `transitionCard` whose target is off
the table throws `InvalidTransition`; and `DONE`/`FAILED` cards admit no
transition at all (their edge sets are empty), so terminal cards emit no
further `CardTransitioned` events. -/
theorem C8_transition_table (members : List Member) (ops : List Op) :
    EdgeInv (runTrace ops (initDB members)) ∧
    (∀ (a : TransitionArgs) (eid : String) (now : Nat) (db : DB) (i : Nat) (card : Card),
      uniqueIdx (fun c => c.cardId == a.cardId) db.cards = .ok (some (i, card)) →
      a.toState ∉ VALID_TRANSITIONS card.state →
      transitionCard a eid now db = .error (.InvalidTransition card.state a.toState)) ∧
    (∀ (a : TransitionArgs) (eid : String) (now : Nat) (db : DB) (i : Nat) (card : Card),
      uniqueIdx (fun c => c.cardId == a.cardId) db.cards = .ok (some (i, card)) →
      card.state = .DONE ∨ card.state = .FAILED →
      transitionCard a eid now db = .error (.InvalidTransition card.state a.toState)) := by
  refine ⟨edgeInv_runTrace (edgeInv_initDB members), ?_, ?_⟩
  · intro a eid now db i card hrow hnot
    exact transitionCard_invalid hrow hnot
  · intro a eid now db i card hrow hterm
    refine transitionCard_invalid hrow ?_
    rcases hterm with hs | hs <;> simp [VALID_TRANSITIONS, hs]

/-- Witness for C8: a `DONE` card rejects a transition to `RUNNING`. -/
theorem C8_witness :
    EdgeInv (runTrace [] (initDB [])) ∧
    uniqueIdx (fun c => c.cardId == c8Args.cardId) c8DB.cards = .ok (some (0, c8Card)) ∧
    (c8Card.state = .DONE ∨ c8Card.state = .FAILED) ∧
    transitionCard c8Args "e1" 0 c8DB =
      .error (.InvalidTransition c8Card.state c8Args.toState) :=
  ⟨(C8_transition_table [] []).1, by decide, Or.inl rfl,
   (C8_transition_table [] []).2.2 c8Args "e1" 0 c8DB 0 c8Card (by decide) (Or.inl rfl)⟩

/-- Counterexample to C9 as stated: entering `RETRY_SCHEDULED` without
the optional `retryAtTs` argument succeeds but leaves `retryAtTs` unset
while the state is `RETRY_SCHEDULED`, breaking the invariant. -/
theorem C9_counterexample :
    RetryInv c9DB ∧
    retryOK (.transitionCard c9Args "e1" 5) = false ∧
    ∃ db', runOp (.transitionCard c9Args "e1" 5) c9DB = .ok db' ∧
      db'.cards.map (fun c => (c.state, c.retryAtTs)) = [(.RETRY_SCHEDULED, none)] ∧
      ¬ RetryInv db' := by
  refine ⟨by unfold RetryInv; decide, rfl, ?_⟩
  refine ⟨_, rfl, by decide, ?_⟩
  unfold RetryInv
  decide

/-- Claim C9 (amended): provided every `transitionCard` into
`RETRY_SCHEDULED` supplies the `retryAtTs` argument, `retryAtTs` is set
iff the card is in `RETRY_SCHEDULED` after every operation sequence. -/
theorem C9_retryAtTs_iff_scheduled (members : List Member) (ops : List Op)
    (hr : ∀ op ∈ ops, retryOK op = true) :
    RetryInv (runTrace ops (initDB members)) :=
  retryInv_runTrace hr (retryInv_initDB members)

/-- Witness for C9 on a one-operation trace. -/
theorem C9_witness :
    (∀ op ∈ [Op.transitionCard c8Args "e1" 0], retryOK op = true) ∧
    RetryInv (runTrace [Op.transitionCard c8Args "e1" 0] (initDB [])) :=
  ⟨by decide, C9_retryAtTs_iff_scheduled [] [Op.transitionCard c8Args "e1" 0] (by decide)⟩

/-- Counterexample to C10 as stated: an error while expiring the first
decision (here a `.unique()` throw caused by two cards sharing its
`cardId`) aborts the whole sweep — the second expired decision is not
processed and the transaction rolls back, although a sweep over the
second decision alone succeeds and expires it. -/
theorem C10_counterexample :
    sweep 100 c10DB = .error .MultipleRows ∧
    applyOp (.sweep 100) c10DB = c10DB ∧
    ∃ db', sweep 100 c10DB2 = .ok db' ∧
      db'.decisions.map (fun r => (r.decisionId, r.state)) = [("d2", .EXPIRED)] := by
  refine ⟨rfl, by decide, _, rfl, by decide⟩

/-- Claim C10 (amended): the sweep has no per-item error isolation: if
any snapshot item of the expiry phase throws, the whole pass returns
that error and, the mutation being transactional, the database is left
unchanged — no remaining item and no later phase runs. -/
theorem C10_failure_aborts_pass {now : Nat} {db db1 dbm : DB}
    {pend1 pend2 : List (Nat × Decision)} {x : Nat × Decision} {err : Err}
    (h1 : releaseRetries now db = .ok db1)
    (hsnap : expireSnapshot now db1 = pend1 ++ x :: pend2)
    (hmid : eachE (expireOne now) pend1 db1 = .ok dbm)
    (hfail : expireOne now x dbm = .error err) :
    sweep now db = .error err ∧ applyOp (.sweep now) db = db := by
  have hexp : expireDecisions now db1 = .error err := by
    unfold expireDecisions
    rw [hsnap]
    exact eachE_append_error hmid hfail
  have hsw : sweep now db = .error err := by
    unfold sweep
    rw [h1]
    simp only []
    rw [hexp]
  refine ⟨hsw, ?_⟩
  unfold applyOp
  simp only [runOp]
  rw [hsw]

/-- Witness for C10 on the concrete failing sweep. -/
theorem C10_witness :
    releaseRetries 100 c10DB = .ok c10DB ∧
    expireSnapshot 100 c10DB = [] ++ (0, c10Dec1) :: [(1, c10Dec2)] ∧
    eachE (expireOne 100) ([] : List (Nat × Decision)) c10DB = .ok c10DB ∧
    expireOne 100 (0, c10Dec1) c10DB = .error .MultipleRows ∧
    (sweep 100 c10DB = .error .MultipleRows ∧ applyOp (.sweep 100) c10DB = c10DB) :=
  ⟨rfl, by decide, rfl, rfl,
   C10_failure_aborts_pass
     (rfl : releaseRetries 100 c10DB = .ok c10DB)
     ((by decide) : expireSnapshot 100 c10DB = [] ++ (0, c10Dec1) :: [(1, c10Dec2)])
     rfl
     (rfl : expireOne 100 (0, c10Dec1) c10DB = .error .MultipleRows)⟩

end Clawops
